import Mathlib

/-!
# BakingLab: the voxel bake scheduler and the voxelization driver

A shallow embedding of `BakingLab::VoxelizeScene` and `BakingLab::BakeWithVoxels`
(src/BakingLab/BakingLab.cpp).  The host code is single threaded; every GPU call it
issues is recorded, in program order, as a `GpuCmd`.

Conventions of the embedding:
* `uint32` arithmetic is written on `Nat` with an explicit reduction modulo `2 ^ 32`
  (`u32`, `subU32`); `status.NumBakePoints * numPasses` is a 64-bit product (`u64`).
* `float` values are modelled by the rationals they denote, and every conversion to
  `float` and every float operation rounds to the nearest `float`, ties to even (`f32`);
  a float division whose divisor is zero has no finite value and is modelled by `none`
  (`fdiv`).
* an integer division by zero is a fault: the function returns `none`.
* settings (`AppSettings::...`), their `Changed()` flags and the `MeshBakerStatus`
  fields are inputs of each invocation.
-/

namespace BakingLab

/-! ## Machine arithmetic -/

/-- Reduction of a natural number to a `uint32` value. -/
def u32 (n : Nat) : Nat := n % 4294967296

/-- Reduction of a natural number to a `uint64` value. -/
def u64 (n : Nat) : Nat := n % 18446744073709551616

/-- Subtraction of two `uint32` values, wrapping around below zero. -/
def subU32 (a b : Nat) : Nat := (u32 a + 4294967296 - u32 b) % 4294967296

/-- Rounding of a rational to the nearest integer, a tie going to the even neighbour. -/
def roundEven (r : ℚ) : ℤ :=
  if r - ⌊r⌋ < 1 / 2 then ⌊r⌋
  else if 1 / 2 < r - ⌊r⌋ then ⌊r⌋ + 1
  else if ⌊r⌋ % 2 = 0 then ⌊r⌋ else ⌊r⌋ + 1

/-- Rounding of a positive rational to a `float` (IEEE binary32, round to nearest, ties to
even): in the binade `[2 ^ e, 2 ^ (e + 1))`, `e = Int.log 2 x`, the floats are the
multiples of `2 ^ (e - 23)` (24-bit significand).  The exponent range is not modelled:
every non-zero value that lines 1060-1061 round lies between `2 ^ (-64)` and `2 ^ 64`,
where all floats are normal. -/
def roundPos (x : ℚ) : ℚ :=
  (roundEven (x / 2 ^ (Int.log 2 x - 23)) : ℚ) * 2 ^ (Int.log 2 x - 23)

/-- The `float` nearest to a rational: the value of a conversion to `float`, and of a
float operation applied to the exact result. -/
def f32 (x : ℚ) : ℚ :=
  if x = 0 then 0 else if 0 < x then roundPos x else -roundPos (-x)

/-- Float division: the quotient rounded to `float`; no finite value when the divisor is
zero. -/
def fdiv (a b : ℚ) : Option ℚ := if b = 0 then none else some (f32 (a / b))

/-- Float addition: the sum rounded to `float`; a non-finite operand gives a non-finite
sum. -/
def fadd (a b : Option ℚ) : Option ℚ :=
  match a, b with
  | some x, some y => some (f32 (x + y))
  | _, _ => none

/-! ## Data model -/

/-- The settings read by `VoxelizeScene` and `BakeWithVoxels`, with the `Changed()`
flags of the settings whose change the code tests. -/
structure AppSettings where
  BakeWithVoxels : Bool
  NumBakeSamples : Nat
  NumSamplesPerPass : Nat
  NumSamplesPerPassChanged : Bool
  MaxBakePointsPerPass : Nat
  LightMapResolution : Nat
  BasisCount : Nat
  AlwaysRevoxelize : Bool
  SceneBoundsScaleChanged : Bool
  VoxelResolution : Nat
  VoxelResolutionChanged : Bool
  EnableSun : Bool
  EnableAreaLight : Bool
  deriving DecidableEq, Repr

/-- The fields of `MeshBakerStatus` read by the two functions. -/
structure MeshBakerStatus where
  BakingInvalidated : Bool
  NumBakePoints : Nat
  NumGutterTexels : Nat
  deriving DecidableEq, Repr

/-- The fields of the lightmap render target `voxelBakeTexture` the code reads. -/
structure RenderTarget2D where
  Width : Nat
  ArraySize : Nat
  deriving DecidableEq, Repr

/-- The fields of the mip textures `voxelRadianceMips[i]` the code reads; the six
textures are always initialised with the same arguments. -/
structure Texture3D where
  Width : Nat
  NumMipLevels : Nat
  deriving DecidableEq, Repr

/-- The members of `BakingLab` that `VoxelizeScene` and `BakeWithVoxels` read or write. -/
structure State where
  voxelBakePass : Nat
  voxelBakePointOffset : Nat
  voxelBakeProgress : Option ℚ
  voxelBakeTexture : RenderTarget2D
  voxelRadianceCreated : Bool
  voxelRadianceMips : Texture3D
  numVoxelMips : Nat
  deriving DecidableEq

/-- GPU resources bound as shader inputs or outputs. -/
inductive Resource where
  | voxelRadiance
  | voxelRadianceMip (chain : Nat) (level : Nat)
  | jumpFloodTexturePositive
  | jumpFloodTextureNegative
  | voxelDistanceField
  deriving DecidableEq, Repr

/-- The integer fields of the constant buffer `voxelBakeConstants`. -/
structure VoxelBakeConstants where
  BakeSampleStart : Nat
  NumSamplesToBake : Nat
  BasisCount : Nat
  NumBakePoints : Nat
  BakePointOffset : Nat
  NumGutterTexels : Nat
  deriving DecidableEq, Repr

/-- The GPU calls issued by the two functions.  A compute dispatch records the element
count handed to `DispatchSize` (the thread-group count is `DispatchSize(groupSize, count)`,
a helper of the sample framework). -/
inductive GpuCmd where
  /-- The call `voxelBakeTexture.Initialize(device, resolution, resolution, ..., arraySize, ...)` -/
  | initBakeTexture (resolution : Nat) (arraySize : Nat)
  /-- The call `ClearRenderTargetView(voxelBakeTexture.RTVArraySlices[i], clearColor)` -/
  | clearLightMapSlice (i : Nat)
  /-- The `voxelBakeCS` dispatch, `Dispatch(DispatchSize(64, numPointsToBake), 1, 1)` -/
  | dispatchVoxelBake (numPointsToBake : Nat) (c : VoxelBakeConstants)
  /-- The `fillGuttersCS` dispatch -/
  | dispatchFillGutters (numGutterTexels : Nat)
  /-- Creation of the voxel, mip, jump-flood and distance textures -/
  | initVoxelTextures (resolution : Nat) (voxelMipSize : Nat) (numMips : Nat)
  /-- The `clearVoxelRadiance` dispatch over the whole volume -/
  | dispatchClearVoxelRadiance (resolution : Nat)
  | renderSunShadowMap
  | renderAreaLightShadowMap
  /-- The call `meshRenderer.RenderMainPass` with the camera of axis 0 (X), 1 (Y), 2 (Z) -/
  | renderMainPass (axis : Nat)
  /-- One iteration of the mip loop: shader inputs, outputs and the two mip sizes -/
  | dispatchGenerateMip (srcMipLevel : Nat) (srvs : List Resource) (uavs : List Resource)
      (srcMipSize : Nat) (dstMipSize : Nat)
  | dispatchInitJumpFlood (srvs : List Resource) (uavs : List Resource)
  | dispatchJumpFloodIteration (srvs : List Resource) (uavs : List Resource) (stepSize : Nat)
  | dispatchFillDistanceTexture (srvs : List Resource) (uavs : List Resource)
  deriving DecidableEq, Repr

/-- Modelled from the spec: the member initialisers of `BakingLab` are in the class
declaration, which is not part of the source file; the session starts at pass 0,
offset 0, with no texture created yet. -/
def State.initial : State :=
  { voxelBakePass := 0
    voxelBakePointOffset := 0
    voxelBakeProgress := some 0
    voxelBakeTexture := { Width := 0, ArraySize := 0 }
    voxelRadianceCreated := false
    voxelRadianceMips := { Width := 0, NumMipLevels := 0 }
    numVoxelMips := 0 }

/-! ## VoxelizeScene (lines 773-976) -/

/-- The six shader inputs of a mip-loop iteration (lines 898-910). -/
def mipSources (srcMipLevel : Nat) : List Resource :=
  if srcMipLevel = 0 then [Resource.voxelRadiance]
  else (List.range 6).map (fun i => Resource.voxelRadianceMip i (srcMipLevel - 1))

/-- The six shader outputs of a mip-loop iteration (lines 912-914). -/
def mipTargets (srcMipLevel : Nat) : List Resource :=
  (List.range 6).map (fun i => Resource.voxelRadianceMip i srcMipLevel)

/-- The loop of lines 896-939, with `remaining = numMips - srcMipLevel` iterations left. -/
def generateVoxelMipsLoop : Nat → Nat → Nat → List GpuCmd
  | 0, _, _ => []
  | remaining + 1, srcMipLevel, srcMipSize =>
    let dstMipSize := max (srcMipSize / 2) 1
    GpuCmd.dispatchGenerateMip srcMipLevel (mipSources srcMipLevel) (mipTargets srcMipLevel)
        srcMipSize dstMipSize
      :: generateVoxelMipsLoop remaining (srcMipLevel + 1) dstMipSize

/-- The resources bound while the distance field is built (lines 947-948). -/
def jumpFloodInputs : List Resource := [Resource.voxelRadiance]

/-- The outputs bound once, before the init dispatch, for all distance-field dispatches. -/
def jumpFloodOutputs : List Resource :=
  [Resource.jumpFloodTexturePositive, Resource.jumpFloodTextureNegative,
   Resource.voxelDistanceField]

/-- The loop of lines 960-968, with `remaining` passes left and the current step size. -/
def jumpFloodLoop : Nat → Nat → List GpuCmd
  | 0, _ => []
  | remaining + 1, stepSize =>
    GpuCmd.dispatchJumpFloodIteration jumpFloodInputs jumpFloodOutputs stepSize
      :: jumpFloodLoop remaining (max (stepSize / 2) 1)

/-- The decision of lines 778-785: is the volume rebuilt in this invocation? -/
def reVoxelize (cfg : AppSettings) (status : MeshBakerStatus) (app : State) : Bool :=
  (status.BakingInvalidated || cfg.AlwaysRevoxelize || cfg.SceneBoundsScaleChanged)
    || (!app.voxelRadianceCreated || cfg.VoxelResolutionChanged)

/-- The (re)creation of the voxel textures, lines 783-800. -/
def createVoxelTextures (cfg : AppSettings) (app : State) : State × List GpuCmd :=
  if !app.voxelRadianceCreated || cfg.VoxelResolutionChanged then
    let voxelMipSize := max (u32 (cfg.VoxelResolution / 2)) 1
    let numMips := max (subU32 app.numVoxelMips 1) 1
    ({ app with voxelRadianceCreated := true
                voxelRadianceMips := { Width := voxelMipSize, NumMipLevels := numMips } },
     [GpuCmd.initVoxelTextures cfg.VoxelResolution voxelMipSize numMips])
  else (app, [])

/-- The GPU calls of a rebuild, lines 808-975. -/
def rebuildCommands (cfg : AppSettings) (app : State) : List GpuCmd :=
  [GpuCmd.dispatchClearVoxelRadiance cfg.VoxelResolution]
    ++ (if cfg.EnableSun then [GpuCmd.renderSunShadowMap] else [])
    ++ (if cfg.EnableAreaLight then [GpuCmd.renderAreaLightShadowMap] else [])
    ++ [GpuCmd.renderMainPass 0, GpuCmd.renderMainPass 1, GpuCmd.renderMainPass 2]
    ++ generateVoxelMipsLoop app.voxelRadianceMips.NumMipLevels 0 cfg.VoxelResolution
    ++ [GpuCmd.dispatchInitJumpFlood jumpFloodInputs jumpFloodOutputs]
    ++ jumpFloodLoop app.voxelRadianceMips.NumMipLevels app.voxelRadianceMips.Width
    ++ [GpuCmd.dispatchFillDistanceTexture jumpFloodInputs jumpFloodOutputs]

/-- The function `BakingLab::VoxelizeScene`. -/
def VoxelizeScene (cfg : AppSettings) (status : MeshBakerStatus) (app : State) :
    State × List GpuCmd :=
  let created := createVoxelTextures cfg app
  if reVoxelize cfg status app = false then (created.1, created.2)
  else
    let app1 := { created.1 with voxelBakePass := 0, voxelBakePointOffset := 0 }
    (app1, created.2 ++ rebuildCommands cfg app1)

/-! ## BakeWithVoxels (lines 978-1062) -/

/-- The local `numSamples` (line 1003). -/
def numSamples (cfg : AppSettings) : Nat := u32 (cfg.NumBakeSamples * cfg.NumBakeSamples)

/-- The local `numSamplesPerPass` (line 1004). -/
def numSamplesPerPass (cfg : AppSettings) : Nat :=
  u32 (cfg.NumSamplesPerPass * cfg.NumSamplesPerPass)

/-- The local `numPasses` (line 1005); `none` is the integer division by zero when
`numSamplesPerPass` is zero. -/
def numPasses (cfg : AppSettings) : Option Nat :=
  if numSamplesPerPass cfg = 0 then none
  else some (u32 (numSamples cfg + subU32 (numSamplesPerPass cfg) 1) / numSamplesPerPass cfg)

/-- The per-frame cap on bake points, `AppSettings::MaxBakePointsPerPass * 1024` as a
`uint32` (first argument of `Min<uint32>`, line 1006). -/
def maxPointsPerFrame (cfg : AppSettings) : Nat := u32 (cfg.MaxBakePointsPerPass * 1024)

/-- The local `numPointsToBake` (line 1006). -/
def numPointsToBake (cfg : AppSettings) (status : MeshBakerStatus) (app : State) : Nat :=
  min (maxPointsPerFrame cfg) (subU32 (u32 status.NumBakePoints) app.voxelBakePointOffset)

/-- Lines 980-986: progress is zeroed, and the session restarts when the samples-per-pass
setting changed or the upstream invalidation flag is set. -/
def beginFrame (cfg : AppSettings) (status : MeshBakerStatus) (app : State) : State :=
  let app0 := { app with voxelBakeProgress := some 0 }
  if cfg.NumSamplesPerPassChanged || status.BakingInvalidated then
    { app0 with voxelBakePass := 0, voxelBakePointOffset := 0 }
  else app0

/-- The local `arraySize` (line 992). -/
def lightMapArraySize (cfg : AppSettings) : Nat := max (u32 cfg.BasisCount) 2

/-- Lines 991-999: the lightmap texture is recreated, and the session restarted, when
its width or array size differ from the configured ones. -/
def ensureBakeTexture (cfg : AppSettings) (app : State) : State × List GpuCmd :=
  let resolution := u32 cfg.LightMapResolution
  let arraySize := lightMapArraySize cfg
  if app.voxelBakeTexture.Width ≠ resolution ∨ app.voxelBakeTexture.ArraySize ≠ arraySize then
    ({ app with voxelBakeTexture := { Width := resolution, ArraySize := arraySize }
                voxelBakePass := 0
                voxelBakePointOffset := 0 },
     [GpuCmd.initBakeTexture resolution arraySize])
  else (app, [])

/-- Lines 1017-1022: the clear of every array slice at pass 0, offset 0. -/
def clearCommands (app : State) : List GpuCmd :=
  if app.voxelBakePass = 0 ∧ app.voxelBakePointOffset = 0 then
    (List.range app.voxelBakeTexture.ArraySize).map GpuCmd.clearLightMapSlice
  else []

/-- Lines 1030-1035: the constants of the bake dispatch. -/
def bakeConstants (cfg : AppSettings) (status : MeshBakerStatus) (app : State) :
    VoxelBakeConstants :=
  let bakeSampleStart := u32 (app.voxelBakePass * numSamplesPerPass cfg)
  { BakeSampleStart := bakeSampleStart
    NumSamplesToBake := min (numSamplesPerPass cfg) (subU32 (numSamples cfg) bakeSampleStart)
    BasisCount := u32 cfg.BasisCount
    NumBakePoints := u32 status.NumBakePoints
    BakePointOffset := app.voxelBakePointOffset
    NumGutterTexels := u32 status.NumGutterTexels }

/-- Lines 1044-1048: the gutter dispatch. -/
def gutterCommands (status : MeshBakerStatus) : List GpuCmd :=
  if status.NumGutterTexels > 0 then [GpuCmd.dispatchFillGutters (u32 status.NumGutterTexels)]
  else []

/-- Lines 1053-1058: the session state after the chunk. -/
def advance (cfg : AppSettings) (status : MeshBakerStatus) (app : State) : State :=
  let offset := u32 (app.voxelBakePointOffset + numPointsToBake cfg status app)
  if offset ≥ status.NumBakePoints then
    { app with voxelBakePass := u32 (app.voxelBakePass + 1), voxelBakePointOffset := 0 }
  else { app with voxelBakePointOffset := offset }

/-- Lines 1060-1061: the progress computed from the session state, given the value of
the local `numPasses`.  The four integer operands (`voxelBakePass`, `numPasses`,
`voxelBakePointOffset` and the 64-bit product `status.NumBakePoints * numPasses`) are
converted to `float`, and the two divisions and the addition each round to `float`. -/
def progressOf (status : MeshBakerStatus) (passes : Nat) (app : State) : Option ℚ :=
  fadd (fdiv (f32 (app.voxelBakePass : ℚ)) (f32 (passes : ℚ)))
    (fdiv (f32 (app.voxelBakePointOffset : ℚ))
      (f32 ((u64 (status.NumBakePoints * passes) : Nat) : ℚ)))

/-- Lines 1013-1061: one chunk of the current pass is baked (`passes` is the value of
the local `numPasses`). -/
def bakeChunk (cfg : AppSettings) (status : MeshBakerStatus) (passes : Nat) (app : State) :
    State × List GpuCmd :=
  let cmds := clearCommands app
    ++ [GpuCmd.dispatchVoxelBake (numPointsToBake cfg status app) (bakeConstants cfg status app)]
    ++ gutterCommands status
  let app1 := advance cfg status app
  ({ app1 with voxelBakeProgress := progressOf status passes app1 }, cmds)

/-- The function `BakingLab::BakeWithVoxels`; `none` is the integer division by zero of
line 1005 when `numSamplesPerPass` is zero. -/
def BakeWithVoxels (cfg : AppSettings) (status : MeshBakerStatus) (app : State) :
    Option (State × List GpuCmd) :=
  let app1 := beginFrame cfg status app
  if cfg.BakeWithVoxels = false then some (app1, [])
  else
    let ensured := ensureBakeTexture cfg app1
    match numPasses cfg with
    | none => none
    | some passes =>
      if ensured.1.voxelBakePass ≥ passes then
        some ({ ensured.1 with voxelBakeProgress := some 1 }, ensured.2)
      else
        let baked := bakeChunk cfg status passes ensured.1
        some (baked.1, ensured.2 ++ baked.2)

/-- The session state at entry of the bake, after the resets of lines 982-999. -/
def sessionAtEntry (cfg : AppSettings) (status : MeshBakerStatus) (app : State) : State :=
  (ensureBakeTexture cfg (beginFrame cfg status app)).1

/-- The state and the per-invocation GPU calls after `n` consecutive invocations of
`BakeWithVoxels` with the same settings and status. -/
def runFrames (cfg : AppSettings) (status : MeshBakerStatus) :
    Nat → State → Option (State × List (List GpuCmd))
  | 0, app => some (app, [])
  | n + 1, app =>
    match runFrames cfg status n app with
    | none => none
    | some (a, trace) =>
      match BakeWithVoxels cfg status a with
      | none => none
      | some (a1, cmds) => some (a1, trace ++ [cmds])

/-! ## Specification vocabulary -/

/-- The lightmap texture has the configured width and array size (the test of line 993
fails, so the texture is not recreated). -/
def TextureCurrent (cfg : AppSettings) (app : State) : Prop :=
  app.voxelBakeTexture.Width = u32 cfg.LightMapResolution ∧
    app.voxelBakeTexture.ArraySize = lightMapArraySize cfg

instance (cfg : AppSettings) (app : State) : Decidable (TextureCurrent cfg app) := by
  unfold TextureCurrent; infer_instance

/-- The settings of the end-to-end scenario: 4 samples per axis, 2 per pass and axis,
`MaxBakePointsPerPass = 50`. -/
def scenarioSettings : AppSettings :=
  { BakeWithVoxels := true, NumBakeSamples := 4, NumSamplesPerPass := 2,
    NumSamplesPerPassChanged := false, MaxBakePointsPerPass := 50, LightMapResolution := 64,
    BasisCount := 1, AlwaysRevoxelize := false, SceneBoundsScaleChanged := false,
    VoxelResolution := 4, VoxelResolutionChanged := false, EnableSun := true,
    EnableAreaLight := false }

/-- A status with `n` bake points, no gutter texels and no invalidation. -/
def scenarioStatus (n : Nat) : MeshBakerStatus :=
  { BakingInvalidated := false, NumBakePoints := n, NumGutterTexels := 0 }

/-- The `(numPointsToBake, constants)` of the bake dispatches in a list of GPU calls. -/
def bakeDispatches (cmds : List GpuCmd) : List (Nat × VoxelBakeConstants) :=
  cmds.filterMap (fun cmd =>
    match cmd with
    | GpuCmd.dispatchVoxelBake n c => some (n, c)
    | _ => none)

/-- The slices cleared by the `ClearRenderTargetView` calls in a list of GPU calls. -/
def clearedSlices (cmds : List GpuCmd) : List Nat :=
  cmds.filterMap (fun cmd =>
    match cmd with
    | GpuCmd.clearLightMapSlice i => some i
    | _ => none)

/-- The states the program reaches from the initial state while the number of bake
points stays `N`: `Update` sets `numVoxelMips`, `Render` calls `VoxelizeScene` and
`BakeWithVoxels`, with any settings and flags. -/
inductive Reachable (N : Nat) : State → Prop where
  | initial : Reachable N State.initial
  | update (app : State) (mips : Nat) :
      Reachable N app → Reachable N { app with numVoxelMips := mips }
  | voxelize (cfg : AppSettings) (status : MeshBakerStatus) (app : State) :
      Reachable N app → status.NumBakePoints = N → Reachable N (VoxelizeScene cfg status app).1
  | bake (cfg : AppSettings) (status : MeshBakerStatus) (app a : State) (cmds : List GpuCmd) :
      Reachable N app → status.NumBakePoints = N →
      BakeWithVoxels cfg status app = some (a, cmds) → Reachable N a

/-- The state after an invocation with baking enabled: the texture is current, and the
progress is 1 in a complete session and the value of lines 1060-1061 otherwise. -/
def Settled (cfg : AppSettings) (status : MeshBakerStatus) (P : Nat) (a : State) : Prop :=
  TextureCurrent cfg a ∧
    ((P ≤ a.voxelBakePass ∧ a.voxelBakeProgress = some 1) ∨
      (a.voxelBakePass < P ∧ a.voxelBakePointOffset < status.NumBakePoints ∧
        a.voxelBakeProgress = progressOf status P a))

instance (cfg : AppSettings) (status : MeshBakerStatus) (P : Nat) (a : State) :
    Decidable (Settled cfg status P a) := by
  unfold Settled; infer_instance

/-- The progress of the specification, as an exact rational:
`passIndex / totalPasses + offset / (totalPasses * totalPoints)`, and 1 in a complete
session. -/
def specProgress (status : MeshBakerStatus) (P : Nat) (a : State) : ℚ :=
  if P ≤ a.voxelBakePass then 1
  else (a.voxelBakePass : ℚ) / (P : ℚ)
    + (a.voxelBakePointOffset : ℚ) / ((status.NumBakePoints : ℚ) * (P : ℚ))

/-- Settings of a long session: 68 samples per axis, 3 per pass and axis (514 passes),
`MaxBakePointsPerPass = 1` (cap 1024). -/
def longSettings : AppSettings :=
  { scenarioSettings with
    NumBakeSamples := 68
    NumSamplesPerPass := 3
    MaxBakePointsPerPass := 1 }

/-- Settings of a session of 10000 passes: 100 samples per axis, 1 per pass and axis,
`MaxBakePointsPerPass = 1` (cap 1024). -/
def fineSettings : AppSettings :=
  { scenarioSettings with
    NumBakeSamples := 100
    NumSamplesPerPass := 1
    MaxBakePointsPerPass := 1 }

/-- The bake dispatches of a whole run, in the order they were issued. -/
def allDispatches : List (List GpuCmd) → List (Nat × VoxelBakeConstants)
  | [] => []
  | cmds :: rest => bakeDispatches cmds ++ allDispatches rest

/-- The chunk `(BakePointOffset, numPointsToBake)` of a dispatch, when the dispatch
belongs to the pass whose first sample is `sampleStart`. -/
def chunkOfPass (sampleStart : Nat) (d : Nat × VoxelBakeConstants) : Option (Nat × Nat) :=
  if d.2.BakeSampleStart = sampleStart then some (d.2.BakePointOffset, d.1) else none

/-- The chunks dispatched with pass `p`, in the order they were issued. -/
def chunksOfPass (cfg : AppSettings) (p : Nat) (trace : List (List GpuCmd)) : List (Nat × Nat) :=
  (allDispatches trace).filterMap (chunkOfPass (u32 (p * numSamplesPerPass cfg)))

/-- The chunks `(start, length)` are non-empty, each starts where the previous one ends,
the first starts at `a` and the last ends at `b`. -/
def Tiles : Nat → Nat → List (Nat × Nat) → Prop
  | a, b, [] => a = b
  | a, b, ch :: rest => ch.1 = a ∧ 0 < ch.2 ∧ Tiles (a + ch.2) b rest

/-- Tiling is decidable, by recursion on the list of chunks. -/
def Tiles.decidable : (a b : Nat) → (l : List (Nat × Nat)) → Decidable (Tiles a b l)
  | a, b, [] => Nat.decEq a b
  | a, b, ch :: rest =>
    @instDecidableAnd _ _ (Nat.decEq ch.1 a)
      (@instDecidableAnd _ _ (Nat.decLt 0 ch.2) (Tiles.decidable (a + ch.2) b rest))

instance (a b : Nat) (l : List (Nat × Nat)) : Decidable (Tiles a b l) := Tiles.decidable a b l

/-- The number of chunks that contain the index `x`. -/
def coverCount (x : Nat) (chunks : List (Nat × Nat)) : Nat :=
  (chunks.filter (fun ch => decide (ch.1 ≤ x ∧ x < ch.1 + ch.2))).length

/-- The part of `[0, N)` that the chunks of pass `p` cover when the session is at
`(pass, offset)`. -/
def coveredUpTo (N pass offset p : Nat) : Nat :=
  if p < pass then N else if p = pass then offset else 0

/-- After the first invocation of a session: the texture is current, the session has left
`(0, 0)` and the offset does not exceed the number of bake points. -/
def Started (cfg : AppSettings) (status : MeshBakerStatus) (a : State) : Prop :=
  TextureCurrent cfg a ∧ (1 ≤ a.voxelBakePass ∨ 1 ≤ a.voxelBakePointOffset) ∧
    a.voxelBakePointOffset ≤ status.NumBakePoints

instance (cfg : AppSettings) (status : MeshBakerStatus) (a : State) :
    Decidable (Started cfg status a) := by
  unfold Started; infer_instance

/-- A complete session of the scenario: pass 4 of 4, with the lightmap texture created. -/
def completeState : State :=
  { State.initial with voxelBakePass := 4
                       voxelBakeTexture := { Width := 64, ArraySize := 2 } }

/-- Settings with a per-frame cap of zero bake points. -/
def zeroCapSettings : AppSettings := { scenarioSettings with MaxBakePointsPerPass := 0 }

/-- Settings whose samples-per-pass square is exactly `2 ^ 32`. -/
def overflowSettings : AppSettings :=
  { scenarioSettings with NumBakeSamples := 0, NumSamplesPerPass := 65536 }

/-- The `fillGuttersCS` dispatches in a list of GPU calls. -/
def gutterDispatches (cmds : List GpuCmd) : List Nat :=
  cmds.filterMap (fun cmd =>
    match cmd with
    | GpuCmd.dispatchFillGutters n => some n
    | _ => none)

/-- The jump-flood iteration dispatches in a list of GPU calls, in order: shader inputs,
shader outputs and step size of each. -/
def jumpFloodPasses (cmds : List GpuCmd) : List (List Resource × List Resource × Nat) :=
  cmds.filterMap (fun cmd =>
    match cmd with
    | GpuCmd.dispatchJumpFloodIteration srvs uavs stepSize => some (srvs, uavs, stepSize)
    | _ => none)

/-- The three kinds of dispatch of the distance-field rebuild. -/
inductive DistancePass where
  | init
  | iteration
  | fill
  deriving DecidableEq, Repr

/-- The distance-field dispatches in a list of GPU calls, in order. -/
def distancePasses (cmds : List GpuCmd) : List DistancePass :=
  cmds.filterMap (fun cmd =>
    match cmd with
    | GpuCmd.dispatchInitJumpFlood _ _ => some DistancePass.init
    | GpuCmd.dispatchJumpFloodIteration _ _ _ => some DistancePass.iteration
    | GpuCmd.dispatchFillDistanceTexture _ _ => some DistancePass.fill
    | _ => none)

/-- The step-size sequence that starts at `s0` and halves, never below 1. -/
def stepAt (s0 : Nat) : Nat → Nat
  | 0 => s0
  | i + 1 => max (stepAt s0 i / 2) 1

/-- A state in which the voxel textures exist, created for resolution 4 with 3 mip levels. -/
def voxelizedState : State :=
  { State.initial with voxelRadianceCreated := true
                       voxelRadianceMips := { Width := 2, NumMipLevels := 2 }
                       numVoxelMips := 3 }

/-- The initial state after `Update` computed `numVoxelMips` for resolution 4. -/
def updatedState : State := { State.initial with numVoxelMips := 3 }

/-- A state with the session position and the lightmap texture that the first invocation
of the scenario with 100000 bake points reaches: pass 0, offset 51200, texture of width
64 with 2 slices. -/
def midSessionState : State :=
  { State.initial with voxelBakePointOffset := 51200
                       voxelBakeTexture := { Width := 64, ArraySize := 2 } }

/-- Lines 659-662 of `Update`, x component of `currSceneMin`: the scene centre is moved
towards the scene minimum by the bounds scale, then shifted by the bounds offset; `lerp`
stands for the framework function `Lerp`. -/
def currSceneMinX (lerp : ℚ → ℚ → ℚ → ℚ) (sceneMinX sceneMaxX scale offsetX : ℚ) : ℚ :=
  lerp ((sceneMaxX + sceneMinX) / 2) sceneMinX scale + offsetX

/-- The status of the scenario with 100000 bake points when the upstream baker signals an
invalidation. -/
def invalidatedStatus : MeshBakerStatus :=
  { BakingInvalidated := true, NumBakePoints := 100000, NumGutterTexels := 0 }

/-- A status with 100 bake points and 7 gutter texels. -/
def gutterStatus : MeshBakerStatus :=
  { BakingInvalidated := false, NumBakePoints := 100, NumGutterTexels := 7 }

/-! ## Jump flooding (the distance-field shaders) -/

/-- A voxel coordinate `(x, y, z)`. -/
abbrev Voxel := Int × Int × Int

/-- The voxel lies in the cubic volume of resolution `R`. -/
def inVolume (R : Nat) (v : Voxel) : Prop :=
  (0 ≤ v.1 ∧ v.1 < (R : Int)) ∧ (0 ≤ v.2.1 ∧ v.2.1 < (R : Int)) ∧
    (0 ≤ v.2.2 ∧ v.2.2 < (R : Int))

instance inVolume.decidable (R : Nat) (v : Voxel) : Decidable (inVolume R v) := by
  unfold inVolume; infer_instance

/-- The squared Euclidean distance of two voxels; the distance itself is its square
root. -/
def distSq (a b : Voxel) : Int :=
  (a.1 - b.1) * (a.1 - b.1) + (a.2.1 - b.2.1) * (a.2.1 - b.2.1)
    + (a.2.2 - b.2.2) * (a.2.2 - b.2.2)

/-- Modelled from the spec: the `InitJumpFlood` shader is not part of the source; an
occupied voxel is seeded with its own coordinate, any other voxel is unseeded. -/
def initJumpFlood (occupied : Voxel → Bool) : Voxel → Option Voxel :=
  fun v => if occupied v then some v else none

/-- Modelled from the spec: the seed nearer to `v` of the best seed so far and a candidate;
on equal distance the best so far is kept (the spec leaves the tie open). -/
def nearer (v : Voxel) (best cand : Option Voxel) : Option Voxel :=
  match best, cand with
  | none, c => c
  | some b, none => some b
  | some b, some c => if distSq v c < distSq v b then some c else some b

/-- Modelled from the spec: the offsets `{-1, 0, 1}` along each of the three axes, the
voxel itself included. -/
def neighbourOffsets : List Voxel :=
  List.product [-1, 0, 1] (List.product [-1, 0, 1] [-1, 0, 1])

/-- Modelled from the spec: the `JumpFloodIteration` shader is not part of the source; in
a pass of step size `S` every voxel examines the offsets `{-S, 0, +S}` along each axis in
the buffer of the previous pass and adopts the stored seed nearest to itself. -/
def jumpFloodIteration (R : Nat) (stepSize : Nat) (prev : Voxel → Option Voxel) :
    Voxel → Option Voxel :=
  fun v => neighbourOffsets.foldl
    (fun best o =>
      if inVolume R (v.1 + (stepSize : Int) * o.1, v.2.1 + (stepSize : Int) * o.2.1,
          v.2.2 + (stepSize : Int) * o.2.2)
      then nearer v best (prev (v.1 + (stepSize : Int) * o.1, v.2.1 + (stepSize : Int) * o.2.1,
          v.2.2 + (stepSize : Int) * o.2.2))
      else best)
    none

/-- Modelled from the spec: the `FillDistanceTexture` shader is not part of the source;
the seed of a voxel is turned into its distance to the voxel (here the squared distance,
`none` for an unseeded voxel). -/
def fillDistanceTexture (seeds : Voxel → Option Voxel) : Voxel → Option Int :=
  fun v => (seeds v).map (distSq v)

/-- Modelled from the spec: the seed buffer after the jump-flood passes of the given step
sizes, each pass reading the buffer that the pass before it wrote. -/
def runJumpFlood (R : Nat) (steps : List Nat) (buf : Voxel → Option Voxel) :
    Voxel → Option Voxel :=
  steps.foldl (fun b s => jumpFloodIteration R s b) buf

/-- Modelled from the spec: the distance field is the result of init, the jump-flood
passes of the given step sizes, and finalize. -/
def distanceField (R : Nat) (steps : List Nat) (occupied : Voxel → Bool) : Voxel → Option Int :=
  fillDistanceTexture (runJumpFlood R steps (initJumpFlood occupied))

/-- The step sizes of the jump-flood passes that `VoxelizeScene` dispatches. -/
def dispatchedSteps (cfg : AppSettings) (status : MeshBakerStatus) (app : State) : List Nat :=
  (jumpFloodPasses (VoxelizeScene cfg status app).2).map (fun p => p.2.2)

/-- The value `d` is the brute-force squared distance of `v` to the nearest occupied voxel
of the volume. -/
def IsNearestDistance (R : Nat) (occupied : Voxel → Bool) (v : Voxel) (d : Int) : Prop :=
  (∃ u, inVolume R u ∧ occupied u = true ∧ distSq v u = d) ∧
    ∀ u, inVolume R u → occupied u = true → d ≤ distSq v u

/-- Every seed stored in the buffer is the voxel `c`. -/
def OnlySeed (c : Voxel) (buf : Voxel → Option Voxel) : Prop :=
  ∀ x y, buf x = some y → y = c

/-- The direction, along one axis, of the jump of size `s` that brings `u` within
`s - 1` of `v`. -/
def jumpDir (s u v : Int) : Int :=
  if s ≤ v - u then -1 else if s ≤ u - v then 1 else 0

/-- Along every axis the voxels `u` and `v` are at most `r` apart. -/
def WithinReach (r : Int) (u v : Voxel) : Prop :=
  (v.1 - u.1 ≤ r ∧ u.1 - v.1 ≤ r) ∧ (v.2.1 - u.2.1 ≤ r ∧ u.2.1 - v.2.1 ≤ r) ∧
    (v.2.2 - u.2.2 ≤ r ∧ u.2.2 - v.2.2 ≤ r)

/-- The scenario settings at voxel resolution `R`. -/
def settingsAt (R : Nat) : AppSettings := { scenarioSettings with VoxelResolution := R }

/-- The initial state after `Update` stored `mips` as the number of mip levels of the
volume. -/
def updatedTo (mips : Nat) : State := { State.initial with numVoxelMips := mips }

/-! ## Vocabulary of the mip chain, the sample ranges and the frames -/

/-- One iteration of the mip loop as dispatched: source level, shader inputs, shader
outputs, source size and destination size (the element count handed to `DispatchSize`
on each axis at line 925). -/
structure MipPass where
  srcMipLevel : Nat
  srvs : List Resource
  uavs : List Resource
  srcMipSize : Nat
  dstMipSize : Nat
  deriving DecidableEq, Repr

/-- The mip-loop dispatches in a list of GPU calls, in order. -/
def mipDispatches (cmds : List GpuCmd) : List MipPass :=
  cmds.filterMap (fun cmd =>
    match cmd with
    | GpuCmd.dispatchGenerateMip l srvs uavs s d => some ⟨l, srvs, uavs, s, d⟩
    | _ => none)

/-- The widths of the mip chain, base volume included: the resolution of the volume, then
the destination size of every mip dispatch. -/
def mipWidths (cfg : AppSettings) (cmds : List GpuCmd) : List Nat :=
  cfg.VoxelResolution :: (mipDispatches cmds).map (fun d => d.dstMipSize)

/-- The steps of a rebuild of the volume that a GPU call belongs to. -/
inductive RebuildStep where
  | clearVolume (resolution : Nat)
  | shadowMap
  | rasterize (axis : Nat)
  | generateMip
  | distanceField
  deriving DecidableEq, Repr

/-- The rebuild steps in a list of GPU calls, in order. -/
def rebuildSteps (cmds : List GpuCmd) : List RebuildStep :=
  cmds.filterMap (fun cmd =>
    match cmd with
    | GpuCmd.dispatchClearVoxelRadiance r => some (RebuildStep.clearVolume r)
    | GpuCmd.renderSunShadowMap => some RebuildStep.shadowMap
    | GpuCmd.renderAreaLightShadowMap => some RebuildStep.shadowMap
    | GpuCmd.renderMainPass axis => some (RebuildStep.rasterize axis)
    | GpuCmd.dispatchGenerateMip _ _ _ _ _ => some RebuildStep.generateMip
    | GpuCmd.dispatchInitJumpFlood _ _ => some RebuildStep.distanceField
    | GpuCmd.dispatchJumpFloodIteration _ _ _ => some RebuildStep.distanceField
    | GpuCmd.dispatchFillDistanceTexture _ _ => some RebuildStep.distanceField
    | _ => none)

/-- The number of shadow maps rendered before the volume is rasterized (lines 834-838). -/
def shadowMapCount (cfg : AppSettings) : Nat :=
  (if cfg.EnableSun then 1 else 0) + (if cfg.EnableAreaLight then 1 else 0)

/-- The sample range `(BakeSampleStart, NumSamplesToBake)` that the bake dispatch of pass
`p` is given (lines 1030-1031). -/
def sampleRange (cfg : AppSettings) (status : MeshBakerStatus) (app : State) (p : Nat) :
    Nat × Nat :=
  ((bakeConstants cfg status { app with voxelBakePass := p }).BakeSampleStart,
   (bakeConstants cfg status { app with voxelBakePass := p }).NumSamplesToBake)

/-- The sample ranges of the passes `0 .. passes - 1`. -/
def sampleRanges (cfg : AppSettings) (status : MeshBakerStatus) (app : State) (passes : Nat) :
    List (Nat × Nat) :=
  (List.range passes).map (sampleRange cfg status app)

/-- Settings with 65535 samples per axis in total and per pass. -/
def wrapSettings : AppSettings :=
  { scenarioSettings with NumBakeSamples := 65535, NumSamplesPerPass := 65535 }

/-- The states the program reaches from the initial state while the number of bake points
stays `N` and every `BakeWithVoxels` invocation with baking enabled computes the pass
count `P`. -/
inductive ReachableFixed (N P : Nat) : State → Prop where
  | initial : ReachableFixed N P State.initial
  | update (app : State) (mips : Nat) :
      ReachableFixed N P app → ReachableFixed N P { app with numVoxelMips := mips }
  | voxelize (cfg : AppSettings) (status : MeshBakerStatus) (app : State) :
      ReachableFixed N P app → status.NumBakePoints = N →
      ReachableFixed N P (VoxelizeScene cfg status app).1
  | bake (cfg : AppSettings) (status : MeshBakerStatus) (app a : State) (cmds : List GpuCmd) :
      ReachableFixed N P app → status.NumBakePoints = N →
      (cfg.BakeWithVoxels = true → numPasses cfg = some P) →
      BakeWithVoxels cfg status app = some (a, cmds) → ReachableFixed N P a

/-- The session position `(pass, offset)` of `s` is lexicographically before that of `a`. -/
def SessionBefore (s a : State) : Prop :=
  s.voxelBakePass < a.voxelBakePass ∨
    (s.voxelBakePass = a.voxelBakePass ∧ s.voxelBakePointOffset < a.voxelBakePointOffset)

instance SessionBefore.decidable (s a : State) : Decidable (SessionBefore s a) := by
  unfold SessionBefore; infer_instance

/-- The sum of the steps, each taken with the sign in the same position of `signs`. -/
def signedSum : List Int → List Nat → Int
  | e :: es, s :: ss => e * (s : Int) + signedSum es ss
  | _, _ => 0

/-- Lines 1099-1101 of `Render`: `VoxelizeScene` followed by `BakeWithVoxels`, with the
same status; the GPU calls of both, in program order. -/
def renderFrame (cfg : AppSettings) (status : MeshBakerStatus) (app : State) :
    Option (State × List GpuCmd) :=
  match BakeWithVoxels cfg status (VoxelizeScene cfg status app).1 with
  | none => none
  | some (a, cmds) => some (a, (VoxelizeScene cfg status app).2 ++ cmds)

/-- A sequence of frames, each with its settings and flags, its status and the value that
`Update` stores in `numVoxelMips` (line 685); the GPU calls of all frames, in order. -/
def renderFrames :
    List (AppSettings × MeshBakerStatus × Nat) → State → Option (State × List GpuCmd)
  | [], app => some (app, [])
  | frame :: rest, app =>
    match renderFrame frame.1 frame.2.1 { app with numVoxelMips := frame.2.2 } with
    | none => none
    | some (a, cmds) =>
      match renderFrames rest a with
      | none => none
      | some (b, more) => some (b, cmds ++ more)

/-- What a scan of the GPU calls knows about the lightmap: the array size of the texture,
the slices cleared since the last rebuild of the volume, whether the volume was rebuilt
since the lightmap was last cleared in full (`stale`), and whether a bake dispatch was
issued while stale (`mixed`): such a dispatch accumulates onto a lightmap baked against an
earlier voxelization. -/
structure LightmapScan where
  arraySize : Nat
  cleared : List Nat
  stale : Bool
  mixed : Bool
  deriving DecidableEq, Repr

/-- The effect of one GPU call on the scan. -/
def scanStep (s : LightmapScan) : GpuCmd → LightmapScan
  | GpuCmd.initBakeTexture _ a => { s with arraySize := a, cleared := [] }
  | GpuCmd.dispatchClearVoxelRadiance _ => { s with cleared := [], stale := true }
  | GpuCmd.clearLightMapSlice i =>
    { s with cleared := i :: s.cleared
             stale := s.stale &&
               !((List.range s.arraySize).all (fun j => decide (j ∈ i :: s.cleared))) }
  | GpuCmd.dispatchVoxelBake _ _ => { s with mixed := s.mixed || s.stale }
  | _ => s

/-- The scan of a list of GPU calls, in order. -/
def scanLightmap (s : LightmapScan) (cmds : List GpuCmd) : LightmapScan :=
  cmds.foldl scanStep s

/-- The scan at the start of a run from the state `app`: nothing rebuilt yet. -/
def startScan (app : State) : LightmapScan :=
  { arraySize := app.voxelBakeTexture.ArraySize, cleared := [], stale := false, mixed := false }

/-- The scan agrees with the state: no mixed dispatch so far, the array size is that of the
lightmap texture, and the session is at pass 0, offset 0 while the lightmap is stale. -/
def ScanAgrees (s : LightmapScan) (app : State) : Prop :=
  s.mixed = false ∧ s.arraySize = app.voxelBakeTexture.ArraySize ∧
    (s.stale = true → app.voxelBakePass = 0 ∧ app.voxelBakePointOffset = 0)

/-! ## Theorems -/

/-! ### Rounding to `float` -/

theorem roundEven_le (r : ℚ) : (roundEven r : ℚ) ≤ r + 1 / 2 := by
  have h1 := Int.floor_le r
  have h2 := Int.lt_floor_add_one r
  unfold roundEven
  split_ifs with h3 h4 h5
  · linarith
  · push_cast; linarith
  · linarith
  · push_cast; linarith

theorem le_roundEven (r : ℚ) : r - 1 / 2 ≤ (roundEven r : ℚ) := by
  have h1 := Int.floor_le r
  have h2 := Int.lt_floor_add_one r
  unfold roundEven
  split_ifs with h3 h4 h5
  · linarith
  · push_cast; linarith
  · linarith
  · push_cast; linarith

theorem roundEven_intCast (n : ℤ) : roundEven (n : ℚ) = n := by
  unfold roundEven
  simp

theorem roundEven_mono {r s : ℚ} (h : r ≤ s) : roundEven r ≤ roundEven s := by
  by_contra hlt
  push_neg at hlt
  have h1 : (roundEven s : ℚ) + 1 ≤ (roundEven r : ℚ) := by exact_mod_cast hlt
  have h2 := roundEven_le r
  have h3 := le_roundEven r
  have h4 := roundEven_le s
  have h5 := le_roundEven s
  have hrs : r = s := by linarith
  rw [hrs] at hlt
  exact lt_irrefl _ hlt

theorem roundEven_eq_of_lt {r : ℚ} {m : ℤ} (h1 : (m : ℚ) - 1 / 2 < r) (h2 : r < (m : ℚ) + 1 / 2) :
    roundEven r = m := by
  have h3 := roundEven_le r
  have h4 := le_roundEven r
  have h5 : (roundEven r : ℚ) < (m : ℚ) + 1 := by linarith
  have h6 : (m : ℚ) - 1 < (roundEven r : ℚ) := by linarith
  have h7 : roundEven r < m + 1 := by exact_mod_cast h5
  have h8 : m - 1 < roundEven r := by exact_mod_cast h6
  omega

theorem roundEven_tie {m : ℤ} (hm : m % 2 = 0) : roundEven ((m : ℚ) + 1 / 2) = m := by
  have hf : ⌊(m : ℚ) + 1 / 2⌋ = m := by
    rw [Int.floor_eq_iff]
    constructor <;> linarith
  unfold roundEven
  rw [hf]
  simp [hm]


theorem binade_le {x : ℚ} (hx : 0 < x) : (2 : ℚ) ^ Int.log 2 x ≤ x := by
  have h := @Int.zpow_log_le_self ℚ _ _ 2 x (by norm_num) hx
  simpa using h

theorem lt_binade_succ (x : ℚ) : x < (2 : ℚ) ^ (Int.log 2 x + 1) := by
  have h := @Int.lt_zpow_succ_log_self ℚ _ _ 2 (by norm_num) x
  simpa using h

theorem log_eq_of_bounds {x : ℚ} {e : ℤ} (h1 : (2 : ℚ) ^ e ≤ x) (h2 : x < (2 : ℚ) ^ (e + 1)) :
    Int.log 2 x = e := by
  have hx : 0 < x := lt_of_lt_of_le (by positivity) h1
  have h3 : e ≤ Int.log 2 x := by
    rw [← @Int.zpow_le_iff_le_log ℚ _ _ 2 (by norm_num) e x hx]
    simpa using h1
  have h4 : Int.log 2 x < e + 1 := by
    rw [← @Int.lt_zpow_iff_log_lt ℚ _ _ 2 (by norm_num) (e + 1) x hx]
    simpa using h2
  omega

theorem zpow_split (e : ℤ) : (2 : ℚ) ^ e = 8388608 * 2 ^ (e - 23) := by
  have h : e = 23 + (e - 23) := by ring
  conv_lhs => rw [h]
  rw [zpow_add₀ (by norm_num : (2 : ℚ) ≠ 0)]
  norm_num

theorem zpow_succ_split (e : ℤ) : (2 : ℚ) ^ (e + 1) = 16777216 * 2 ^ (e - 23) := by
  have h : e + 1 = 24 + (e - 23) := by ring
  conv_lhs => rw [h]
  rw [zpow_add₀ (by norm_num : (2 : ℚ) ≠ 0)]
  norm_num

/-- The significand of a positive value lies between `2 ^ 23` and `2 ^ 24`. -/
theorem significand_bounds {x : ℚ} {e : ℤ} (h1 : (2 : ℚ) ^ e ≤ x) (h2 : x < (2 : ℚ) ^ (e + 1)) :
    (8388608 : ℤ) ≤ roundEven (x / 2 ^ (e - 23)) ∧ roundEven (x / 2 ^ (e - 23)) ≤ (16777216 : ℤ) := by
  have hq : (0 : ℚ) < 2 ^ (e - 23) := by positivity
  rw [zpow_split e] at h1
  rw [zpow_succ_split e] at h2
  have h3 : ((8388608 : ℤ) : ℚ) ≤ x / 2 ^ (e - 23) := by
    rw [le_div_iff₀ hq]; push_cast; exact h1
  have h4 : x / 2 ^ (e - 23) ≤ ((16777216 : ℤ) : ℚ) := by
    rw [div_le_iff₀ hq]; push_cast; exact le_of_lt h2
  have h5 := roundEven_mono h3
  have h6 := roundEven_mono h4
  rw [roundEven_intCast] at h5 h6
  exact ⟨h5, h6⟩

theorem roundPos_eq {x : ℚ} {e : ℤ} (h1 : (2 : ℚ) ^ e ≤ x) (h2 : x < (2 : ℚ) ^ (e + 1)) :
    roundPos x = (roundEven (x / 2 ^ (e - 23)) : ℚ) * 2 ^ (e - 23) := by
  unfold roundPos
  rw [log_eq_of_bounds h1 h2]

theorem f32_zero : f32 0 = 0 := by
  unfold f32; simp

theorem f32_pos_eq {x : ℚ} (hx : 0 < x) : f32 x = roundPos x := by
  unfold f32
  rw [if_neg (ne_of_gt hx), if_pos hx]

/-- Evaluation of `f32` at a value whose binade is known. -/
theorem f32_eq {x : ℚ} {e : ℤ} (h1 : (2 : ℚ) ^ e ≤ x) (h2 : x < (2 : ℚ) ^ (e + 1)) :
    f32 x = (roundEven (x / 2 ^ (e - 23)) : ℚ) * 2 ^ (e - 23) := by
  have hx : 0 < x := lt_of_lt_of_le (by positivity) h1
  rw [f32_pos_eq hx, roundPos_eq h1 h2]

theorem roundPos_bounds {x : ℚ} (hx : 0 < x) :
    (2 : ℚ) ^ Int.log 2 x ≤ roundPos x ∧ roundPos x ≤ (2 : ℚ) ^ (Int.log 2 x + 1) := by
  have h1 := binade_le hx
  have h2 := lt_binade_succ x
  obtain ⟨h3, h4⟩ := significand_bounds h1 h2
  have hq : (0 : ℚ) < 2 ^ (Int.log 2 x - 23) := by positivity
  have h5 : ((8388608 : ℤ) : ℚ) ≤ (roundEven (x / 2 ^ (Int.log 2 x - 23)) : ℚ) := by exact_mod_cast h3
  have h6 : (roundEven (x / 2 ^ (Int.log 2 x - 23)) : ℚ) ≤ ((16777216 : ℤ) : ℚ) := by exact_mod_cast h4
  push_cast at h5 h6
  unfold roundPos
  rw [zpow_split (Int.log 2 x), zpow_succ_split (Int.log 2 x)]
  exact ⟨mul_le_mul_of_nonneg_right h5 (le_of_lt hq), mul_le_mul_of_nonneg_right h6 (le_of_lt hq)⟩

/-- The rounding error is at most half a unit in the last place. -/
theorem roundPos_err (x : ℚ) :
    roundPos x - x ≤ 2 ^ (Int.log 2 x - 23) / 2 ∧ x - roundPos x ≤ 2 ^ (Int.log 2 x - 23) / 2 := by
  have hq : (0 : ℚ) < 2 ^ (Int.log 2 x - 23) := by positivity
  have h1 := roundEven_le (x / 2 ^ (Int.log 2 x - 23))
  have h2 := le_roundEven (x / 2 ^ (Int.log 2 x - 23))
  have h3 : x / 2 ^ (Int.log 2 x - 23) * 2 ^ (Int.log 2 x - 23) = x := by
    field_simp
  unfold roundPos
  constructor
  · have := mul_le_mul_of_nonneg_right h1 (le_of_lt hq)
    rw [add_mul, h3] at this
    linarith
  · have := mul_le_mul_of_nonneg_right h2 (le_of_lt hq)
    rw [sub_mul, h3] at this
    linarith

theorem f32_nonneg {x : ℚ} (hx : 0 ≤ x) : 0 ≤ f32 x := by
  rcases eq_or_lt_of_le hx with h | h
  · rw [← h, f32_zero]
  · rw [f32_pos_eq h]
    exact le_trans (by positivity) (roundPos_bounds h).1

theorem f32_pos {x : ℚ} (hx : 0 < x) : 0 < f32 x := by
  rw [f32_pos_eq hx]
  exact lt_of_lt_of_le (by positivity) (roundPos_bounds hx).1

/-- Upper relative error bound: `f32 x <= x * (1 + 2 ^ (-24))`. -/
theorem f32_le_mul {x : ℚ} (hx : 0 ≤ x) : f32 x ≤ x * (16777217 / 16777216) := by
  rcases eq_or_lt_of_le hx with h | h
  · rw [← h, f32_zero]; norm_num
  · rw [f32_pos_eq h]
    have h1 := (roundPos_err x).1
    have h2 := binade_le h
    rw [zpow_split] at h2
    have hq : (0 : ℚ) < 2 ^ (Int.log 2 x - 23) := by positivity
    linarith

/-- Lower relative error bound: `x * (1 - 2 ^ (-24)) <= f32 x`. -/
theorem mul_le_f32 {x : ℚ} (hx : 0 ≤ x) : x * (16777215 / 16777216) ≤ f32 x := by
  rcases eq_or_lt_of_le hx with h | h
  · rw [← h, f32_zero]; norm_num
  · rw [f32_pos_eq h]
    have h1 := (roundPos_err x).2
    have h2 := binade_le h
    rw [zpow_split] at h2
    have hq : (0 : ℚ) < 2 ^ (Int.log 2 x - 23) := by positivity
    linarith

/-- The error relative to the rounded value: `x <= f32 x * (1 + 2 ^ (-24))`. -/
theorem le_f32_mul {x : ℚ} (hx : 0 ≤ x) : x ≤ f32 x * (16777217 / 16777216) := by
  rcases eq_or_lt_of_le hx with h | h
  · rw [← h, f32_zero]; norm_num
  · rw [f32_pos_eq h]
    have h1 := (roundPos_err x).2
    have h2 := (roundPos_bounds h).1
    rw [zpow_split] at h2
    have hq : (0 : ℚ) < 2 ^ (Int.log 2 x - 23) := by positivity
    linarith

/-- Below 1 the rounding error is at most `2 ^ (-25)`. -/
theorem f32_le_add {x : ℚ} (hx : 0 ≤ x) (hx1 : x < 1) : f32 x ≤ x + 1 / 33554432 := by
  rcases eq_or_lt_of_le hx with h | h
  · rw [← h, f32_zero]; norm_num
  · rw [f32_pos_eq h]
    have h1 := (roundPos_err x).1
    have h2 := binade_le h
    have h3 : Int.log 2 x < 0 := by
      rw [← @Int.lt_zpow_iff_log_lt ℚ _ _ 2 (by norm_num) 0 x h]
      simpa using hx1
    have h4 : (2 : ℚ) ^ (Int.log 2 x - 23) ≤ 2 ^ ((-24 : ℤ)) :=
      zpow_le_zpow_right₀ (by norm_num) (by omega)
    have h5 : (2 : ℚ) ^ ((-24 : ℤ)) = 1 / 16777216 := by norm_num [zpow_neg]
    rw [h5] at h4
    linarith

theorem f32_mono {x y : ℚ} (hx : 0 ≤ x) (hxy : x ≤ y) : f32 x ≤ f32 y := by
  rcases eq_or_lt_of_le hx with h | h
  · rw [← h, f32_zero]; exact f32_nonneg (le_trans hx hxy)
  · have hy : 0 < y := lt_of_lt_of_le h hxy
    rw [f32_pos_eq h, f32_pos_eq hy]
    have hlog := @Int.log_mono_right ℚ _ _ 2 x y h hxy
    rcases eq_or_lt_of_le hlog with he | he
    · unfold roundPos
      rw [← he]
      have hq : (0 : ℚ) < 2 ^ (Int.log 2 x - 23) := by positivity
      apply mul_le_mul_of_nonneg_right _ (le_of_lt hq)
      have : x / 2 ^ (Int.log 2 x - 23) ≤ y / 2 ^ (Int.log 2 x - 23) :=
        div_le_div_of_nonneg_right hxy (le_of_lt hq)
      exact_mod_cast roundEven_mono this
    · have h1 := (roundPos_bounds h).2
      have h2 := (roundPos_bounds hy).1
      have h3 : (2 : ℚ) ^ (Int.log 2 x + 1) ≤ 2 ^ Int.log 2 y :=
        zpow_le_zpow_right₀ (by norm_num) (by omega)
      linarith


theorem f32_eval {x : ℚ} (e m : ℤ) (h1 : (2 : ℚ) ^ e ≤ x) (h2 : x < (2 : ℚ) ^ (e + 1))
    (h3 : ((m : ℚ) - 1 / 2) * 2 ^ (e - 23) < x) (h4 : x < ((m : ℚ) + 1 / 2) * 2 ^ (e - 23)) :
    f32 x = (m : ℚ) * 2 ^ (e - 23) := by
  have hq : (0 : ℚ) < 2 ^ (e - 23) := by positivity
  rw [f32_eq h1 h2, roundEven_eq_of_lt]
  · rw [lt_div_iff₀ hq]; exact h3
  · rw [div_lt_iff₀ hq]; exact h4

theorem f32_eval_tie {x : ℚ} (e m : ℤ) (h1 : (2 : ℚ) ^ e ≤ x) (h2 : x < (2 : ℚ) ^ (e + 1))
    (hm : m % 2 = 0) (h3 : x = ((m : ℚ) + 1 / 2) * 2 ^ (e - 23)) :
    f32 x = (m : ℚ) * 2 ^ (e - 23) := by
  have hq : (0 : ℚ) < 2 ^ (e - 23) := by positivity
  have h5 : x / 2 ^ (e - 23) = (m : ℚ) + 1 / 2 := by
    rw [div_eq_iff (ne_of_gt hq)]; exact h3
  rw [f32_eq h1 h2, h5, roundEven_tie hm]

theorem f32_eval_exact {x : ℚ} (e m : ℤ) (h1 : (2 : ℚ) ^ e ≤ x) (h2 : x < (2 : ℚ) ^ (e + 1))
    (h3 : x = (m : ℚ) * 2 ^ (e - 23)) : f32 x = x := by
  have hq : (0 : ℚ) < 2 ^ (e - 23) := by positivity
  have h5 : x / 2 ^ (e - 23) = (m : ℚ) := by
    rw [div_eq_iff (ne_of_gt hq)]; exact h3
  rw [f32_eq h1 h2, h5, roundEven_intCast, ← h3]

/-- The conversion of an unsigned integer up to `2 ^ 24` to `float` is exact. -/
theorem f32_natCast {n : ℕ} (hn : n ≤ 16777216) : f32 (n : ℚ) = n := by
  rcases Nat.eq_zero_or_pos n with h | h
  · subst h; simp [f32_zero]
  · have h1 : 2 ^ Nat.log 2 n ≤ n := Nat.pow_log_le_self 2 (by omega)
    have h2 : n < 2 ^ (Nat.log 2 n + 1) := Nat.lt_pow_succ_log_self (by norm_num) n
    generalize Nat.log 2 n = k at h1 h2
    have hk : k ≤ 24 := by
      by_contra hc
      have : 2 ^ 25 ≤ 2 ^ k := Nat.pow_le_pow_right (by norm_num) (by omega)
      omega
    have b1 : (2 : ℚ) ^ (k : ℤ) ≤ (n : ℚ) := by
      rw [zpow_natCast]; exact_mod_cast h1
    have b2 : (n : ℚ) < (2 : ℚ) ^ ((k : ℤ) + 1) := by
      have e : (k : ℤ) + 1 = ((k + 1 : ℕ) : ℤ) := by push_cast; ring
      rw [e, zpow_natCast]; exact_mod_cast h2
    rcases Nat.lt_or_ge k 24 with hk24 | hk24
    · apply f32_eval_exact (k : ℤ) ((n * 2 ^ (23 - k) : ℕ) : ℤ) b1 b2
      have e : (k : ℤ) - 23 = -((23 - k : ℕ) : ℤ) := by omega
      rw [e, zpow_neg, zpow_natCast]
      push_cast
      field_simp
    · have hk' : k = 24 := by omega
      subst hk'
      have hn' : n = 16777216 := by
        have : 2 ^ 24 = 16777216 := by norm_num
        omega
      subst hn'
      apply f32_eval_exact 24 8388608 b1 b2
      norm_num

theorem f32_one : f32 1 = 1 := by
  have := @f32_natCast 1 (by norm_num)
  simpa using this

/-- The tie above 1: `1 + 2 ^ (-24)` rounds to 1. -/
theorem f32_one_tie : f32 (16777217 / 16777216) = 1 := by
  rw [f32_eval_tie 0 8388608 (by norm_num) (by norm_num) (by norm_num) (by norm_num [zpow_neg])]
  norm_num [zpow_neg]

/-- The tie above `2 ^ (-24)`: `2 ^ (-24) + 2 ^ (-48)` rounds to `2 ^ (-24)`. -/
theorem f32_ulp_tie : f32 (16777217 / 281474976710656) = 1 / 16777216 := by
  rw [f32_eval_tie (-24) 8388608 (by norm_num [zpow_neg]) (by norm_num [zpow_neg]) (by norm_num)
    (by norm_num [zpow_neg])]
  norm_num [zpow_neg]


/-! ### The progress expression in `float` arithmetic -/

theorem quot_le {p P : ℚ} (hp : 0 ≤ p) (hP : 0 < P) :
    f32 p / f32 P ≤ p / P * (16777217 / 16777216) ^ 2 := by
  have h1 := f32_le_mul hp
  have h2 := le_f32_mul (le_of_lt hP)
  have hfP := f32_pos hP
  rw [div_le_iff₀ hfP]
  have e : p / P * (16777217 / 16777216) ^ 2 * f32 P
      = p * (16777217 / 16777216) * (f32 P * (16777217 / 16777216) / P) := by
    field_simp; ring
  rw [e]
  have h3 : 1 ≤ f32 P * (16777217 / 16777216) / P := (one_le_div hP).mpr h2
  have h4 : 0 ≤ p * (16777217 / 16777216) := by positivity
  nlinarith [mul_le_mul_of_nonneg_left h3 h4]

theorem le_quot {p P : ℚ} (hp : 0 ≤ p) (hP : 0 < P) :
    p / P * (16777215 / 16777217) ≤ f32 p / f32 P := by
  have h1 := mul_le_f32 hp
  have h2 := f32_le_mul (le_of_lt hP)
  have hfP := f32_pos hP
  rw [le_div_iff₀ hfP]
  have e : p / P * (16777215 / 16777217) * f32 P
      = p * (16777215 / 16777216) * (f32 P / (P * (16777217 / 16777216))) := by
    field_simp; ring
  rw [e]
  have h3 : f32 P / (P * (16777217 / 16777216)) ≤ 1 := (div_le_one (by positivity)).mpr h2
  have h4 : 0 ≤ p * (16777215 / 16777216) := by positivity
  nlinarith [mul_le_mul_of_nonneg_left h3 h4]

theorem quot_nonneg {p P : ℚ} (hp : 0 ≤ p) (hP : 0 < P) : 0 ≤ f32 p / f32 P :=
  div_nonneg (f32_nonneg hp) (le_of_lt (f32_pos hP))

theorem fquot_le {p P : ℚ} (hp : 0 ≤ p) (hP : 0 < P) :
    f32 (f32 p / f32 P) ≤ p / P * (16777217 / 16777216) ^ 3 := by
  have h1 := f32_le_mul (quot_nonneg hp hP)
  have h2 := quot_le hp hP
  calc f32 (f32 p / f32 P) ≤ f32 p / f32 P * (16777217 / 16777216) := h1
    _ ≤ p / P * (16777217 / 16777216) ^ 2 * (16777217 / 16777216) :=
        mul_le_mul_of_nonneg_right h2 (by norm_num)
    _ = p / P * (16777217 / 16777216) ^ 3 := by ring

theorem le_fquot {p P : ℚ} (hp : 0 ≤ p) (hP : 0 < P) :
    p / P * (16777215 / 16777217 * (16777215 / 16777216)) ≤ f32 (f32 p / f32 P) := by
  have h1 := mul_le_f32 (quot_nonneg hp hP)
  have h2 := le_quot hp hP
  calc p / P * (16777215 / 16777217 * (16777215 / 16777216))
      = p / P * (16777215 / 16777217) * (16777215 / 16777216) := by ring
    _ ≤ f32 p / f32 P * (16777215 / 16777216) := mul_le_mul_of_nonneg_right h2 (by norm_num)
    _ ≤ f32 (f32 p / f32 P) := h1

theorem fquot_nonneg {p P : ℚ} (hp : 0 ≤ p) (hP : 0 < P) : 0 ≤ f32 (f32 p / f32 P) :=
  f32_nonneg (quot_nonneg hp hP)

/-- The progress expression is at most `(1 + 2 ^ (-24)) ^ 4` times its exact value. -/
theorem prog_upper {p P o D : ℚ} (hp : 0 ≤ p) (hP : 0 < P) (ho : 0 ≤ o) (hD : 0 < D) :
    f32 (f32 (f32 p / f32 P) + f32 (f32 o / f32 D))
      ≤ (p / P + o / D) * (16777217 / 16777216) ^ 4 := by
  have h1 := fquot_le hp hP
  have h2 := fquot_le ho hD
  have h3 := f32_le_mul (add_nonneg (fquot_nonneg hp hP) (fquot_nonneg ho hD))
  calc f32 (f32 (f32 p / f32 P) + f32 (f32 o / f32 D))
      ≤ (f32 (f32 p / f32 P) + f32 (f32 o / f32 D)) * (16777217 / 16777216) := h3
    _ ≤ (p / P * (16777217 / 16777216) ^ 3 + o / D * (16777217 / 16777216) ^ 3)
          * (16777217 / 16777216) :=
        mul_le_mul_of_nonneg_right (add_le_add h1 h2) (by norm_num)
    _ = (p / P + o / D) * (16777217 / 16777216) ^ 4 := by ring

/-- The progress expression is at least `(1 - 2 ^ (-24)) ^ 3 / (1 + 2 ^ (-24))` times its
exact value. -/
theorem prog_lower {p P o D : ℚ} (hp : 0 ≤ p) (hP : 0 < P) (ho : 0 ≤ o) (hD : 0 < D) :
    (p / P + o / D) * (16777215 / 16777217 * (16777215 / 16777216) ^ 2)
      ≤ f32 (f32 (f32 p / f32 P) + f32 (f32 o / f32 D)) := by
  have h1 := le_fquot hp hP
  have h2 := le_fquot ho hD
  have h3 := mul_le_f32 (add_nonneg (fquot_nonneg hp hP) (fquot_nonneg ho hD))
  calc (p / P + o / D) * (16777215 / 16777217 * (16777215 / 16777216) ^ 2)
      = (p / P * (16777215 / 16777217 * (16777215 / 16777216))
          + o / D * (16777215 / 16777217 * (16777215 / 16777216))) * (16777215 / 16777216) := by
        ring
    _ ≤ (f32 (f32 p / f32 P) + f32 (f32 o / f32 D)) * (16777215 / 16777216) :=
        mul_le_mul_of_nonneg_right (add_le_add h1 h2) (by norm_num)
    _ ≤ f32 (f32 (f32 p / f32 P) + f32 (f32 o / f32 D)) := h3

theorem prog_nonneg {p P o D : ℚ} (hp : 0 ≤ p) (hP : 0 < P) (ho : 0 ≤ o) (hD : 0 < D) :
    0 ≤ f32 (f32 (f32 p / f32 P) + f32 (f32 o / f32 D)) :=
  f32_nonneg (add_nonneg (fquot_nonneg hp hP) (fquot_nonneg ho hD))

/-- The progress expression is within `2 ^ (-21)` of its exact value when that is at most 1. -/
theorem prog_close {p P o D : ℚ} (hp : 0 ≤ p) (hP : 0 < P) (ho : 0 ≤ o) (hD : 0 < D)
    (hv : p / P + o / D ≤ 1) :
    |f32 (f32 (f32 p / f32 P) + f32 (f32 o / f32 D)) - (p / P + o / D)| ≤ 1 / 2097152 := by
  have h1 := prog_upper hp hP ho hD
  have h2 := prog_lower hp hP ho hD
  have hv0 : 0 ≤ p / P + o / D := by positivity
  rw [abs_le]
  constructor
  · nlinarith
  · nlinarith

/-- The progress of a complete session: `float(P) / P + 0` is exactly 1. -/
theorem prog_complete {P D : ℚ} (hP : 0 < P) :
    f32 (f32 (f32 P / f32 P) + f32 (f32 0 / f32 D)) = 1 := by
  rw [div_self (ne_of_gt (f32_pos hP)), f32_zero, zero_div, f32_zero, f32_one, add_zero, f32_one]

/-- The progress at the start of a session is exactly 0. -/
theorem prog_start {P D : ℚ} :
    f32 (f32 (f32 0 / f32 P) + f32 (f32 0 / f32 D)) = 0 := by
  simp [f32_zero]

theorem f32_quot_le_one {o N : ℚ} (ho : 0 ≤ o) (hoN : o ≤ N) (hN : 0 < N) :
    f32 (f32 o / f32 N) ≤ 1 := by
  have h1 : f32 o / f32 N ≤ 1 := (div_le_one (f32_pos hN)).mpr (f32_mono ho hoN)
  have := f32_mono (quot_nonneg ho hN) h1
  rwa [f32_one] at this

/-- The second term of the progress: at most `(1 / P) * (1 + 2 ^ (-24)) ^ 2` before its
rounding. -/
theorem second_quot_le {o N P : ℕ} (ho : o ≤ N) (hN : 0 < N) (hP : 0 < P) :
    f32 (o : ℚ) / f32 ((N * P : ℕ) : ℚ) ≤ 1 / (P : ℚ) * (16777217 / 16777216) ^ 2 := by
  have hNq : (0 : ℚ) < (N : ℚ) := by exact_mod_cast hN
  have hPq : (0 : ℚ) < (P : ℚ) := by exact_mod_cast hP
  have hoq : (o : ℚ) ≤ (N : ℚ) := by exact_mod_cast ho
  have hD : (0 : ℚ) < ((N * P : ℕ) : ℚ) := by push_cast; positivity
  have h1 := @quot_le (o : ℚ) ((N * P : ℕ) : ℚ) (by positivity) hD
  have h2 : (o : ℚ) / ((N * P : ℕ) : ℚ) ≤ 1 / (P : ℚ) := by
    push_cast
    rw [div_le_iff₀ (by positivity)]
    have e : 1 / (P : ℚ) * ((N : ℚ) * (P : ℚ)) = (N : ℚ) := by field_simp
    rw [e]
    exact hoq
  calc f32 (o : ℚ) / f32 ((N * P : ℕ) : ℚ)
      ≤ (o : ℚ) / ((N * P : ℕ) : ℚ) * (16777217 / 16777216) ^ 2 := h1
    _ ≤ 1 / (P : ℚ) * (16777217 / 16777216) ^ 2 := mul_le_mul_of_nonneg_right h2 (by norm_num)

theorem second_quot_nonneg (o D : ℕ) : 0 ≤ f32 (o : ℚ) / f32 ((D : ℕ) : ℚ) :=
  div_nonneg (f32_nonneg (by positivity)) (f32_nonneg (by positivity))

/-- Pass counts 2 to 6: both terms are bounded by explicit `float` values. -/
theorem sum_le_small {p o N P : ℕ} {α β : ℚ} (hP2 : 2 ≤ P) (hP : P ≤ 16777216)
    (hα : f32 (((P : ℚ) - 1) / (P : ℚ)) = α)
    (hβ : f32 (1 / (P : ℚ) * (16777217 / 16777216) ^ 2) = β)
    (hsum : α + β ≤ 16777217 / 16777216)
    (hp : p < P) (ho : o ≤ N) (hN : 0 < N) :
    f32 (f32 (p : ℚ) / f32 (P : ℚ)) + f32 (f32 (o : ℚ) / f32 ((N * P : ℕ) : ℚ))
      ≤ 16777217 / 16777216 := by
  have hPq : (0 : ℚ) < (P : ℚ) := by exact_mod_cast (show 0 < P by omega)
  have hpq : (p : ℚ) + 1 ≤ (P : ℚ) := by exact_mod_cast hp
  rw [f32_natCast (show p ≤ 16777216 by omega), f32_natCast hP]
  have h1 : (p : ℚ) / (P : ℚ) ≤ ((P : ℚ) - 1) / (P : ℚ) :=
    div_le_div_of_nonneg_right (by linarith) (le_of_lt hPq)
  have ha := f32_mono (by positivity) h1
  have hb := f32_mono (second_quot_nonneg o (N * P)) (second_quot_le ho hN (show 0 < P by omega))
  rw [hα] at ha
  rw [hβ] at hb
  linarith

theorem alpha2 : f32 ((((2 : ℕ) : ℚ) - 1) / ((2 : ℕ) : ℚ)) = 8388608 / 16777216 := by
  rw [f32_eval (-1) 8388608 (by norm_num [zpow_neg]) (by norm_num [zpow_neg])
    (by norm_num [zpow_neg]) (by norm_num [zpow_neg])]
  norm_num [zpow_neg]

theorem beta2 : f32 (1 / ((2 : ℕ) : ℚ) * (16777217 / 16777216) ^ 2) = 8388609 / 16777216 := by
  rw [f32_eval (-1) 8388609 (by norm_num [zpow_neg]) (by norm_num [zpow_neg])
    (by norm_num [zpow_neg]) (by norm_num [zpow_neg])]
  norm_num [zpow_neg]

theorem alpha3 : f32 ((((3 : ℕ) : ℚ) - 1) / ((3 : ℕ) : ℚ)) = 11184811 / 16777216 := by
  rw [f32_eval (-1) 11184811 (by norm_num [zpow_neg]) (by norm_num [zpow_neg])
    (by norm_num [zpow_neg]) (by norm_num [zpow_neg])]
  norm_num [zpow_neg]

theorem beta3 : f32 (1 / ((3 : ℕ) : ℚ) * (16777217 / 16777216) ^ 2) = 11184812 / 33554432 := by
  rw [f32_eval (-2) 11184812 (by norm_num [zpow_neg]) (by norm_num [zpow_neg])
    (by norm_num [zpow_neg]) (by norm_num [zpow_neg])]
  norm_num [zpow_neg]

theorem alpha4 : f32 ((((4 : ℕ) : ℚ) - 1) / ((4 : ℕ) : ℚ)) = 12582912 / 16777216 := by
  rw [f32_eval (-1) 12582912 (by norm_num [zpow_neg]) (by norm_num [zpow_neg])
    (by norm_num [zpow_neg]) (by norm_num [zpow_neg])]
  norm_num [zpow_neg]

theorem beta4 : f32 (1 / ((4 : ℕ) : ℚ) * (16777217 / 16777216) ^ 2) = 8388609 / 33554432 := by
  rw [f32_eval (-2) 8388609 (by norm_num [zpow_neg]) (by norm_num [zpow_neg])
    (by norm_num [zpow_neg]) (by norm_num [zpow_neg])]
  norm_num [zpow_neg]

theorem alpha5 : f32 ((((5 : ℕ) : ℚ) - 1) / ((5 : ℕ) : ℚ)) = 13421773 / 16777216 := by
  rw [f32_eval (-1) 13421773 (by norm_num [zpow_neg]) (by norm_num [zpow_neg])
    (by norm_num [zpow_neg]) (by norm_num [zpow_neg])]
  norm_num [zpow_neg]

theorem beta5 : f32 (1 / ((5 : ℕ) : ℚ) * (16777217 / 16777216) ^ 2) = 13421774 / 67108864 := by
  rw [f32_eval (-3) 13421774 (by norm_num [zpow_neg]) (by norm_num [zpow_neg])
    (by norm_num [zpow_neg]) (by norm_num [zpow_neg])]
  norm_num [zpow_neg]

theorem alpha6 : f32 ((((6 : ℕ) : ℚ) - 1) / ((6 : ℕ) : ℚ)) = 13981013 / 16777216 := by
  rw [f32_eval (-1) 13981013 (by norm_num [zpow_neg]) (by norm_num [zpow_neg])
    (by norm_num [zpow_neg]) (by norm_num [zpow_neg])]
  norm_num [zpow_neg]

theorem beta6 : f32 (1 / ((6 : ℕ) : ℚ) * (16777217 / 16777216) ^ 2) = 11184812 / 67108864 := by
  rw [f32_eval (-3) 11184812 (by norm_num [zpow_neg]) (by norm_num [zpow_neg])
    (by norm_num [zpow_neg]) (by norm_num [zpow_neg])]
  norm_num [zpow_neg]

/-- Before its last rounding the progress is at most `1 + 2 ^ (-24)`: the tie that rounds
to 1. -/
theorem sum_le {p o N P : ℕ} (hp : p < P) (ho : o ≤ N) (hN : 0 < N) :
    f32 (f32 (p : ℚ) / f32 (P : ℚ)) + f32 (f32 (o : ℚ) / f32 ((N * P : ℕ) : ℚ))
      ≤ 16777217 / 16777216 := by
  have hP0 : 0 < P := by omega
  have hPq : (0 : ℚ) < (P : ℚ) := by exact_mod_cast hP0
  have hNq : (0 : ℚ) < (N : ℚ) := by exact_mod_cast hN
  have hpq : (p : ℚ) + 1 ≤ (P : ℚ) := by exact_mod_cast hp
  have hy := second_quot_le ho hN hP0
  have hy0 := second_quot_nonneg o (N * P)
  rcases Nat.lt_or_ge P 7 with hsmall | hbig
  · rcases Nat.lt_or_ge P 2 with h1 | h2
    · -- one pass
      have hP1 : P = 1 := by omega
      have hp0 : p = 0 := by omega
      subst hP1 hp0
      have hb : f32 (f32 (o : ℚ) / f32 ((N * 1 : ℕ) : ℚ)) ≤ 1 := by
        rw [Nat.mul_one]
        exact f32_quot_le_one (by positivity) (by exact_mod_cast ho) hNq
      have ha : f32 (f32 ((0 : ℕ) : ℚ) / f32 ((1 : ℕ) : ℚ)) = 0 := by
        simp [f32_zero]
      rw [ha]
      linarith
    · interval_cases P
      · exact sum_le_small (by norm_num) (by norm_num) alpha2 beta2 (by norm_num) hp ho hN
      · exact sum_le_small (by norm_num) (by norm_num) alpha3 beta3 (by norm_num) hp ho hN
      · exact sum_le_small (by norm_num) (by norm_num) alpha4 beta4 (by norm_num) hp ho hN
      · exact sum_le_small (by norm_num) (by norm_num) alpha5 beta5 (by norm_num) hp ho hN
      · exact sum_le_small (by norm_num) (by norm_num) alpha6 beta6 (by norm_num) hp ho hN
  · have hP7 : (7 : ℚ) ≤ (P : ℚ) := by exact_mod_cast hbig
    rcases Nat.lt_or_ge 16777216 P with hhuge | hmid
    · -- more than 2 ^ 24 passes
      have ha : f32 (f32 (p : ℚ) / f32 (P : ℚ)) ≤ 1 :=
        f32_quot_le_one (by positivity) (by linarith) hPq
      have hP' : (16777217 : ℚ) ≤ (P : ℚ) := by exact_mod_cast hhuge
      have h3 : 1 / (P : ℚ) * (16777217 / 16777216) ^ 2 ≤ 16777217 / 281474976710656 := by
        rw [one_div, inv_mul_le_iff₀ hPq]
        nlinarith
      have hb := f32_mono hy0 (le_trans hy h3)
      rw [f32_ulp_tie] at hb
      linarith
    · -- between 7 and 2 ^ 24 passes
      rw [f32_natCast (show p ≤ 16777216 by omega), f32_natCast hmid]
      have hx1 : (p : ℚ) / (P : ℚ) ≤ 1 - 1 / (P : ℚ) := by
        rw [div_le_iff₀ hPq, sub_mul, one_div, inv_mul_cancel₀ (ne_of_gt hPq)]
        linarith
      have ht : 1 / (P : ℚ) ≤ 1 / 7 := one_div_le_one_div_of_le (by norm_num) hP7
      have ht0 : 0 < 1 / (P : ℚ) := by positivity
      have ha := f32_le_add (show (0 : ℚ) ≤ (p : ℚ) / (P : ℚ) by positivity) (by linarith)
      have hb := f32_le_mul hy0
      have hb2 : f32 (f32 (o : ℚ) / f32 ((N * P : ℕ) : ℚ))
          ≤ 1 / (P : ℚ) * (16777217 / 16777216) ^ 2 * (16777217 / 16777216) :=
        le_trans hb (mul_le_mul_of_nonneg_right hy (by norm_num))
      nlinarith

/-- The progress expression never exceeds 1. -/
theorem prog_le_one {p o N P : ℕ} (hp : p < P) (ho : o ≤ N) (hN : 0 < N) :
    f32 (f32 (f32 (p : ℚ) / f32 (P : ℚ)) + f32 (f32 (o : ℚ) / f32 ((N * P : ℕ) : ℚ))) ≤ 1 := by
  have hP0 : 0 < P := by omega
  have hPq : (0 : ℚ) < (P : ℚ) := by exact_mod_cast hP0
  have h0 : 0 ≤ f32 (f32 (p : ℚ) / f32 (P : ℚ)) + f32 (f32 (o : ℚ) / f32 ((N * P : ℕ) : ℚ)) :=
    add_nonneg (fquot_nonneg (by positivity) hPq) (f32_nonneg (second_quot_nonneg o (N * P)))
  have := f32_mono h0 (sum_le hp ho hN)
  rwa [f32_one_tie] at this

/-- The exact progress of an incomplete session is at most `1 - 1 / (N * P)`. -/
theorem exact_le {p o N P : ℕ} (hp : p < P) (ho : o < N) :
    (p : ℚ) / (P : ℚ) + (o : ℚ) / ((N * P : ℕ) : ℚ) ≤ 1 - 1 / ((N * P : ℕ) : ℚ) := by
  have hPq : (0 : ℚ) < (P : ℚ) := by exact_mod_cast (show 0 < P by omega)
  have hNq : (0 : ℚ) < (N : ℚ) := by exact_mod_cast (show 0 < N by omega)
  have hpq : (p : ℚ) + 1 ≤ (P : ℚ) := by exact_mod_cast hp
  have hoq : (o : ℚ) + 1 ≤ (N : ℚ) := by exact_mod_cast ho
  push_cast
  have e : (p : ℚ) / (P : ℚ) + (o : ℚ) / ((N : ℚ) * (P : ℚ))
      = ((p : ℚ) * (N : ℚ) + (o : ℚ)) / ((N : ℚ) * (P : ℚ)) := by
    field_simp; ring
  have e2 : 1 - 1 / ((N : ℚ) * (P : ℚ)) = ((N : ℚ) * (P : ℚ) - 1) / ((N : ℚ) * (P : ℚ)) := by
    field_simp
  rw [e, e2]
  apply div_le_div_of_nonneg_right _ (le_of_lt (mul_pos hNq hPq))
  nlinarith

/-- With `N * P <= 2 ^ 22` the progress of an incomplete session is below 1. -/
theorem prog_lt_one {p o N P : ℕ} (hp : p < P) (ho : o < N) (hNP : N * P ≤ 4194304) :
    f32 (f32 (f32 (p : ℚ) / f32 (P : ℚ)) + f32 (f32 (o : ℚ) / f32 ((N * P : ℕ) : ℚ))) < 1 := by
  have hP0 : 0 < P := by omega
  have hN0 : 0 < N := by omega
  have hPq : (0 : ℚ) < (P : ℚ) := by exact_mod_cast hP0
  have hD0 : 0 < N * P := Nat.mul_pos hN0 hP0
  have hD : (0 : ℚ) < ((N * P : ℕ) : ℚ) := by exact_mod_cast hD0
  have hDle : ((N * P : ℕ) : ℚ) ≤ 4194304 := by exact_mod_cast hNP
  have h1 := @prog_upper (p : ℚ) (P : ℚ) (o : ℚ) ((N * P : ℕ) : ℚ) (by positivity) hPq
    (by positivity) hD
  have h2 := exact_le hp ho
  have h3 : 1 / (4194304 : ℚ) ≤ 1 / ((N * P : ℕ) : ℚ) := one_div_le_one_div_of_le hD hDle
  have h4 : (p : ℚ) / (P : ℚ) + (o : ℚ) / ((N * P : ℕ) : ℚ) ≤ 1 - 1 / 4194304 := by linarith
  have h5 : ((p : ℚ) / (P : ℚ) + (o : ℚ) / ((N * P : ℕ) : ℚ)) * (16777217 / 16777216) ^ 4
      ≤ (1 - 1 / 4194304) * (16777217 / 16777216) ^ 4 :=
    mul_le_mul_of_nonneg_right h4 (by norm_num)
  have h6 : (1 - 1 / 4194304 : ℚ) * (16777217 / 16777216) ^ 4 < 1 := by norm_num
  linarith

theorem u32_of_lt {n : Nat} (h : n < 4294967296) : u32 n = n := Nat.mod_eq_of_lt h

theorem u32_lt (n : Nat) : u32 n < 4294967296 := Nat.mod_lt _ (by norm_num)

theorem u64_of_lt {n : Nat} (h : n < 18446744073709551616) : u64 n = n := Nat.mod_eq_of_lt h

theorem subU32_of_le {a b : Nat} (ha : a < 4294967296) (hba : b ≤ a) : subU32 a b = a - b := by
  unfold subU32 u32
  rw [Nat.mod_eq_of_lt ha, Nat.mod_eq_of_lt (lt_of_le_of_lt hba ha)]
  omega

theorem numPasses_lt {cfg : AppSettings} {P : Nat} (hP : numPasses cfg = some P) :
    P < 4294967296 := by
  unfold numPasses at hP
  split_ifs at hP with h0
  simp only [Option.some.injEq] at hP
  rw [← hP]
  exact lt_of_le_of_lt (Nat.div_le_self _ _) (u32_lt _)

theorem numPasses_spp_pos {cfg : AppSettings} {P : Nat} (hP : numPasses cfg = some P) :
    0 < numSamplesPerPass cfg := by
  unfold numPasses at hP
  split_ifs at hP with h0
  exact Nat.pos_of_ne_zero h0

/-! ### The resets at entry -/

theorem beginFrame_steady {cfg : AppSettings} {status : MeshBakerStatus} (app : State)
    (h1 : cfg.NumSamplesPerPassChanged = false) (h2 : status.BakingInvalidated = false) :
    beginFrame cfg status app = { app with voxelBakeProgress := some 0 } := by
  simp [beginFrame, h1, h2]

theorem ensureBakeTexture_current (cfg : AppSettings) (app : State) :
    TextureCurrent cfg (ensureBakeTexture cfg app).1 := by
  unfold ensureBakeTexture TextureCurrent
  by_cases h : app.voxelBakeTexture.Width ≠ u32 cfg.LightMapResolution ∨
      app.voxelBakeTexture.ArraySize ≠ lightMapArraySize cfg
  · simp [h]
  · simp only [h, if_false]
    push_neg at h
    exact h

theorem ensureBakeTexture_of_current {cfg : AppSettings} {app : State}
    (h : TextureCurrent cfg app) : ensureBakeTexture cfg app = (app, []) := by
  unfold ensureBakeTexture
  simp [h.1, h.2]

theorem sessionAtEntry_current (cfg : AppSettings) (status : MeshBakerStatus) (app : State) :
    TextureCurrent cfg (sessionAtEntry cfg status app) :=
  ensureBakeTexture_current cfg _

theorem sessionAtEntry_steady {cfg : AppSettings} {status : MeshBakerStatus} {app : State}
    (h1 : cfg.NumSamplesPerPassChanged = false) (h2 : status.BakingInvalidated = false)
    (ht : TextureCurrent cfg app) :
    sessionAtEntry cfg status app = { app with voxelBakeProgress := some 0 } := by
  unfold sessionAtEntry
  rw [beginFrame_steady app h1 h2, ensureBakeTexture_of_current]
  exact ht

theorem beginFrame_session (cfg : AppSettings) (status : MeshBakerStatus) (app : State) :
    ((beginFrame cfg status app).voxelBakePass = 0 ∧
        (beginFrame cfg status app).voxelBakePointOffset = 0) ∨
      ((beginFrame cfg status app).voxelBakePass = app.voxelBakePass ∧
        (beginFrame cfg status app).voxelBakePointOffset = app.voxelBakePointOffset) := by
  unfold beginFrame
  by_cases h : (cfg.NumSamplesPerPassChanged || status.BakingInvalidated) = true
  · left; simp [h]
  · right; simp [h]

theorem ensureBakeTexture_session (cfg : AppSettings) (app : State) :
    ((ensureBakeTexture cfg app).1.voxelBakePass = 0 ∧
        (ensureBakeTexture cfg app).1.voxelBakePointOffset = 0) ∨
      ((ensureBakeTexture cfg app).1.voxelBakePass = app.voxelBakePass ∧
        (ensureBakeTexture cfg app).1.voxelBakePointOffset = app.voxelBakePointOffset) := by
  unfold ensureBakeTexture
  by_cases h : app.voxelBakeTexture.Width ≠ u32 cfg.LightMapResolution ∨
      app.voxelBakeTexture.ArraySize ≠ lightMapArraySize cfg
  · left; simp [h]
  · right; simp only [h, if_false, and_self]

theorem sessionAtEntry_session (cfg : AppSettings) (status : MeshBakerStatus) (app : State) :
    ((sessionAtEntry cfg status app).voxelBakePass = 0 ∧
        (sessionAtEntry cfg status app).voxelBakePointOffset = 0) ∨
      ((sessionAtEntry cfg status app).voxelBakePass = app.voxelBakePass ∧
        (sessionAtEntry cfg status app).voxelBakePointOffset = app.voxelBakePointOffset) := by
  unfold sessionAtEntry
  rcases ensureBakeTexture_session cfg (beginFrame cfg status app) with h | h
  · exact Or.inl h
  · rcases beginFrame_session cfg status app with h2 | h2
    · exact Or.inl ⟨h.1.trans h2.1, h.2.trans h2.2⟩
    · exact Or.inr ⟨h.1.trans h2.1, h.2.trans h2.2⟩

theorem sessionAtEntry_fresh (cfg : AppSettings) (status : MeshBakerStatus) {app : State}
    (hp : app.voxelBakePass = 0) (ho : app.voxelBakePointOffset = 0) :
    (sessionAtEntry cfg status app).voxelBakePass = 0 ∧
      (sessionAtEntry cfg status app).voxelBakePointOffset = 0 := by
  rcases sessionAtEntry_session cfg status app with h | h
  · exact h
  · exact ⟨h.1.trans hp, h.2.trans ho⟩

/-! ### One invocation -/

theorem BakeWithVoxels_disabled {cfg : AppSettings} (status : MeshBakerStatus) (app : State)
    (hen : cfg.BakeWithVoxels = false) :
    BakeWithVoxels cfg status app = some (beginFrame cfg status app, []) := by
  simp [BakeWithVoxels, hen]

theorem BakeWithVoxels_complete {cfg : AppSettings} {status : MeshBakerStatus} {app : State}
    {P : Nat} (hen : cfg.BakeWithVoxels = true) (hP : numPasses cfg = some P)
    (hge : P ≤ (sessionAtEntry cfg status app).voxelBakePass) :
    BakeWithVoxels cfg status app =
      some ({ sessionAtEntry cfg status app with voxelBakeProgress := some 1 },
            (ensureBakeTexture cfg (beginFrame cfg status app)).2) := by
  unfold sessionAtEntry at hge
  simp [BakeWithVoxels, hen, hP, sessionAtEntry, hge]

theorem BakeWithVoxels_bake {cfg : AppSettings} {status : MeshBakerStatus} {app : State}
    {P : Nat} (hen : cfg.BakeWithVoxels = true) (hP : numPasses cfg = some P)
    (hlt : (sessionAtEntry cfg status app).voxelBakePass < P) :
    BakeWithVoxels cfg status app =
      some ((bakeChunk cfg status P (sessionAtEntry cfg status app)).1,
            (ensureBakeTexture cfg (beginFrame cfg status app)).2
              ++ (bakeChunk cfg status P (sessionAtEntry cfg status app)).2) := by
  unfold sessionAtEntry at hlt
  simp [BakeWithVoxels, hen, hP, sessionAtEntry, Nat.not_le.mpr hlt]

/-! ### The chunk -/

theorem numPointsToBake_eq {cfg : AppSettings} {status : MeshBakerStatus} {s : State}
    (hN : status.NumBakePoints < 4294967296)
    (ho : s.voxelBakePointOffset ≤ status.NumBakePoints) :
    numPointsToBake cfg status s =
      min (maxPointsPerFrame cfg) (status.NumBakePoints - s.voxelBakePointOffset) := by
  unfold numPointsToBake
  rw [u32_of_lt hN, subU32_of_le hN ho]

theorem advance_pass_offset {cfg : AppSettings} {status : MeshBakerStatus} {s : State}
    (hN : status.NumBakePoints < 4294967296)
    (ho : s.voxelBakePointOffset ≤ status.NumBakePoints)
    {P : Nat} (hP : P < 4294967296) (hlt : s.voxelBakePass < P) :
    (advance cfg status s).voxelBakePass =
        (if status.NumBakePoints ≤ s.voxelBakePointOffset + numPointsToBake cfg status s
          then s.voxelBakePass + 1 else s.voxelBakePass) ∧
      (advance cfg status s).voxelBakePointOffset =
        (if status.NumBakePoints ≤ s.voxelBakePointOffset + numPointsToBake cfg status s
          then 0 else s.voxelBakePointOffset + numPointsToBake cfg status s) ∧
      (advance cfg status s).voxelBakeTexture = s.voxelBakeTexture := by
  have hn := @numPointsToBake_eq cfg _ _ hN ho
  have hsum : s.voxelBakePointOffset + numPointsToBake cfg status s < 4294967296 := by
    rw [hn]; omega
  unfold advance
  simp only [u32_of_lt hsum, ge_iff_le]
  split_ifs with h
  · simp [u32_of_lt (show s.voxelBakePass + 1 < 4294967296 by omega)]
  · simp

theorem progressOf_eq {status : MeshBakerStatus} {P : Nat} (s : State)
    (hN1 : 1 ≤ status.NumBakePoints) (hN : status.NumBakePoints < 4294967296)
    (hP1 : 1 ≤ P) (hP : P < 4294967296) :
    progressOf status P s =
      some (f32 (f32 (f32 (s.voxelBakePass : ℚ) / f32 (P : ℚ))
        + f32 (f32 (s.voxelBakePointOffset : ℚ)
            / f32 ((status.NumBakePoints * P : ℕ) : ℚ)))) := by
  have hprod : status.NumBakePoints * P < 18446744073709551616 := by
    calc status.NumBakePoints * P < 4294967296 * 4294967296 :=
          Nat.mul_lt_mul'' hN hP
      _ = 18446744073709551616 := by norm_num
  have hPq : f32 (P : ℚ) ≠ 0 := ne_of_gt (f32_pos (by exact_mod_cast hP1))
  have hDq : f32 ((status.NumBakePoints * P : ℕ) : ℚ) ≠ 0 :=
    ne_of_gt (f32_pos (by exact_mod_cast Nat.mul_pos hN1 hP1))
  unfold progressOf fdiv fadd
  rw [u64_of_lt hprod, if_neg hPq, if_neg hDq]

/-- With no bake points the second quotient of the progress divides by `float(0)`. -/
theorem progressOf_none (status : MeshBakerStatus) (P : Nat) (s : State)
    (hN : status.NumBakePoints = 0) : progressOf status P s = none := by
  unfold progressOf
  rw [hN, Nat.zero_mul]
  have h0 : f32 ((u64 0 : ℕ) : ℚ) = 0 := by
    have : u64 0 = 0 := rfl
    rw [this, Nat.cast_zero, f32_zero]
  rw [h0]
  unfold fdiv fadd
  rw [if_pos rfl]
  split <;> simp_all

/-- The exact progress of the specification, in the two orders of its last product. -/
theorem exact_comm (p o N P : ℕ) :
    (p : ℚ) / (P : ℚ) + (o : ℚ) / ((P : ℚ) * (N : ℚ))
      = (p : ℚ) / (P : ℚ) + (o : ℚ) / ((N * P : ℕ) : ℚ) := by
  push_cast
  rw [mul_comm (P : ℚ)]

/-- The progress after a chunk, on the session position `(p, o)` the chunk leaves: in
`[0, 1]`, within `2 ^ (-21)` of the exact value, 1 at `(P, 0)`, and below 1 before the
last pass ends when `N * P <= 2 ^ 22`. -/
theorem prog_facts {p o N P : ℕ} (hN : 0 < N) (hcase : (p = P ∧ o = 0) ∨ (p < P ∧ o < N))
    (hP : 0 < P) :
    0 ≤ f32 (f32 (f32 (p : ℚ) / f32 (P : ℚ)) + f32 (f32 (o : ℚ) / f32 ((N * P : ℕ) : ℚ))) ∧
      f32 (f32 (f32 (p : ℚ) / f32 (P : ℚ)) + f32 (f32 (o : ℚ) / f32 ((N * P : ℕ) : ℚ))) ≤ 1 ∧
      |f32 (f32 (f32 (p : ℚ) / f32 (P : ℚ)) + f32 (f32 (o : ℚ) / f32 ((N * P : ℕ) : ℚ)))
          - ((p : ℚ) / (P : ℚ) + (o : ℚ) / ((N * P : ℕ) : ℚ))| ≤ 1 / 2097152 ∧
      (p = P → f32 (f32 (f32 (p : ℚ) / f32 (P : ℚ))
          + f32 (f32 (o : ℚ) / f32 ((N * P : ℕ) : ℚ))) = 1) ∧
      (p < P → N * P ≤ 4194304 → f32 (f32 (f32 (p : ℚ) / f32 (P : ℚ))
          + f32 (f32 (o : ℚ) / f32 ((N * P : ℕ) : ℚ))) < 1) := by
  have hPq : (0 : ℚ) < (P : ℚ) := by exact_mod_cast hP
  have hD : (0 : ℚ) < ((N * P : ℕ) : ℚ) := by exact_mod_cast Nat.mul_pos hN hP
  have hone : p = P → f32 (f32 (f32 (p : ℚ) / f32 (P : ℚ))
      + f32 (f32 (o : ℚ) / f32 ((N * P : ℕ) : ℚ))) = 1 := by
    intro hpP
    rcases hcase with ⟨_, ho⟩ | ⟨hlt, _⟩
    · rw [hpP, ho, Nat.cast_zero]
      exact prog_complete hPq
    · omega
  have hv : (p : ℚ) / (P : ℚ) + (o : ℚ) / ((N * P : ℕ) : ℚ) ≤ 1 := by
    rcases hcase with ⟨hpP, ho⟩ | ⟨hlt, ho⟩
    · rw [hpP, ho, Nat.cast_zero, zero_div, add_zero, div_self (ne_of_gt hPq)]
    · have h1 := exact_le hlt ho
      have h2 : (0 : ℚ) ≤ 1 / ((N * P : ℕ) : ℚ) := by positivity
      linarith
  refine ⟨prog_nonneg (by positivity) hPq (by positivity) hD, ?_,
    prog_close (by positivity) hPq (by positivity) hD hv, hone, ?_⟩
  · rcases hcase with ⟨hpP, _⟩ | ⟨hlt, ho⟩
    · exact le_of_eq (hone hpP)
    · exact prog_le_one hlt (le_of_lt ho) hN
  · intro hlt hNP
    rcases hcase with ⟨hpP, _⟩ | ⟨_, ho⟩
    · omega
    · exact prog_lt_one hlt ho hNP

/-! ### A steady session -/

theorem ceil_div_eq (a b : Nat) (hb : 0 < b) : ⌈((a : ℚ) / (b : ℚ))⌉₊ = (a + b - 1) / b := by
  have hbq : (0 : ℚ) < (b : ℚ) := by exact_mod_cast hb
  apply eq_of_forall_ge_iff
  intro n
  rw [Nat.ceil_le, div_le_iff₀ hbq]
  have h1 : ((a : ℚ) ≤ (n : ℚ) * (b : ℚ)) ↔ a ≤ n * b := by exact_mod_cast Iff.rfl
  rw [h1]
  have h2 : (a + b - 1) / b ≤ n ↔ (a + b - 1) / b < n + 1 := by omega
  rw [h2, Nat.div_lt_iff_lt_mul hb, Nat.add_mul]
  omega

/-- The index `i` is below the number of chunks `ceil (N / c)` exactly when chunk `i`
starts below `N`. -/
theorem lt_chunks_iff (N c i : Nat) (hc : 0 < c) : i < (N + c - 1) / c ↔ i * c < N := by
  rw [← Nat.succ_le_iff, Nat.le_div_iff_mul_le hc, Nat.succ_mul]
  omega

theorem entry_eq {cfg : AppSettings} {status : MeshBakerStatus} {app : State}
    (h1 : cfg.NumSamplesPerPassChanged = false) (h2 : status.BakingInvalidated = false)
    (h : TextureCurrent cfg app ∨ (app.voxelBakePass = 0 ∧ app.voxelBakePointOffset = 0)) :
    (sessionAtEntry cfg status app).voxelBakePass = app.voxelBakePass ∧
      (sessionAtEntry cfg status app).voxelBakePointOffset = app.voxelBakePointOffset := by
  rcases h with h | h
  · rw [sessionAtEntry_steady h1 h2 h]; exact ⟨rfl, rfl⟩
  · have := sessionAtEntry_fresh cfg status h.1 h.2
    exact ⟨this.1.trans h.1.symm, this.2.trans h.2.symm⟩

/-- The result of a baking invocation, from the session state at entry. -/
theorem bake_result {cfg : AppSettings} {status : MeshBakerStatus} {app : State} {P : Nat}
    (hen : cfg.BakeWithVoxels = true) (hP : numPasses cfg = some P)
    (hN : status.NumBakePoints < 4294967296)
    (hlt : (sessionAtEntry cfg status app).voxelBakePass < P)
    (ho : (sessionAtEntry cfg status app).voxelBakePointOffset ≤ status.NumBakePoints) :
    ∃ a cmds, BakeWithVoxels cfg status app = some (a, cmds) ∧ TextureCurrent cfg a ∧
      a.voxelBakePass =
        (if status.NumBakePoints ≤ (sessionAtEntry cfg status app).voxelBakePointOffset
            + min (maxPointsPerFrame cfg)
                (status.NumBakePoints - (sessionAtEntry cfg status app).voxelBakePointOffset)
          then (sessionAtEntry cfg status app).voxelBakePass + 1
          else (sessionAtEntry cfg status app).voxelBakePass) ∧
      a.voxelBakePointOffset =
        (if status.NumBakePoints ≤ (sessionAtEntry cfg status app).voxelBakePointOffset
            + min (maxPointsPerFrame cfg)
                (status.NumBakePoints - (sessionAtEntry cfg status app).voxelBakePointOffset)
          then 0
          else (sessionAtEntry cfg status app).voxelBakePointOffset
            + min (maxPointsPerFrame cfg)
                (status.NumBakePoints - (sessionAtEntry cfg status app).voxelBakePointOffset)) ∧
      a.voxelBakeProgress = progressOf status P a := by
  refine ⟨_, _, BakeWithVoxels_bake hen hP hlt, ?_⟩
  obtain ⟨h1, h2, h3⟩ := @advance_pass_offset cfg _ _ hN ho _ (numPasses_lt hP) hlt
  rw [numPointsToBake_eq hN ho] at h1 h2
  refine ⟨?_, h1, h2, rfl⟩
  have hc := sessionAtEntry_current cfg status app
  unfold TextureCurrent at hc ⊢
  show (advance cfg status (sessionAtEntry cfg status app)).voxelBakeTexture.Width = _ ∧
    (advance cfg status (sessionAtEntry cfg status app)).voxelBakeTexture.ArraySize = _
  rw [h3]
  exact hc

theorem runFrames_succ {cfg : AppSettings} {status : MeshBakerStatus} {n : Nat}
    {app a a1 : State} {trace : List (List GpuCmd)} {cmds : List GpuCmd}
    (h1 : runFrames cfg status n app = some (a, trace))
    (h2 : BakeWithVoxels cfg status a = some (a1, cmds)) :
    runFrames cfg status (n + 1) app = some (a1, trace ++ [cmds]) := by
  simp [runFrames, h1, h2]

/-- Closed form of an uninterrupted session: after `p * k + i` invocations (`k` chunks
per pass) the session is at pass `p`, offset `i * c`. -/
theorem run_closed_form {cfg : AppSettings} {status : MeshBakerStatus} {app : State} {P : Nat}
    (hen : cfg.BakeWithVoxels = true) (hch : cfg.NumSamplesPerPassChanged = false)
    (hinv : status.BakingInvalidated = false) (hP : numPasses cfg = some P)
    (hN1 : 1 ≤ status.NumBakePoints) (hN : status.NumBakePoints < 4294967296)
    (hc : 1 ≤ maxPointsPerFrame cfg)
    (hp0 : app.voxelBakePass = 0) (ho0 : app.voxelBakePointOffset = 0) :
    ∀ j p i, j = p * ((status.NumBakePoints + maxPointsPerFrame cfg - 1) / maxPointsPerFrame cfg) + i →
      i < (status.NumBakePoints + maxPointsPerFrame cfg - 1) / maxPointsPerFrame cfg →
      p ≤ P → (p = P → i = 0) →
      ∃ a tr, runFrames cfg status j app = some (a, tr) ∧ a.voxelBakePass = p ∧
        a.voxelBakePointOffset = i * maxPointsPerFrame cfg ∧
        (1 ≤ j → TextureCurrent cfg a ∧ a.voxelBakeProgress = progressOf status P a) := by
  generalize hk : (status.NumBakePoints + maxPointsPerFrame cfg - 1) / maxPointsPerFrame cfg = k
  have hkiff : ∀ i, i < k ↔ i * maxPointsPerFrame cfg < status.NumBakePoints := by
    intro i; rw [← hk]; exact lt_chunks_iff _ _ _ hc
  have hk1 : 1 ≤ k := by
    have := (hkiff 0).mpr (by omega)
    omega
  intro j
  induction j with
  | zero =>
    intro p i hj hi _ _
    have hi0 : i = 0 := by omega
    have hp : p = 0 := by
      have : p * k = 0 := by omega
      rcases Nat.mul_eq_zero.mp this with h | h
      · exact h
      · omega
    subst hi0; subst hp
    exact ⟨app, [], rfl, hp0, by simpa using ho0, by omega⟩
  | succ j ih =>
    intro p i hj hi hpP hPi
    by_cases hi0 : i = 0
    · subst hi0
      have hp1 : 1 ≤ p := by
        rcases Nat.eq_zero_or_pos p with h | h
        · subst h; omega
        · exact h
      obtain ⟨p', rfl⟩ : ∃ p', p = p' + 1 := ⟨p - 1, by omega⟩
      have hj' : j = p' * k + (k - 1) := by
        have : (p' + 1) * k = p' * k + k := by ring
        omega
      obtain ⟨a, tr, hrun, hap, hao, hpost⟩ := ih p' (k - 1) hj' (by omega) (by omega) (by omega)
      have hcur : TextureCurrent cfg a ∨ (a.voxelBakePass = 0 ∧ a.voxelBakePointOffset = 0) := by
        rcases Nat.eq_zero_or_pos j with h | h
        · right
          subst h
          simp only [runFrames, Option.some.injEq, Prod.mk.injEq] at hrun
          rw [← hrun.1]; exact ⟨hp0, ho0⟩
        · left; exact (hpost h).1
      obtain ⟨e1, e2⟩ := @entry_eq cfg status _ hch hinv hcur
      have hlast : (k - 1) * maxPointsPerFrame cfg < status.NumBakePoints :=
        (hkiff (k - 1)).mp (by omega)
      have hnotk : ¬ (k * maxPointsPerFrame cfg < status.NumBakePoints) := by
        intro h; have := (hkiff k).mpr h; omega
      have hkc : k * maxPointsPerFrame cfg = (k - 1) * maxPointsPerFrame cfg + maxPointsPerFrame cfg := by
        have : k = (k - 1) + 1 := by omega
        conv_lhs => rw [this, Nat.succ_mul]
      obtain ⟨a1, cmds, hb, htex, hpass, hoff, hprog⟩ :=
        @bake_result cfg status a _ hen hP hN
          (by rw [e1, hap]; omega) (by rw [e2, hao]; omega)
      simp only [e1, e2, hap, hao] at hpass hoff
      have hcond : status.NumBakePoints ≤ (k - 1) * maxPointsPerFrame cfg
          + min (maxPointsPerFrame cfg) (status.NumBakePoints - (k - 1) * maxPointsPerFrame cfg) := by
        rcases Nat.le_total (maxPointsPerFrame cfg)
          (status.NumBakePoints - (k - 1) * maxPointsPerFrame cfg) with h | h
        · rw [Nat.min_eq_left h]; omega
        · rw [Nat.min_eq_right h]; omega
      rw [if_pos hcond] at hpass hoff
      exact ⟨a1, tr ++ [cmds], runFrames_succ hrun hb, hpass, by simpa using hoff,
        fun _ => ⟨htex, hprog⟩⟩
    · obtain ⟨i', rfl⟩ : ∃ i', i = i' + 1 := ⟨i - 1, by omega⟩
      have hpP' : p < P := by
        rcases Nat.lt_or_ge p P with h | h
        · exact h
        · have := hPi (by omega); omega
      obtain ⟨a, tr, hrun, hap, hao, hpost⟩ := ih p i' (by omega) (by omega) hpP (by omega)
      have hcur : TextureCurrent cfg a ∨ (a.voxelBakePass = 0 ∧ a.voxelBakePointOffset = 0) := by
        rcases Nat.eq_zero_or_pos j with h | h
        · right
          subst h
          simp only [runFrames, Option.some.injEq, Prod.mk.injEq] at hrun
          rw [← hrun.1]; exact ⟨hp0, ho0⟩
        · left; exact (hpost h).1
      obtain ⟨e1, e2⟩ := @entry_eq cfg status _ hch hinv hcur
      have hnext : (i' + 1) * maxPointsPerFrame cfg < status.NumBakePoints := (hkiff (i' + 1)).mp hi
      have hsm : (i' + 1) * maxPointsPerFrame cfg = i' * maxPointsPerFrame cfg + maxPointsPerFrame cfg :=
        Nat.succ_mul _ _
      obtain ⟨a1, cmds, hb, htex, hpass, hoff, hprog⟩ :=
        @bake_result cfg status a _ hen hP hN
          (by rw [e1, hap]; exact hpP') (by rw [e2, hao]; omega)
      simp only [e1, e2, hap, hao] at hpass hoff
      have hmin : min (maxPointsPerFrame cfg) (status.NumBakePoints - i' * maxPointsPerFrame cfg)
          = maxPointsPerFrame cfg := Nat.min_eq_left (by omega)
      rw [hmin] at hpass hoff
      have hcond : ¬ status.NumBakePoints ≤ i' * maxPointsPerFrame cfg + maxPointsPerFrame cfg := by
        omega
      rw [if_neg hcond] at hpass hoff
      exact ⟨a1, tr ++ [cmds], runFrames_succ hrun hb, hpass, by rw [hoff, hsm],
        fun _ => ⟨htex, hprog⟩⟩

theorem progress_lt_one {P N p o : Nat} (hp : p < P) (ho : o < N) :
    (p : ℚ) / (P : ℚ) + (o : ℚ) / ((N : ℚ) * (P : ℚ)) < 1 := by
  have hPq : (0 : ℚ) < (P : ℚ) := by exact_mod_cast (show 0 < P by omega)
  have hNq : (0 : ℚ) < (N : ℚ) := by exact_mod_cast (show 0 < N by omega)
  have hlt : (p : ℚ) * (N : ℚ) + (o : ℚ) < (N : ℚ) * (P : ℚ) := by
    have h1 : p * N + o < N * P := by
      calc p * N + o < p * N + N := by omega
        _ = (p + 1) * N := by ring
        _ ≤ P * N := Nat.mul_le_mul_right N hp
        _ = N * P := by ring
    exact_mod_cast h1
  rw [div_add_div _ _ (ne_of_gt hPq) (ne_of_gt (mul_pos hNq hPq)), div_lt_one (by positivity)]
  nlinarith [hlt, hPq, hNq]

/-- In an uninterrupted session each of the first `P * k - 1` invocations,
`k = (N + c - 1) / c` chunks per pass, leaves the pass index below `P` and a progress of
at most 1, below 1 when `N * P <= 2 ^ 22`. -/
theorem run_before_done {cfg : AppSettings} {status : MeshBakerStatus} {app : State} {P : Nat}
    (hen : cfg.BakeWithVoxels = true) (hch : cfg.NumSamplesPerPassChanged = false)
    (hinv : status.BakingInvalidated = false) (hP : numPasses cfg = some P) (hP1 : 1 ≤ P)
    (hN1 : 1 ≤ status.NumBakePoints) (hN : status.NumBakePoints < 4294967296)
    (hc : 1 ≤ maxPointsPerFrame cfg)
    (hp0 : app.voxelBakePass = 0) (ho0 : app.voxelBakePointOffset = 0) (j : Nat) (hj1 : 1 ≤ j)
    (hjlt : j < P * ((status.NumBakePoints + maxPointsPerFrame cfg - 1) / maxPointsPerFrame cfg)) :
    ∃ a tr q, runFrames cfg status j app = some (a, tr) ∧ a.voxelBakePass < P ∧
      a.voxelBakeProgress = some q ∧ q ≤ 1 ∧ (status.NumBakePoints * P ≤ 4194304 → q < 1) := by
  have hcf := run_closed_form hen hch hinv hP hN1 hN hc hp0 ho0
  have hkiff : ∀ i, i < (status.NumBakePoints + maxPointsPerFrame cfg - 1) / maxPointsPerFrame cfg
      ↔ i * maxPointsPerFrame cfg < status.NumBakePoints := fun i => lt_chunks_iff _ _ _ hc
  generalize (status.NumBakePoints + maxPointsPerFrame cfg - 1) / maxPointsPerFrame cfg = k
    at hcf hkiff hjlt
  have hk1 : 1 ≤ k := by
    have := (hkiff 0).mpr (by omega)
    omega
  have hdm : j = j / k * k + j % k := by
    have := Nat.div_add_mod j k
    rw [Nat.mul_comm] at this; omega
  have hmod : j % k < k := Nat.mod_lt _ (by omega)
  have hdiv : j / k < P := Nat.div_lt_of_lt_mul (by rw [Nat.mul_comm]; exact hjlt)
  obtain ⟨a, tr, hrun, hap, hao, hpost⟩ := hcf j (j / k) (j % k) hdm hmod (by omega) (by omega)
  obtain ⟨_, hprog⟩ := hpost hj1
  rw [progressOf_eq a hN1 hN hP1 (numPasses_lt hP), hap, hao] at hprog
  obtain ⟨_, h1, _, _, h2⟩ := @prog_facts (j / k) (j % k * maxPointsPerFrame cfg)
    status.NumBakePoints P hN1 (Or.inr ⟨hdiv, (hkiff _).mp hmod⟩) hP1
  exact ⟨a, tr, _, hrun, by rw [hap]; exact hdiv, hprog, h1, h2 hdiv⟩

/-- In an uninterrupted session invocation `P * k`, `k = (N + c - 1) / c` chunks per
pass, leaves the pass index `P` and the progress 1. -/
theorem run_done {cfg : AppSettings} {status : MeshBakerStatus} {app : State} {P : Nat}
    (hen : cfg.BakeWithVoxels = true) (hch : cfg.NumSamplesPerPassChanged = false)
    (hinv : status.BakingInvalidated = false) (hP : numPasses cfg = some P) (hP1 : 1 ≤ P)
    (hN1 : 1 ≤ status.NumBakePoints) (hN : status.NumBakePoints < 4294967296)
    (hc : 1 ≤ maxPointsPerFrame cfg)
    (hp0 : app.voxelBakePass = 0) (ho0 : app.voxelBakePointOffset = 0) :
    ∃ a tr, runFrames cfg status
        (P * ((status.NumBakePoints + maxPointsPerFrame cfg - 1) / maxPointsPerFrame cfg)) app
          = some (a, tr) ∧ a.voxelBakePass = P ∧ a.voxelBakeProgress = some 1 := by
  have hcf := run_closed_form hen hch hinv hP hN1 hN hc hp0 ho0
  have hkiff : ∀ i, i < (status.NumBakePoints + maxPointsPerFrame cfg - 1) / maxPointsPerFrame cfg
      ↔ i * maxPointsPerFrame cfg < status.NumBakePoints := fun i => lt_chunks_iff _ _ _ hc
  generalize (status.NumBakePoints + maxPointsPerFrame cfg - 1) / maxPointsPerFrame cfg = k
    at hcf hkiff
  have hk1 : 1 ≤ k := by
    have := (hkiff 0).mpr (by omega)
    omega
  obtain ⟨a, tr, hrun, hap, hao, hpost⟩ :=
    hcf (P * k) P 0 (by omega) (by omega) le_rfl (fun _ => rfl)
  obtain ⟨_, hprog⟩ := hpost (Nat.mul_pos hP1 hk1)
  rw [progressOf_eq a hN1 hN hP1 (numPasses_lt hP), hap, hao] at hprog
  obtain ⟨_, _, _, h1, _⟩ := @prog_facts P (0 * maxPointsPerFrame cfg)
    status.NumBakePoints P hN1 (Or.inl ⟨rfl, Nat.zero_mul _⟩) hP1
  refine ⟨a, tr, hrun, hap, ?_⟩
  rw [hprog, h1 rfl]

/-- C1 (amended): the per-frame cap is `maxPointsPerFrame cfg`, that is
`MaxBakePointsPerPass * 1024` as a `uint32`.  For `1 <= N < 2 ^ 32` bake points, a cap `c >= 1`
and `P >= 1` passes, a session that starts at pass 0, offset 0 and runs with fixed
settings and no invalidation reaches the pass index `P` after exactly `P * ceil (N / c)`
invocations, and that invocation reports the progress 1.  Each earlier invocation leaves
the pass index below `P` and reports a progress of at most 1, which is below 1 when
`N * P <= 2 ^ 22`. -/
theorem session_completes (cfg : AppSettings) (status : MeshBakerStatus) (app : State) (P : Nat)
    (hen : cfg.BakeWithVoxels = true) (hch : cfg.NumSamplesPerPassChanged = false)
    (hinv : status.BakingInvalidated = false) (hP : numPasses cfg = some P) (hP1 : 1 ≤ P)
    (hN1 : 1 ≤ status.NumBakePoints) (hN : status.NumBakePoints < 2 ^ 32)
    (hc : 1 ≤ maxPointsPerFrame cfg)
    (hp0 : app.voxelBakePass = 0) (ho0 : app.voxelBakePointOffset = 0) :
    (∀ j, 1 ≤ j →
        j < P * ⌈((status.NumBakePoints : ℚ) / (maxPointsPerFrame cfg : ℚ))⌉₊ →
        ∃ a tr q, runFrames cfg status j app = some (a, tr) ∧ a.voxelBakePass < P ∧
          a.voxelBakeProgress = some q ∧ q ≤ 1 ∧
          (status.NumBakePoints * P ≤ 2 ^ 22 → q < 1)) ∧
      ∃ a tr, runFrames cfg status
          (P * ⌈((status.NumBakePoints : ℚ) / (maxPointsPerFrame cfg : ℚ))⌉₊) app = some (a, tr) ∧
        a.voxelBakePass = P ∧ a.voxelBakeProgress = some 1 := by
  have hN' : status.NumBakePoints < 4294967296 := by norm_num at hN; exact hN
  rw [ceil_div_eq _ _ hc]
  exact ⟨fun j hj1 hjlt => run_before_done hen hch hinv hP hP1 hN1 hN' hc hp0 ho0 j hj1 hjlt,
    run_done hen hch hinv hP hP1 hN1 hN' hc hp0 ho0⟩

/-- C1 (amended) at a concrete input: 4 passes, `N = 100000`, `MaxBakePointsPerPass = 50`
(cap 51200, two chunks per pass), so completion takes `4 * 2 = 8` invocations. -/
theorem session_completes_witness :
    (∀ j, 1 ≤ j →
        j < 4 * ⌈(((scenarioStatus 100000).NumBakePoints : ℚ)
              / (maxPointsPerFrame scenarioSettings : ℚ))⌉₊ →
        ∃ a tr q, runFrames scenarioSettings (scenarioStatus 100000) j State.initial = some (a, tr) ∧
          a.voxelBakePass < 4 ∧ a.voxelBakeProgress = some q ∧ q ≤ 1 ∧
          ((scenarioStatus 100000).NumBakePoints * 4 ≤ 2 ^ 22 → q < 1)) ∧
      ∃ a tr, runFrames scenarioSettings (scenarioStatus 100000)
          (4 * ⌈(((scenarioStatus 100000).NumBakePoints : ℚ)
              / (maxPointsPerFrame scenarioSettings : ℚ))⌉₊) State.initial = some (a, tr) ∧
        a.voxelBakePass = 4 ∧ a.voxelBakeProgress = some 1 :=
  session_completes scenarioSettings (scenarioStatus 100000) State.initial 4 rfl rfl rfl
    (by decide) (by decide) (by decide) (by decide) (by decide) rfl rfl

/-- The `float` evaluation of the progress at pass 513 of 514, offset 32768 of 32769. -/
theorem value_last_chunk :
    f32 (f32 (f32 ((513 : ℕ) : ℚ) / f32 ((514 : ℕ) : ℚ))
      + f32 (f32 ((32768 : ℕ) : ℚ) / f32 ((32769 * 514 : ℕ) : ℚ))) = 1 := by
  have e1 : f32 ((513 : ℕ) : ℚ) = 513 := by rw [f32_natCast (by norm_num)]; norm_num
  have e2 : f32 ((514 : ℕ) : ℚ) = 514 := by rw [f32_natCast (by norm_num)]; norm_num
  have e3 : f32 ((32768 : ℕ) : ℚ) = 32768 := by rw [f32_natCast (by norm_num)]; norm_num
  have e4 : f32 ((32769 * 514 : ℕ) : ℚ) = 16843266 := by
    have e : ((32769 * 514 : ℕ) : ℚ) = 16843266 := by norm_num
    rw [e]
    exact f32_eval_exact 24 8421633 (by norm_num) (by norm_num) (by norm_num)
  have x : f32 ((513 : ℚ) / 514) = 130817 / 131072 := by
    rw [f32_eval (-1) 16744576 (by norm_num [zpow_neg]) (by norm_num [zpow_neg])
      (by norm_num [zpow_neg]) (by norm_num [zpow_neg])]
    norm_num [zpow_neg]
  have y : f32 ((32768 : ℚ) / 16843266) = 16711425 / 8589934592 := by
    rw [f32_eval (-10) 16711425 (by norm_num [zpow_neg]) (by norm_num [zpow_neg])
      (by norm_num [zpow_neg]) (by norm_num [zpow_neg])]
    norm_num [zpow_neg]
  have z : f32 ((130817 : ℚ) / 131072 + 16711425 / 8589934592) = 1 := by
    rw [f32_eval (-1) 16777216 (by norm_num [zpow_neg]) (by norm_num [zpow_neg])
      (by norm_num [zpow_neg]) (by norm_num [zpow_neg])]
    norm_num [zpow_neg]
  rw [e1, e2, e3, e4, x, y, z]

/-- The long session after 16961 invocations: pass 513, offset 32768 and a progress that
has rounded to 1. -/
theorem long_session_last_chunk :
    ∃ a tr, runFrames longSettings (scenarioStatus 32769) 16961 State.initial = some (a, tr) ∧
      a.voxelBakePass = 513 ∧ a.voxelBakePointOffset = 32768 ∧
      a.voxelBakeProgress = some 1 := by
  have hcf := @run_closed_form longSettings (scenarioStatus 32769) State.initial 514
    rfl rfl rfl (by decide) (by decide) (by decide) (by decide) rfl rfl
  obtain ⟨a, tr, hrun, hap, hao, hpost⟩ :=
    hcf 16961 513 32 (by decide) (by decide) (by decide) (by decide)
  obtain ⟨_, hprog⟩ := hpost (by decide)
  have hao' : a.voxelBakePointOffset = 32768 := hao.trans (by decide)
  rw [progressOf_eq a (by decide) (by decide) (by norm_num) (by norm_num), hap, hao'] at hprog
  exact ⟨a, tr, hrun, hap, hao', hprog.trans (congrArg some value_last_chunk)⟩

/-- C1 fails on its witness: no value of `MaxBakePointsPerPass` gives a per-frame cap of
50 bake points (the cap is a multiple of 1024), and with the setting at 50, 4 passes and
`N = 100` the progress is 1 after 4 invocations, not 8.  It also fails on the progress
before completion: with 514 passes, cap 1024 and `N = 32769` completion takes
`514 * 33 = 16962` invocations, and the progress reported after invocation 16961
(pass 513) is already 1. -/
theorem scenario_counter :
    (∀ m : Nat, maxPointsPerFrame { scenarioSettings with MaxBakePointsPerPass := m } ≠ 50) ∧
      numPasses scenarioSettings = some 4 ∧
      (∃ a tr, runFrames scenarioSettings (scenarioStatus 100) 4 State.initial = some (a, tr) ∧
        a.voxelBakeProgress = some 1) ∧
      numPasses longSettings = some 514 ∧
      514 * ((32769 + maxPointsPerFrame longSettings - 1) / maxPointsPerFrame longSettings)
        = 16962 ∧
      ∃ a tr, runFrames longSettings (scenarioStatus 32769) 16961 State.initial = some (a, tr) ∧
        a.voxelBakePass = 513 ∧ a.voxelBakeProgress = some 1 := by
  refine ⟨?_, by decide, ?_, by decide, by decide, ?_⟩
  · intro m
    simp only [maxPointsPerFrame, u32]
    omega
  · obtain ⟨a, tr, hrun, _, hprog⟩ := @run_done scenarioSettings (scenarioStatus 100)
      State.initial 4 rfl rfl rfl (by decide) (by decide) (by decide)
      (by decide) (by decide) rfl rfl
    exact ⟨a, tr, hrun, hprog⟩
  · obtain ⟨a, tr, hrun, hap, _, hprog⟩ := long_session_last_chunk
    exact ⟨a, tr, hrun, hap, hprog⟩

/-! ### The complete session, the progress formula and the empty input -/

/-- A steady invocation on a complete session returns at line 1010: progress 1, no GPU
call, state otherwise unchanged. -/
theorem BakeWithVoxels_complete_steady (cfg : AppSettings) (status : MeshBakerStatus)
    (app : State) (P : Nat) (hen : cfg.BakeWithVoxels = true) (hch : cfg.NumSamplesPerPassChanged = false)
    (hinv : status.BakingInvalidated = false) (htex : TextureCurrent cfg app)
    (hP : numPasses cfg = some P) (hge : P ≤ app.voxelBakePass) :
    BakeWithVoxels cfg status app = some ({ app with voxelBakeProgress := some 1 }, []) := by
  have hs := @sessionAtEntry_steady cfg status _ hch hinv htex
  have hb := @BakeWithVoxels_complete cfg status app _ hen hP
    (by rw [hs]; exact hge)
  rw [hb, hs, beginFrame_steady app hch hinv, ensureBakeTexture_of_current (by exact htex)]

/-- C8: Complete is absorbing.  When `BakeWithVoxels` is entered with baking enabled, no
invalidation (neither the samples-per-pass change flag nor `BakingInvalidated`), a
current lightmap texture (no recreation) and `voxelBakePass >= numPasses`, it returns
with progress 1, issues no GPU call at all (no clear, no bake dispatch, no gutter
dispatch) and leaves the pass index and the offset unchanged. -/
theorem complete_is_absorbing (cfg : AppSettings) (status : MeshBakerStatus) (app : State)
    (P : Nat) (hen : cfg.BakeWithVoxels = true) (hch : cfg.NumSamplesPerPassChanged = false)
    (hinv : status.BakingInvalidated = false) (htex : TextureCurrent cfg app)
    (hP : numPasses cfg = some P) (hge : P ≤ app.voxelBakePass) :
    ∃ a, BakeWithVoxels cfg status app = some (a, []) ∧ a.voxelBakeProgress = some 1 ∧
      a.voxelBakePass = app.voxelBakePass ∧
      a.voxelBakePointOffset = app.voxelBakePointOffset :=
  ⟨_, BakeWithVoxels_complete_steady cfg status app P hen hch hinv htex hP hge, rfl, rfl, rfl⟩

/-- C8 at a concrete input: the scenario settings with the session at pass 4 of 4. -/
theorem complete_is_absorbing_witness :
    ∃ a, BakeWithVoxels scenarioSettings (scenarioStatus 100) completeState = some (a, []) ∧
      a.voxelBakeProgress = some 1 ∧
      a.voxelBakePass = completeState.voxelBakePass ∧
      a.voxelBakePointOffset = completeState.voxelBakePointOffset :=
  complete_is_absorbing scenarioSettings (scenarioStatus 100) completeState 4 rfl rfl rfl
    ⟨rfl, rfl⟩ (by decide) (by decide)

/-- The session position after a chunk, with no assumption on the state at entry. -/
theorem advance_cases (cfg : AppSettings) (status : MeshBakerStatus) (s : State) :
    ((advance cfg status s).voxelBakePass = u32 (s.voxelBakePass + 1) ∧
        (advance cfg status s).voxelBakePointOffset = 0) ∨
      ((advance cfg status s).voxelBakePass = s.voxelBakePass ∧
        (advance cfg status s).voxelBakePointOffset < status.NumBakePoints) := by
  unfold advance
  by_cases h : u32 (s.voxelBakePointOffset + numPointsToBake cfg status s) ≥ status.NumBakePoints
  · left; simp [h]
  · right; simp only [h, if_false, true_and]; omega

theorem advance_texture (cfg : AppSettings) (status : MeshBakerStatus) (s : State) :
    (advance cfg status s).voxelBakeTexture = s.voxelBakeTexture := by
  unfold advance
  by_cases h : u32 (s.voxelBakePointOffset + numPointsToBake cfg status s) ≥ status.NumBakePoints
  · simp only [h, if_true]
  · simp only [h, if_false]

/-- The session position after a chunk of an incomplete session: the end of the last
pass, or a position inside a pass. -/
theorem advance_position (cfg : AppSettings) (status : MeshBakerStatus) (s : State) {P : Nat}
    (hlt : s.voxelBakePass < P) (hP : P < 4294967296) (hN1 : 1 ≤ status.NumBakePoints) :
    ((advance cfg status s).voxelBakePass = P ∧
        (advance cfg status s).voxelBakePointOffset = 0) ∨
      ((advance cfg status s).voxelBakePass < P ∧
        (advance cfg status s).voxelBakePointOffset < status.NumBakePoints) := by
  rcases advance_cases cfg status s with ⟨h1, h2⟩ | ⟨h1, h2⟩
  · rw [u32_of_lt (by omega)] at h1
    rcases Nat.lt_or_ge (s.voxelBakePass + 1) P with h | h
    · right; exact ⟨by omega, by omega⟩
    · left; exact ⟨by omega, h2⟩
  · right; exact ⟨by omega, h2⟩

/-- The progress that a baking invocation reports, from the session position it leaves. -/
theorem bake_progress {cfg : AppSettings} {status : MeshBakerStatus} {app : State} {P : Nat}
    (hen : cfg.BakeWithVoxels = true) (hP : numPasses cfg = some P)
    (hlt : (sessionAtEntry cfg status app).voxelBakePass < P)
    (hN1 : 1 ≤ status.NumBakePoints) (hN : status.NumBakePoints < 4294967296) :
    ∃ a cmds, BakeWithVoxels cfg status app = some (a, cmds) ∧
      a.voxelBakeTexture = (sessionAtEntry cfg status app).voxelBakeTexture ∧
      ((a.voxelBakePass = P ∧ a.voxelBakePointOffset = 0) ∨
        (a.voxelBakePass < P ∧ a.voxelBakePointOffset < status.NumBakePoints)) ∧
      a.voxelBakeProgress = progressOf status P a ∧
      a.voxelBakeProgress =
        some (f32 (f32 (f32 (a.voxelBakePass : ℚ) / f32 (P : ℚ))
          + f32 (f32 (a.voxelBakePointOffset : ℚ)
              / f32 ((status.NumBakePoints * P : ℕ) : ℚ)))) := by
  have hPlt := numPasses_lt hP
  refine ⟨_, _, BakeWithVoxels_bake hen hP hlt, advance_texture _ _ _,
    advance_position cfg status _ hlt hPlt hN1, rfl, ?_⟩
  exact progressOf_eq (advance cfg status (sessionAtEntry cfg status app)) hN1 hN (by omega) hPlt

/-- C5 (amended): after a baking invocation (`1 <= N < 2 ^ 32`, session pass below
`numPasses` after the resets at entry) the reported progress is the `float` evaluation of
`pass / numPasses + offset / (N * numPasses)` on the pass index and offset the invocation
leaves, every conversion and operation rounded to `float`; it is within `2 ^ (-21)` of the
exact rational `pass / numPasses + offset / (numPasses * N)`, and it is exactly 1 when
the pass index the invocation leaves equals `numPasses`. -/
theorem progress_after_bake (cfg : AppSettings) (status : MeshBakerStatus) (app : State) (P : Nat)
    (hen : cfg.BakeWithVoxels = true) (hP : numPasses cfg = some P)
    (hlt : (sessionAtEntry cfg status app).voxelBakePass < P)
    (hN1 : 1 ≤ status.NumBakePoints) (hN : status.NumBakePoints < 2 ^ 32) :
    ∃ a cmds q, BakeWithVoxels cfg status app = some (a, cmds) ∧
      a.voxelBakeProgress = some q ∧
      q = f32 (f32 (f32 (a.voxelBakePass : ℚ) / f32 (P : ℚ))
        + f32 (f32 (a.voxelBakePointOffset : ℚ) / f32 ((status.NumBakePoints * P : ℕ) : ℚ))) ∧
      |q - ((a.voxelBakePass : ℚ) / (P : ℚ)
        + (a.voxelBakePointOffset : ℚ) / ((P : ℚ) * (status.NumBakePoints : ℚ)))|
          ≤ 1 / 2 ^ 21 ∧
      (a.voxelBakePass = P → q = 1) := by
  have hN' : status.NumBakePoints < 4294967296 := by norm_num at hN; exact hN
  obtain ⟨a, cmds, hb, _, hpos, _, hprog⟩ := bake_progress hen hP hlt hN1 hN'
  obtain ⟨_, _, h3, h4, _⟩ := @prog_facts a.voxelBakePass a.voxelBakePointOffset
    status.NumBakePoints P hN1 hpos (by omega)
  refine ⟨a, cmds, _, hb, hprog, rfl, ?_, h4⟩
  have e21 : (1 : ℚ) / 2 ^ 21 = 1 / 2097152 := by norm_num
  rw [e21, exact_comm]
  exact h3

/-- C5 (amended) at a concrete input: the first invocation of the scenario with 100 bake
points. -/
theorem progress_after_bake_witness :
    ∃ a cmds q, BakeWithVoxels scenarioSettings (scenarioStatus 100) State.initial
        = some (a, cmds) ∧
      a.voxelBakeProgress = some q ∧
      q = f32 (f32 (f32 (a.voxelBakePass : ℚ) / f32 ((4 : Nat) : ℚ))
        + f32 (f32 (a.voxelBakePointOffset : ℚ)
            / f32 (((scenarioStatus 100).NumBakePoints * 4 : ℕ) : ℚ))) ∧
      |q - ((a.voxelBakePass : ℚ) / ((4 : Nat) : ℚ)
        + (a.voxelBakePointOffset : ℚ)
            / (((4 : Nat) : ℚ) * ((scenarioStatus 100).NumBakePoints : ℚ)))| ≤ 1 / 2 ^ 21 ∧
      (a.voxelBakePass = 4 → q = 1) :=
  progress_after_bake scenarioSettings (scenarioStatus 100) State.initial 4 rfl (by decide)
    (by decide) (by decide) (by decide)

/-- The `float` evaluation of the progress at pass 0 of 4, offset 51200 of 100000. -/
theorem value_scenario :
    f32 (f32 (f32 ((0 : ℕ) : ℚ) / f32 ((4 : ℕ) : ℚ))
      + f32 (f32 ((51200 : ℕ) : ℚ) / f32 ((100000 * 4 : ℕ) : ℚ))) = 8589935 / 67108864 := by
  have e1 : f32 ((0 : ℕ) : ℚ) = 0 := by rw [Nat.cast_zero, f32_zero]
  have e2 : f32 ((4 : ℕ) : ℚ) = 4 := by rw [f32_natCast (by norm_num)]; norm_num
  have e3 : f32 ((51200 : ℕ) : ℚ) = 51200 := by rw [f32_natCast (by norm_num)]; norm_num
  have e4 : f32 ((100000 * 4 : ℕ) : ℚ) = 400000 := by rw [f32_natCast (by norm_num)]; norm_num
  have y : f32 ((51200 : ℚ) / 400000) = 8589935 / 67108864 := by
    rw [f32_eval (-3) 8589935 (by norm_num [zpow_neg]) (by norm_num [zpow_neg])
      (by norm_num [zpow_neg]) (by norm_num [zpow_neg])]
    norm_num [zpow_neg]
  have z : f32 ((8589935 : ℚ) / 67108864) = 8589935 / 67108864 := by
    rw [f32_eval (-3) 8589935 (by norm_num [zpow_neg]) (by norm_num [zpow_neg])
      (by norm_num [zpow_neg]) (by norm_num [zpow_neg])]
    norm_num [zpow_neg]
  rw [e1, e2, e3, e4, zero_div, f32_zero, y, zero_add, z]

/-- C5 fails as stated: in the scenario with 100000 bake points the first invocation
leaves pass 0, offset 51200 and reports the `float` nearest to 0.128, which is
`8589935 / 2 ^ 26`, not the exact rational `0 / 4 + 51200 / (4 * 100000) = 16 / 125`. -/
theorem progress_not_exact :
    ∃ a cmds q, BakeWithVoxels scenarioSettings (scenarioStatus 100000) State.initial
        = some (a, cmds) ∧
      a.voxelBakePass = 0 ∧ a.voxelBakePointOffset = 51200 ∧
      a.voxelBakeProgress = some q ∧ q = 8589935 / 67108864 ∧
      q ≠ (a.voxelBakePass : ℚ) / 4 + (a.voxelBakePointOffset : ℚ) / (4 * 100000) := by
  obtain ⟨a, cmds, hb, _, hpass, hoff, hprog⟩ :=
    @bake_result scenarioSettings (scenarioStatus 100000) State.initial 4 rfl (by decide)
      (by decide) (by decide) (by decide)
  have hp0 : a.voxelBakePass = 0 := hpass.trans (by decide)
  have ho : a.voxelBakePointOffset = 51200 := hoff.trans (by decide)
  rw [progressOf_eq a (by decide) (by decide) (by norm_num) (by norm_num), hp0, ho] at hprog
  refine ⟨a, cmds, _, hb, hp0, ho, hprog.trans (congrArg some value_scenario), rfl, ?_⟩
  rw [hp0, ho]
  norm_num

/-- C7 (the code at the failing input): with `N = 0` bake points and 4 passes the first
invocation on a fresh session recreates and clears the lightmap, issues the bake
dispatch with `numPointsToBake = 0`, moves to pass 1 and leaves a progress with no
finite value, `1 / 4 + 0 / float(0 * 4)`: not 1. -/
theorem empty_input_first_invocation :
    ∃ a c, BakeWithVoxels scenarioSettings (scenarioStatus 0) State.initial
        = some (a, [GpuCmd.initBakeTexture 64 2, GpuCmd.clearLightMapSlice 0,
            GpuCmd.clearLightMapSlice 1, GpuCmd.dispatchVoxelBake 0 c]) ∧
      a.voxelBakePass = 1 ∧ a.voxelBakePointOffset = 0 ∧ a.voxelBakeProgress = none := by
  exact ⟨_, _, rfl, rfl, rfl, progressOf_none _ _ _ rfl⟩

/-! ### Reachable states and the chunk of an invocation -/

theorem VoxelizeScene_offset (cfg : AppSettings) (status : MeshBakerStatus) (app : State) :
    (VoxelizeScene cfg status app).1.voxelBakePointOffset = 0 ∨
      (VoxelizeScene cfg status app).1.voxelBakePointOffset = app.voxelBakePointOffset := by
  unfold VoxelizeScene
  by_cases h : reVoxelize cfg status app = false
  · right
    simp only [h, if_true]
    unfold createVoxelTextures
    split_ifs <;> rfl
  · left
    have h' : reVoxelize cfg status app = true := by simpa using h
    simp [h']

theorem BakeWithVoxels_offset {cfg : AppSettings} {status : MeshBakerStatus} {app a : State}
    {cmds : List GpuCmd} (h : BakeWithVoxels cfg status app = some (a, cmds)) :
    a.voxelBakePointOffset = 0 ∨ a.voxelBakePointOffset = app.voxelBakePointOffset ∨
      a.voxelBakePointOffset < status.NumBakePoints := by
  by_cases hen : cfg.BakeWithVoxels = false
  · rw [BakeWithVoxels_disabled status app hen] at h
    simp only [Option.some.injEq, Prod.mk.injEq] at h
    rw [← h.1]
    rcases beginFrame_session cfg status app with h1 | h1
    · exact Or.inl h1.2
    · exact Or.inr (Or.inl h1.2)
  · have hen' : cfg.BakeWithVoxels = true := by simpa using hen
    cases hP : numPasses cfg with
    | none => simp [BakeWithVoxels, hen', hP] at h
    | some P =>
      rcases Nat.lt_or_ge (sessionAtEntry cfg status app).voxelBakePass P with hlt | hge
      · rw [BakeWithVoxels_bake hen' hP hlt] at h
        simp only [Option.some.injEq, Prod.mk.injEq] at h
        rw [← h.1]
        rcases advance_cases cfg status (sessionAtEntry cfg status app) with h1 | h1
        · exact Or.inl h1.2
        · exact Or.inr (Or.inr h1.2)
      · rw [BakeWithVoxels_complete hen' hP hge] at h
        simp only [Option.some.injEq, Prod.mk.injEq] at h
        rw [← h.1]
        rcases sessionAtEntry_session cfg status app with h1 | h1
        · exact Or.inl h1.2
        · exact Or.inr (Or.inl h1.2)

/-- In every reachable state the offset is zero or below the number of bake points. -/
theorem Reachable.offset_inv {N : Nat} {app : State} (h : Reachable N app) :
    app.voxelBakePointOffset = 0 ∨ app.voxelBakePointOffset < N := by
  induction h with
  | initial => left; rfl
  | update app mips _ ih => exact ih
  | voxelize cfg status app _ _ ih =>
    rcases VoxelizeScene_offset cfg status app with h | h
    · exact Or.inl h
    · rw [h]; exact ih
  | bake cfg status app a cmds _ hN hb ih =>
    rcases BakeWithVoxels_offset hb with h | h | h
    · exact Or.inl h
    · rw [h]; exact ih
    · right; rw [← hN]; exact h

theorem entry_offset_le {N : Nat} {app : State} (hr : Reachable N app) (cfg : AppSettings)
    (status : MeshBakerStatus) :
    (sessionAtEntry cfg status app).voxelBakePointOffset ≤ N := by
  rcases sessionAtEntry_session cfg status app with h | h
  · rw [h.2]; exact Nat.zero_le _
  · rw [h.2]
    rcases hr.offset_inv with h0 | h0 <;> omega

/-- The pass index after the resets at entry is below `numPasses` whenever the pass index
at entry is. -/
theorem entry_pass_lt {P : Nat} (cfg : AppSettings) (status : MeshBakerStatus) (app : State)
    (h : app.voxelBakePass < P) : (sessionAtEntry cfg status app).voxelBakePass < P := by
  rcases sessionAtEntry_session cfg status app with h1 | h1
  · rw [h1.1]; omega
  · rw [h1.1]; exact h

/-- C2: in every baking invocation (baking enabled, session pass below `numPasses` after
the resets at entry, which holds in particular when it is below `numPasses` at entry) from
a reachable state with `N < 2 ^ 32` bake points, writing `offset` and `pass` for the
session position after the resets at entry, the new position is computed from
`offset + numPointsToBake`: when that sum is at least `N` the pass index grows by
exactly 1 and the offset becomes 0; otherwise the pass index is unchanged and the offset
becomes the sum. -/
theorem chunk_advances_session (N : Nat) (hN : N < 2 ^ 32) (app : State) (hr : Reachable N app)
    (cfg : AppSettings) (status : MeshBakerStatus) (P : Nat) (hNs : status.NumBakePoints = N)
    (hen : cfg.BakeWithVoxels = true) (hP : numPasses cfg = some P)
    (hlt : (sessionAtEntry cfg status app).voxelBakePass < P) :
    ∃ a cmds, BakeWithVoxels cfg status app = some (a, cmds) ∧
      (N ≤ (sessionAtEntry cfg status app).voxelBakePointOffset
            + numPointsToBake cfg status (sessionAtEntry cfg status app) →
        a.voxelBakePass = (sessionAtEntry cfg status app).voxelBakePass + 1 ∧
          a.voxelBakePointOffset = 0) ∧
      ((sessionAtEntry cfg status app).voxelBakePointOffset
            + numPointsToBake cfg status (sessionAtEntry cfg status app) < N →
        a.voxelBakePass = (sessionAtEntry cfg status app).voxelBakePass ∧
          a.voxelBakePointOffset = (sessionAtEntry cfg status app).voxelBakePointOffset
            + numPointsToBake cfg status (sessionAtEntry cfg status app)) := by
  have hN' : status.NumBakePoints < 4294967296 := by rw [hNs]; norm_num at hN; exact hN
  have ho : (sessionAtEntry cfg status app).voxelBakePointOffset ≤ status.NumBakePoints := by
    rw [hNs]; exact entry_offset_le hr cfg status
  obtain ⟨h1, h2, _⟩ := @advance_pass_offset cfg _ _ hN' ho _ (numPasses_lt hP) hlt
  refine ⟨_, _, BakeWithVoxels_bake hen hP hlt, ?_, ?_⟩
  · intro hge
    rw [← hNs] at hge
    exact ⟨by simpa [hge] using h1, by simpa [hge] using h2⟩
  · intro hlt'
    rw [← hNs] at hlt'
    exact ⟨by simpa [Nat.not_le.mpr hlt'] using h1, by simpa [Nat.not_le.mpr hlt'] using h2⟩

theorem bakeDispatches_bakeChunk (cfg : AppSettings) (status : MeshBakerStatus) (P : Nat)
    (s : State) (pre : List GpuCmd) (hpre : bakeDispatches pre = []) :
    bakeDispatches (pre ++ (bakeChunk cfg status P s).2)
      = [(numPointsToBake cfg status s, bakeConstants cfg status s)] := by
  have hclear : bakeDispatches (clearCommands s) = [] := by
    unfold clearCommands bakeDispatches
    split_ifs
    · rw [List.filterMap_map]
      exact List.filterMap_eq_nil_iff.mpr (fun _ _ => rfl)
    · rfl
  have hgut : bakeDispatches (gutterCommands status) = [] := by
    unfold gutterCommands
    split_ifs <;> rfl
  unfold bakeDispatches at hpre hclear hgut ⊢
  simp only [bakeChunk, List.filterMap_append, hpre, hclear, hgut, List.nil_append,
    List.append_nil]
  rfl

theorem ensureBakeTexture_no_bake (cfg : AppSettings) (app : State) :
    bakeDispatches (ensureBakeTexture cfg app).2 = [] := by
  unfold ensureBakeTexture
  by_cases h : app.voxelBakeTexture.Width ≠ u32 cfg.LightMapResolution ∨
      app.voxelBakeTexture.ArraySize ≠ lightMapArraySize cfg
  · simp only [h, if_true]; rfl
  · simp only [h, if_false]; rfl

/-- C3: in every baking invocation from a reachable state with `N < 2 ^ 32` bake points
there is exactly one bake dispatch; its size is `min maxPointsPerFrame (N - offset)`,
with `offset` the session offset after the resets at entry and `maxPointsPerFrame` the
configured cap `MaxBakePointsPerPass * 1024`; its constant `BakePointOffset` is that
offset; the size does not exceed the cap and `offset + size <= N`. -/
theorem chunk_size_and_offset (N : Nat) (hN : N < 2 ^ 32) (app : State) (hr : Reachable N app)
    (cfg : AppSettings) (status : MeshBakerStatus) (P : Nat) (hNs : status.NumBakePoints = N)
    (hen : cfg.BakeWithVoxels = true) (hP : numPasses cfg = some P)
    (hlt : (sessionAtEntry cfg status app).voxelBakePass < P) :
    ∃ a cmds c, BakeWithVoxels cfg status app = some (a, cmds) ∧
      bakeDispatches cmds =
        [(min (maxPointsPerFrame cfg) (N - (sessionAtEntry cfg status app).voxelBakePointOffset),
          c)] ∧
      c.BakePointOffset = (sessionAtEntry cfg status app).voxelBakePointOffset ∧
      min (maxPointsPerFrame cfg) (N - (sessionAtEntry cfg status app).voxelBakePointOffset)
        ≤ maxPointsPerFrame cfg ∧
      (sessionAtEntry cfg status app).voxelBakePointOffset
        + min (maxPointsPerFrame cfg) (N - (sessionAtEntry cfg status app).voxelBakePointOffset)
        ≤ N := by
  have hN' : status.NumBakePoints < 4294967296 := by rw [hNs]; norm_num at hN; exact hN
  have ho : (sessionAtEntry cfg status app).voxelBakePointOffset ≤ status.NumBakePoints := by
    rw [hNs]; exact entry_offset_le hr cfg status
  refine ⟨_, _, bakeConstants cfg status (sessionAtEntry cfg status app),
    BakeWithVoxels_bake hen hP hlt, ?_, rfl, Nat.min_le_left _ _, ?_⟩
  · rw [bakeDispatches_bakeChunk _ _ _ _ _ (ensureBakeTexture_no_bake _ _),
      numPointsToBake_eq hN' ho, hNs]
  · rw [hNs] at ho
    omega

/-! ### Monotone progress -/

theorem progress_mono {P N p o p1 o1 : Nat} (hP : 0 < P) (hN : 0 < N)
    (h : p * N + o ≤ p1 * N + o1) :
    (p : ℚ) / (P : ℚ) + (o : ℚ) / ((N : ℚ) * (P : ℚ))
      ≤ (p1 : ℚ) / (P : ℚ) + (o1 : ℚ) / ((N : ℚ) * (P : ℚ)) := by
  have hPq : (0 : ℚ) < (P : ℚ) := by exact_mod_cast hP
  have hNq : (0 : ℚ) < (N : ℚ) := by exact_mod_cast hN
  have e : ∀ x y : ℚ, x / (P : ℚ) + y / ((N : ℚ) * (P : ℚ))
      = (x * (N : ℚ) + y) / ((N : ℚ) * (P : ℚ)) := by
    intro x y
    field_simp
    ring
  rw [e, e]
  apply div_le_div_of_nonneg_right _ (le_of_lt (mul_pos hNq hPq))
  exact_mod_cast h

theorem settled_of_frame {cfg : AppSettings} {status : MeshBakerStatus} {app a : State}
    {cmds : List GpuCmd} {P : Nat}
    (hen : cfg.BakeWithVoxels = true) (hP : numPasses cfg = some P)
    (hN1 : 1 ≤ status.NumBakePoints) (hN : status.NumBakePoints < 4294967296)
    (hb : BakeWithVoxels cfg status app = some (a, cmds)) : Settled cfg status P a := by
  have hcur := sessionAtEntry_current cfg status app
  rcases Nat.lt_or_ge (sessionAtEntry cfg status app).voxelBakePass P with hlt | hge
  · obtain ⟨a1, cmds1, hb1, hta, hpos, hprog, hval⟩ := bake_progress hen hP hlt hN1 hN
    rw [hb] at hb1
    simp only [Option.some.injEq, Prod.mk.injEq] at hb1
    obtain ⟨e1, _⟩ := hb1
    subst e1
    refine ⟨by unfold TextureCurrent at hcur ⊢; rw [hta]; exact hcur, ?_⟩
    rcases hpos with ⟨h1, h2⟩ | ⟨h1, h2⟩
    · left
      refine ⟨le_of_eq h1.symm, ?_⟩
      obtain ⟨_, _, _, h4, _⟩ := @prog_facts a.voxelBakePass a.voxelBakePointOffset
        status.NumBakePoints P hN1 (Or.inl ⟨h1, h2⟩) (by omega)
      rw [hval, h4 h1]
    · right
      exact ⟨h1, h2, hprog⟩
  · rw [BakeWithVoxels_complete hen hP hge] at hb
    simp only [Option.some.injEq, Prod.mk.injEq] at hb
    rw [← hb.1]
    exact ⟨hcur, Or.inl ⟨hge, rfl⟩⟩

/-- In a settled state the reported progress is within `2 ^ (-21)` of the progress of the
specification, and it is 1 when the pass index equals the pass count. -/
theorem settled_close {cfg : AppSettings} {status : MeshBakerStatus} {a : State} {P : Nat}
    (hN1 : 1 ≤ status.NumBakePoints) (hN : status.NumBakePoints < 4294967296)
    (hP : P < 4294967296) (hs : Settled cfg status P a) :
    ∃ q, a.voxelBakeProgress = some q ∧ |q - specProgress status P a| ≤ 1 / 2097152 ∧
      (a.voxelBakePass = P → q = 1) := by
  obtain ⟨_, hcase⟩ := hs
  rcases hcase with ⟨hge, hprog⟩ | ⟨hlt, hoff, hprog⟩
  · refine ⟨1, hprog, ?_, fun _ => rfl⟩
    unfold specProgress
    rw [if_pos hge]
    norm_num
  · rw [progressOf_eq a hN1 hN (by omega) hP] at hprog
    obtain ⟨_, _, h3, _, _⟩ := @prog_facts a.voxelBakePass a.voxelBakePointOffset
      status.NumBakePoints P hN1 (Or.inr ⟨hlt, hoff⟩) (by omega)
    refine ⟨_, hprog, ?_, fun h => by omega⟩
    unfold specProgress
    rw [if_neg (by omega)]
    rw [← Nat.cast_mul]
    exact h3

theorem settled_step {cfg : AppSettings} {status : MeshBakerStatus} {a : State} {P : Nat}
    (hen : cfg.BakeWithVoxels = true) (hch : cfg.NumSamplesPerPassChanged = false)
    (hinv : status.BakingInvalidated = false) (hP : numPasses cfg = some P)
    (hN1 : 1 ≤ status.NumBakePoints) (hN : status.NumBakePoints < 4294967296)
    (hs : Settled cfg status P a) :
    ∃ a1 cmds, BakeWithVoxels cfg status a = some (a1, cmds) ∧
      specProgress status P a ≤ specProgress status P a1 := by
  obtain ⟨htex, hcase⟩ := hs
  rcases hcase with ⟨hge, _⟩ | ⟨hlt, hoff, _⟩
  · exact ⟨_, _, BakeWithVoxels_complete_steady cfg status a P hen hch hinv htex hP hge,
      le_of_eq rfl⟩
  · obtain ⟨e1, e2⟩ := @entry_eq cfg status _ hch hinv (Or.inl htex)
    obtain ⟨a1, cmds, hb, _, hpass, hoff1, _⟩ :=
      @bake_result cfg status a _ hen hP hN
        (by rw [e1]; exact hlt) (by rw [e2]; exact le_of_lt hoff)
    simp only [e1, e2] at hpass hoff1
    refine ⟨a1, cmds, hb, ?_⟩
    unfold specProgress
    rw [if_neg (by omega)]
    split_ifs with hdone
    · exact le_of_lt (progress_lt_one hlt hoff)
    · apply progress_mono (by omega) (by omega)
      rw [hpass, hoff1]
      split_ifs with hc
      · have : (a.voxelBakePass + 1) * status.NumBakePoints
            = a.voxelBakePass * status.NumBakePoints + status.NumBakePoints := Nat.succ_mul _ _
        omega
      · omega

/-- C6 (amended): for invocations with baking enabled, fixed settings and no
invalidation, from any state, with `1 <= N < 2 ^ 32`: every invocation returns; the
progress reported after each invocation is within `2 ^ (-21)` of the progress of the
specification (`specProgress`, the exact rational), which is non-decreasing along the
sequence; so the progress reported after invocation `n` is never more than `2 ^ (-20)` below
the progress reported after an earlier invocation `m`; and the progress after an
invocation that leaves the pass index equal to `numPasses` is exactly 1. -/
theorem progress_monotone (cfg : AppSettings) (status : MeshBakerStatus) (app : State) (P : Nat)
    (hen : cfg.BakeWithVoxels = true) (hch : cfg.NumSamplesPerPassChanged = false)
    (hinv : status.BakingInvalidated = false) (hP : numPasses cfg = some P)
    (hN1 : 1 ≤ status.NumBakePoints) (hN : status.NumBakePoints < 2 ^ 32)
    (m n : Nat) (hm : 1 ≤ m) (hmn : m ≤ n) :
    ∃ a tr a1 tr1 q q1, runFrames cfg status m app = some (a, tr) ∧
      runFrames cfg status n app = some (a1, tr1) ∧
      a.voxelBakeProgress = some q ∧ a1.voxelBakeProgress = some q1 ∧
      |q - specProgress status P a| ≤ 1 / 2 ^ 21 ∧
      |q1 - specProgress status P a1| ≤ 1 / 2 ^ 21 ∧
      specProgress status P a ≤ specProgress status P a1 ∧
      q - 1 / 2 ^ 20 ≤ q1 ∧
      (a.voxelBakePass = P → q = 1) := by
  have hN' : status.NumBakePoints < 4294967296 := by norm_num at hN; exact hN
  have hPlt := numPasses_lt hP
  -- every invocation returns, and leaves a settled state
  have hrun : ∀ k, ∃ a tr, runFrames cfg status k app = some (a, tr) ∧
      (1 ≤ k → Settled cfg status P a) := by
    intro k
    induction k with
    | zero => exact ⟨app, [], rfl, by omega⟩
    | succ k ih =>
      obtain ⟨a, tr, hr, hs⟩ := ih
      rcases Nat.eq_zero_or_pos k with hk | hk
      · have hsome : ∃ r, BakeWithVoxels cfg status a = some r := by
          rcases Nat.lt_or_ge (sessionAtEntry cfg status a).voxelBakePass P with hlt | hge
          · exact ⟨_, BakeWithVoxels_bake hen hP hlt⟩
          · exact ⟨_, BakeWithVoxels_complete hen hP hge⟩
        obtain ⟨⟨a1, cmds⟩, hb⟩ := hsome
        exact ⟨a1, tr ++ [cmds], runFrames_succ hr hb,
          fun _ => settled_of_frame hen hP hN1 hN' hb⟩
      · obtain ⟨a1, cmds, hb, _⟩ := settled_step hen hch hinv hP hN1 hN' (hs hk)
        exact ⟨a1, tr ++ [cmds], runFrames_succ hr hb,
          fun _ => settled_of_frame hen hP hN1 hN' hb⟩
  obtain ⟨a, tr, hra, hsa⟩ := hrun m
  have hsa' := hsa hm
  -- the progress of the specification is monotone from invocation m on
  have hmono : ∀ d, ∃ a1 tr1, runFrames cfg status (m + d) app = some (a1, tr1) ∧
      Settled cfg status P a1 ∧ specProgress status P a ≤ specProgress status P a1 := by
    intro d
    induction d with
    | zero => exact ⟨a, tr, hra, hsa', le_rfl⟩
    | succ d ih =>
      obtain ⟨a1, tr1, hr1, hs1, hle⟩ := ih
      obtain ⟨a2, cmds, hb, hle2⟩ := settled_step hen hch hinv hP hN1 hN' hs1
      exact ⟨a2, tr1 ++ [cmds], runFrames_succ hr1 hb,
        settled_of_frame hen hP hN1 hN' hb, le_trans hle hle2⟩
  obtain ⟨a1, tr1, hr1, hs1, hle⟩ := hmono (n - m)
  rw [show m + (n - m) = n by omega] at hr1
  obtain ⟨q, hq, hqc, hq1⟩ := settled_close hN1 hN' hPlt hsa'
  obtain ⟨q1, hq1', hqc1, _⟩ := settled_close hN1 hN' hPlt hs1
  have e21 : (1 : ℚ) / 2 ^ 21 = 1 / 2097152 := by norm_num
  have e20 : (1 : ℚ) / 2 ^ 20 = 2 * (1 / 2097152) := by norm_num
  rw [abs_le] at hqc hqc1
  refine ⟨a, tr, a1, tr1, q, q1, hra, hr1, hq, hq1', ?_, ?_, hle, ?_, hq1⟩
  · rw [e21, abs_le]; exact hqc
  · rw [e21, abs_le]; exact hqc1
  · rw [e20]; linarith [hqc.2, hqc1.1]

/-! ### The chunks of a pass -/

theorem Tiles.le {a b : Nat} {l : List (Nat × Nat)} (h : Tiles a b l) : a ≤ b := by
  induction l generalizing a with
  | nil => exact le_of_eq h
  | cons ch rest ih =>
    obtain ⟨_, _, h3⟩ := h
    have := ih h3
    omega

theorem Tiles.eq_nil {a : Nat} {l : List (Nat × Nat)} (h : Tiles a a l) : l = [] := by
  cases l with
  | nil => rfl
  | cons ch rest =>
    obtain ⟨_, h2, h3⟩ := h
    have := h3.le
    omega

theorem Tiles.snoc {a b n : Nat} {l : List (Nat × Nat)} (h : Tiles a b l) (hn : 0 < n) :
    Tiles a (b + n) (l ++ [(b, n)]) := by
  induction l generalizing a with
  | nil =>
    have hab : a = b := h
    subst hab
    exact ⟨rfl, hn, rfl⟩
  | cons ch rest ih =>
    obtain ⟨h1, h2, h3⟩ := h
    exact ⟨h1, h2, ih h3⟩

theorem Tiles.coverCount_below {a b x : Nat} {l : List (Nat × Nat)} (h : Tiles a b l)
    (hx : x < a) : coverCount x l = 0 := by
  induction l generalizing a with
  | nil => rfl
  | cons ch rest ih =>
    obtain ⟨h1, h2, h3⟩ := h
    have hrest := ih h3 (by omega)
    unfold coverCount at hrest ⊢
    have hno : decide (ch.1 ≤ x ∧ x < ch.1 + ch.2) = false := by
      simp only [decide_eq_false_iff_not]; omega
    rw [List.filter_cons_of_neg (by simp [hno])]
    exact hrest

theorem Tiles.coverCount_eq_one {a b x : Nat} {l : List (Nat × Nat)} (h : Tiles a b l)
    (hax : a ≤ x) (hxb : x < b) : coverCount x l = 1 := by
  induction l generalizing a with
  | nil =>
    have hab : a = b := h
    omega
  | cons ch rest ih =>
    obtain ⟨h1, h2, h3⟩ := h
    by_cases hin : x < a + ch.2
    · have hrest := h3.coverCount_below hin
      unfold coverCount at hrest ⊢
      have hyes : decide (ch.1 ≤ x ∧ x < ch.1 + ch.2) = true := by
        simp only [decide_eq_true_eq]; omega
      rw [List.filter_cons_of_pos (by simp only [hyes]), List.length_cons, hrest]
    · have hrest := ih h3 (by omega)
      unfold coverCount at hrest ⊢
      have hno : decide (ch.1 ≤ x ∧ x < ch.1 + ch.2) = false := by
        simp only [decide_eq_false_iff_not]; omega
      rw [List.filter_cons_of_neg (by simp [hno])]
      exact hrest

theorem allDispatches_append (tr : List (List GpuCmd)) (cmds : List GpuCmd) :
    allDispatches (tr ++ [cmds]) = allDispatches tr ++ bakeDispatches cmds := by
  induction tr with
  | nil => simp [allDispatches]
  | cons c rest ih => simp [allDispatches, ih]

theorem chunksOfPass_append_nil (cfg : AppSettings) (p : Nat) (tr : List (List GpuCmd))
    (cmds : List GpuCmd) (h : bakeDispatches cmds = []) :
    chunksOfPass cfg p (tr ++ [cmds]) = chunksOfPass cfg p tr := by
  unfold chunksOfPass
  rw [allDispatches_append, h, List.append_nil]

theorem chunksOfPass_append_one (cfg : AppSettings) (p : Nat) (tr : List (List GpuCmd))
    (cmds : List GpuCmd) (n : Nat) (c : VoxelBakeConstants) (h : bakeDispatches cmds = [(n, c)]) :
    chunksOfPass cfg p (tr ++ [cmds]) = chunksOfPass cfg p tr ++
      (if c.BakeSampleStart = u32 (p * numSamplesPerPass cfg) then [(c.BakePointOffset, n)]
        else []) := by
  unfold chunksOfPass
  rw [allDispatches_append, h, List.filterMap_append]
  congr 1
  unfold chunkOfPass
  by_cases hc : c.BakeSampleStart = u32 (p * numSamplesPerPass cfg)
  · simp [hc]
  · simp [hc]

/-- Distinct passes below `numPasses` have distinct `BakeSampleStart`. -/
theorem sampleStart_inj {cfg : AppSettings} {P p q : Nat} (hP : numPasses cfg = some P)
    (hp : p < P) (hq : q < P)
    (h : u32 (p * numSamplesPerPass cfg) = u32 (q * numSamplesPerPass cfg)) : p = q := by
  have hspp := numPasses_spp_pos hP
  have hbound : P * numSamplesPerPass cfg < 4294967296 := by
    unfold numPasses at hP
    split_ifs at hP with h0
    simp only [Option.some.injEq] at hP
    rw [← hP]
    exact lt_of_le_of_lt (Nat.div_mul_le_self _ _) (u32_lt _)
  have hpb : p * numSamplesPerPass cfg < 4294967296 :=
    lt_of_le_of_lt (Nat.mul_le_mul_right _ (le_of_lt hp)) hbound
  have hqb : q * numSamplesPerPass cfg < 4294967296 :=
    lt_of_le_of_lt (Nat.mul_le_mul_right _ (le_of_lt hq)) hbound
  rw [u32_of_lt hpb, u32_of_lt hqb] at h
  exact Nat.eq_of_mul_eq_mul_right hspp h

theorem bake_dispatches {cfg : AppSettings} {status : MeshBakerStatus} {app a : State}
    {cmds : List GpuCmd} {P : Nat}
    (hen : cfg.BakeWithVoxels = true) (hP : numPasses cfg = some P)
    (hN : status.NumBakePoints < 4294967296)
    (hlt : (sessionAtEntry cfg status app).voxelBakePass < P)
    (ho : (sessionAtEntry cfg status app).voxelBakePointOffset ≤ status.NumBakePoints)
    (hb : BakeWithVoxels cfg status app = some (a, cmds)) :
    bakeDispatches cmds =
      [(min (maxPointsPerFrame cfg)
          (status.NumBakePoints - (sessionAtEntry cfg status app).voxelBakePointOffset),
        bakeConstants cfg status (sessionAtEntry cfg status app))] := by
  rw [BakeWithVoxels_bake hen hP hlt] at hb
  simp only [Option.some.injEq, Prod.mk.injEq] at hb
  rw [← hb.2, bakeDispatches_bakeChunk _ _ _ _ _ (ensureBakeTexture_no_bake _ _),
    numPointsToBake_eq hN ho]

theorem run_tiles {cfg : AppSettings} {status : MeshBakerStatus} {app : State} {P : Nat}
    (hen : cfg.BakeWithVoxels = true) (hch : cfg.NumSamplesPerPassChanged = false)
    (hinv : status.BakingInvalidated = false) (hP : numPasses cfg = some P)
    (hN1 : 1 ≤ status.NumBakePoints) (hN : status.NumBakePoints < 4294967296)
    (hc : 1 ≤ maxPointsPerFrame cfg)
    (hp0 : app.voxelBakePass = 0) (ho0 : app.voxelBakePointOffset = 0) (n : Nat) :
    ∃ a tr, runFrames cfg status n app = some (a, tr) ∧
      a.voxelBakePointOffset < status.NumBakePoints ∧
      (TextureCurrent cfg a ∨ (a.voxelBakePass = 0 ∧ a.voxelBakePointOffset = 0)) ∧
      ∀ p, p < P → Tiles 0
        (coveredUpTo status.NumBakePoints a.voxelBakePass a.voxelBakePointOffset p)
        (chunksOfPass cfg p tr) := by
  induction n with
  | zero =>
    refine ⟨app, [], rfl, by omega, Or.inr ⟨hp0, ho0⟩, ?_⟩
    intro p _
    unfold coveredUpTo
    rw [hp0, ho0]
    have : (if p < 0 then status.NumBakePoints else if p = 0 then 0 else 0) = 0 := by
      split_ifs <;> omega
    rw [this]
    rfl
  | succ n ih =>
    obtain ⟨a, tr, hrun, hoffN, hcur, htiles⟩ := ih
    obtain ⟨e1, e2⟩ := @entry_eq cfg status _ hch hinv hcur
    rcases Nat.lt_or_ge a.voxelBakePass P with hlt | hge
    · obtain ⟨a1, cmds, hb, htex, hpass, hoff, _⟩ :=
        @bake_result cfg status a _ hen hP hN
          (by rw [e1]; exact hlt) (by rw [e2]; omega)
      have hd := @bake_dispatches cfg status a _ _ _ hen hP hN
          (by rw [e1]; exact hlt) (by rw [e2]; omega) hb
      simp only [e1, e2] at hpass hoff hd
      have hnpos : 0 < min (maxPointsPerFrame cfg)
          (status.NumBakePoints - a.voxelBakePointOffset) := by
        rw [Nat.lt_min]; omega
      have hsum : a.voxelBakePointOffset + min (maxPointsPerFrame cfg)
          (status.NumBakePoints - a.voxelBakePointOffset) ≤ status.NumBakePoints := by
        have := Nat.min_le_right (maxPointsPerFrame cfg)
          (status.NumBakePoints - a.voxelBakePointOffset)
        omega
      generalize min (maxPointsPerFrame cfg) (status.NumBakePoints - a.voxelBakePointOffset) = m
        at hpass hoff hd hnpos hsum
      refine ⟨a1, tr ++ [cmds], runFrames_succ hrun hb, ?_, Or.inl htex, ?_⟩
      · rw [hoff]; split_ifs <;> omega
      · intro p hp
        have hstart : (bakeConstants cfg status (sessionAtEntry cfg status a)).BakeSampleStart
            = u32 (a.voxelBakePass * numSamplesPerPass cfg) := by
          show u32 ((sessionAtEntry cfg status a).voxelBakePass * numSamplesPerPass cfg) = _
          rw [e1]
        have hoffc : (bakeConstants cfg status (sessionAtEntry cfg status a)).BakePointOffset
            = a.voxelBakePointOffset := e2
        rw [chunksOfPass_append_one cfg p tr cmds _ _ hd, hstart, hoffc]
        have hold := htiles p hp
        by_cases hpa : p = a.voxelBakePass
        · subst hpa
          rw [if_pos rfl]
          have hold' : Tiles 0 a.voxelBakePointOffset (chunksOfPass cfg a.voxelBakePass tr) := by
            simpa [coveredUpTo] using hold
          have hnew := hold'.snoc hnpos
          unfold coveredUpTo
          rw [hpass, hoff]
          split_ifs with h1 h2 h3 h4 <;> first | omega | skip
          · have : status.NumBakePoints = a.voxelBakePointOffset + m := by omega
            rw [this]; exact hnew
          · exact hnew
        · have hne : ¬ u32 (a.voxelBakePass * numSamplesPerPass cfg)
              = u32 (p * numSamplesPerPass cfg) := by
            intro h
            exact hpa (sampleStart_inj hP hlt hp h).symm
          rw [if_neg hne, List.append_nil]
          have hcov : coveredUpTo status.NumBakePoints a1.voxelBakePass a1.voxelBakePointOffset p
              = coveredUpTo status.NumBakePoints a.voxelBakePass a.voxelBakePointOffset p := by
            unfold coveredUpTo
            rw [hpass, hoff]
            split_ifs <;> omega
          rw [hcov]; exact hold
    · have hb := @BakeWithVoxels_complete cfg status a _ hen hP
        (by rw [e1]; exact hge)
      refine ⟨_, tr ++ [_], runFrames_succ hrun hb, ?_, Or.inl (sessionAtEntry_current _ _ _), ?_⟩
      · show (sessionAtEntry cfg status a).voxelBakePointOffset < _
        rw [e2]; exact hoffN
      · intro p hp
        rw [chunksOfPass_append_nil cfg p tr _ (ensureBakeTexture_no_bake _ _)]
        show Tiles 0 (coveredUpTo status.NumBakePoints (sessionAtEntry cfg status a).voxelBakePass
          (sessionAtEntry cfg status a).voxelBakePointOffset p) _
        rw [e1, e2]
        exact htiles p hp

/-- C9: in an uninterrupted session from pass 0, offset 0, with `1 <= N < 2 ^ 32` and a cap
of at least 1, after any number `n` of invocations and for every pass `p < numPasses`:
if the session is past `p`, the chunks `[BakePointOffset, BakePointOffset + numPointsToBake)`
dispatched with pass `p` are non-empty, contiguous, start at 0 and end at `N`, and every
bake point index below `N` lies in exactly one of them; if the session is in pass `p`
they tile `[0, offset)`; and no chunk of a pass the session has not reached was
dispatched.  Hence a dispatch of pass `p + 1` is only issued once pass `p` covered
every bake point exactly once. -/
theorem chunks_tile_each_pass (cfg : AppSettings) (status : MeshBakerStatus) (app : State)
    (P : Nat) (hen : cfg.BakeWithVoxels = true) (hch : cfg.NumSamplesPerPassChanged = false)
    (hinv : status.BakingInvalidated = false) (hP : numPasses cfg = some P)
    (hN1 : 1 ≤ status.NumBakePoints) (hN : status.NumBakePoints < 2 ^ 32)
    (hc : 1 ≤ maxPointsPerFrame cfg)
    (hp0 : app.voxelBakePass = 0) (ho0 : app.voxelBakePointOffset = 0) (n : Nat) :
    ∃ a tr, runFrames cfg status n app = some (a, tr) ∧
      ∀ p, p < P →
        (p < a.voxelBakePass →
          Tiles 0 status.NumBakePoints (chunksOfPass cfg p tr) ∧
          ∀ x, x < status.NumBakePoints → coverCount x (chunksOfPass cfg p tr) = 1) ∧
        (p = a.voxelBakePass → Tiles 0 a.voxelBakePointOffset (chunksOfPass cfg p tr)) ∧
        (a.voxelBakePass < p → chunksOfPass cfg p tr = []) := by
  have hN' : status.NumBakePoints < 4294967296 := by norm_num at hN; exact hN
  obtain ⟨a, tr, hrun, _, _, htiles⟩ := run_tiles hen hch hinv hP hN1 hN' hc hp0 ho0 n
  refine ⟨a, tr, hrun, ?_⟩
  intro p hp
  have ht := htiles p hp
  unfold coveredUpTo at ht
  refine ⟨?_, ?_, ?_⟩
  · intro h
    rw [if_pos h] at ht
    exact ⟨ht, fun x hx => ht.coverCount_eq_one (Nat.zero_le _) hx⟩
  · intro h
    rw [if_neg (by omega), if_pos h] at ht
    exact ht
  · intro h
    rw [if_neg (by omega), if_neg (by omega)] at ht
    exact ht.eq_nil

/-! ### The clear of the lightmap -/

theorem clearedSlices_bakeChunk (cfg : AppSettings) (status : MeshBakerStatus) (P : Nat)
    (s : State) (pre : List GpuCmd) (hpre : clearedSlices pre = []) :
    clearedSlices (pre ++ (bakeChunk cfg status P s).2) = clearedSlices (clearCommands s) := by
  have hgut : clearedSlices (gutterCommands status) = [] := by
    unfold gutterCommands
    split_ifs <;> rfl
  unfold clearedSlices at hpre hgut ⊢
  simp only [bakeChunk, List.filterMap_append, hpre, hgut, List.nil_append, List.append_nil]
  have hone : List.filterMap (fun cmd => match cmd with
        | GpuCmd.clearLightMapSlice i => some i
        | _ => none)
      [GpuCmd.dispatchVoxelBake (numPointsToBake cfg status s) (bakeConstants cfg status s)]
      = [] := rfl
  rw [hone, List.append_nil]

theorem ensureBakeTexture_no_clear (cfg : AppSettings) (app : State) :
    clearedSlices (ensureBakeTexture cfg app).2 = [] := by
  unfold ensureBakeTexture
  by_cases h : app.voxelBakeTexture.Width ≠ u32 cfg.LightMapResolution ∨
      app.voxelBakeTexture.ArraySize ≠ lightMapArraySize cfg
  · simp only [h, if_true]; rfl
  · simp only [h, if_false]; rfl

theorem clearedSlices_clearCommands_fresh {cfg : AppSettings} {s : State}
    (ht : TextureCurrent cfg s) (hp : s.voxelBakePass = 0) (ho : s.voxelBakePointOffset = 0) :
    clearedSlices (clearCommands s) = List.range (lightMapArraySize cfg) := by
  unfold clearCommands clearedSlices
  rw [if_pos ⟨hp, ho⟩, ht.2, List.filterMap_map]
  have : ((fun cmd => match cmd with
      | GpuCmd.clearLightMapSlice i => some i
      | _ => none) ∘ GpuCmd.clearLightMapSlice) = (some : Nat → Option Nat) := rfl
  rw [this, List.filterMap_some]

theorem clearCommands_started {s : State}
    (h : 1 ≤ s.voxelBakePass ∨ 1 ≤ s.voxelBakePointOffset) : clearCommands s = [] := by
  unfold clearCommands
  rw [if_neg (by omega)]

theorem first_frame_clears {cfg : AppSettings} {status : MeshBakerStatus} {app : State} {P : Nat}
    (hen : cfg.BakeWithVoxels = true) (hP : numPasses cfg = some P) (hP1 : 1 ≤ P)
    (hN : status.NumBakePoints < 4294967296)
    (hc : 1 ≤ maxPointsPerFrame cfg ∨ status.NumBakePoints = 0)
    (hp0 : app.voxelBakePass = 0) (ho0 : app.voxelBakePointOffset = 0) :
    ∃ a cmds, BakeWithVoxels cfg status app = some (a, cmds) ∧
      clearedSlices cmds = List.range (lightMapArraySize cfg) ∧ Started cfg status a := by
  obtain ⟨e1, e2⟩ := sessionAtEntry_fresh cfg status hp0 ho0
  obtain ⟨a, cmds, hb, htex, hpass, hoff, _⟩ :=
    @bake_result cfg status app _ hen hP hN
      (by rw [e1]; exact hP1) (by rw [e2]; omega)
  have hcmds : clearedSlices cmds = List.range (lightMapArraySize cfg) := by
    have hb' := hb
    rw [BakeWithVoxels_bake hen hP (by rw [e1]; exact hP1)] at hb'
    simp only [Option.some.injEq, Prod.mk.injEq] at hb'
    rw [← hb'.2, clearedSlices_bakeChunk _ _ _ _ _ (ensureBakeTexture_no_clear _ _)]
    exact clearedSlices_clearCommands_fresh (sessionAtEntry_current _ _ _) e1 e2
  simp only [e1, e2, Nat.zero_add, Nat.sub_zero] at hpass hoff
  refine ⟨a, cmds, hb, hcmds, htex, ?_, ?_⟩
  · rw [hpass, hoff]
    split_ifs with h
    · left; omega
    · right
      rcases hc with hc | hc
      · rw [Nat.le_min]; omega
      · omega
  · rw [hoff]
    have := Nat.min_le_right (maxPointsPerFrame cfg) status.NumBakePoints
    split_ifs <;> omega

theorem later_frame_no_clear {cfg : AppSettings} {status : MeshBakerStatus} {a : State} {P : Nat}
    (hen : cfg.BakeWithVoxels = true) (hch : cfg.NumSamplesPerPassChanged = false)
    (hinv : status.BakingInvalidated = false) (hP : numPasses cfg = some P)
    (hN : status.NumBakePoints < 4294967296) (hs : Started cfg status a) :
    ∃ a1 cmds, BakeWithVoxels cfg status a = some (a1, cmds) ∧ clearedSlices cmds = [] ∧
      Started cfg status a1 := by
  obtain ⟨htex, hpos, hle⟩ := hs
  have hse := @sessionAtEntry_steady cfg status _ hch hinv htex
  obtain ⟨e1, e2⟩ := @entry_eq cfg status _ hch hinv (Or.inl htex)
  rcases Nat.lt_or_ge a.voxelBakePass P with hlt | hge
  · obtain ⟨a1, cmds, hb, htex1, hpass, hoff, _⟩ :=
      @bake_result cfg status a _ hen hP hN
        (by rw [e1]; exact hlt) (by rw [e2]; exact hle)
    have hcmds : clearedSlices cmds = [] := by
      have hb' := hb
      rw [BakeWithVoxels_bake hen hP (by rw [e1]; exact hlt)] at hb'
      simp only [Option.some.injEq, Prod.mk.injEq] at hb'
      rw [← hb'.2, clearedSlices_bakeChunk _ _ _ _ _ (ensureBakeTexture_no_clear _ _),
        clearCommands_started (by rw [e1, e2]; exact hpos)]
      rfl
    simp only [e1, e2] at hpass hoff
    have := Nat.min_le_right (maxPointsPerFrame cfg)
      (status.NumBakePoints - a.voxelBakePointOffset)
    refine ⟨a1, cmds, hb, hcmds, htex1, ?_, ?_⟩
    · rw [hpass, hoff]
      split_ifs <;> omega
    · rw [hoff]
      split_ifs <;> omega
  · refine ⟨_, _, BakeWithVoxels_complete_steady cfg status a P hen hch hinv htex hP hge, rfl, htex, hpos,
      hle⟩

/-- C10 (amended): in a session from pass 0, offset 0 with baking enabled, fixed settings,
no invalidation, at least one pass, `N < 2 ^ 32`, and a per-frame cap of at least 1 (or
no bake point at all), the first invocation clears every slice of the lightmap once and
no later invocation clears any slice. -/
theorem lightmap_cleared_once (cfg : AppSettings) (status : MeshBakerStatus) (app : State)
    (P : Nat) (hen : cfg.BakeWithVoxels = true) (hch : cfg.NumSamplesPerPassChanged = false)
    (hinv : status.BakingInvalidated = false) (hP : numPasses cfg = some P) (hP1 : 1 ≤ P)
    (hN : status.NumBakePoints < 2 ^ 32)
    (hc : 1 ≤ maxPointsPerFrame cfg ∨ status.NumBakePoints = 0)
    (hp0 : app.voxelBakePass = 0) (ho0 : app.voxelBakePointOffset = 0) (n : Nat) :
    ∃ a first rest, runFrames cfg status (n + 1) app = some (a, first :: rest) ∧
      clearedSlices first = List.range (lightMapArraySize cfg) ∧
      ∀ cmds, cmds ∈ rest → clearedSlices cmds = [] := by
  have hN' : status.NumBakePoints < 4294967296 := by norm_num at hN; exact hN
  have key : ∃ a first rest, runFrames cfg status (n + 1) app = some (a, first :: rest) ∧
      clearedSlices first = List.range (lightMapArraySize cfg) ∧
      (∀ cmds, cmds ∈ rest → clearedSlices cmds = []) ∧ Started cfg status a := by
    induction n with
    | zero =>
      obtain ⟨a, cmds, hb, hcl, hs⟩ := first_frame_clears hen hP hP1 hN' hc hp0 ho0
      refine ⟨a, cmds, [], ?_, hcl, ?_, hs⟩
      · have := @runFrames_succ cfg status 0 app _ _ [] _ rfl hb
        simpa using this
      · intro c hcin; cases hcin
    | succ n ih =>
      obtain ⟨a, first, rest, hrun, hcl, hrest, hs⟩ := ih
      obtain ⟨a1, cmds, hb, hno, hs1⟩ := later_frame_no_clear hen hch hinv hP hN' hs
      refine ⟨a1, first, rest ++ [cmds], ?_, hcl, ?_, hs1⟩
      · have := runFrames_succ hrun hb
        simpa using this
      · intro c hcin
        rcases List.mem_append.mp hcin with h | h
        · exact hrest c h
        · rw [List.mem_singleton.mp h]; exact hno
  obtain ⟨a, first, rest, hrun, hcl, hrest, _⟩ := key
  exact ⟨a, first, rest, hrun, hcl, hrest⟩

/-- C10 fails with a per-frame cap of 0: the session stays at pass 0, offset 0 and each of
three consecutive invocations clears both slices of the lightmap. -/
theorem zero_cap_clears_every_frame :
    maxPointsPerFrame zeroCapSettings = 0 ∧
      (runFrames zeroCapSettings (scenarioStatus 100) 3 State.initial).map
          (fun r => (r.1.voxelBakePass, r.1.voxelBakePointOffset, r.2.map clearedSlices))
        = some (0, 0, [[0, 1], [0, 1], [0, 1]]) := by
  decide

/-! ### The pass count -/

/-- C4 (amended): for `NumSamplesPerPass >= 1`, with `totalSamples = NumBakeSamples ^ 2`,
`samplesPerPass = NumSamplesPerPass ^ 2`, `totalSamples + samplesPerPass - 1 < 2 ^ 32` and
`samplesPerPass < 2 ^ 32`, the pass count is computed (no division by zero) and equals
`ceil (totalSamples / samplesPerPass)`. -/
theorem numPasses_eq_ceil (cfg : AppSettings) (hspp : 1 ≤ cfg.NumSamplesPerPass)
    (hsum : cfg.NumBakeSamples ^ 2 + cfg.NumSamplesPerPass ^ 2 - 1 < 2 ^ 32)
    (hfit : cfg.NumSamplesPerPass ^ 2 < 2 ^ 32) :
    numPasses cfg
      = some ⌈(((cfg.NumBakeSamples ^ 2 : Nat) : ℚ) / ((cfg.NumSamplesPerPass ^ 2 : Nat) : ℚ))⌉₊ := by
  have hpos : 1 ≤ cfg.NumSamplesPerPass * cfg.NumSamplesPerPass := Nat.mul_pos hspp hspp
  rw [ceil_div_eq _ _ (Nat.pos_pow_of_pos 2 hspp)]
  unfold numPasses numSamples numSamplesPerPass
  rw [pow_two, pow_two] at *
  generalize cfg.NumBakeSamples * cfg.NumBakeSamples = A at *
  generalize cfg.NumSamplesPerPass * cfg.NumSamplesPerPass = B at *
  have h1 : A < 4294967296 := by omega
  have h2 : B < 4294967296 := by omega
  rw [u32_of_lt h1, u32_of_lt h2, subU32_of_le h2 hpos,
    u32_of_lt (show A + (B - 1) < 4294967296 by omega), if_neg (by omega)]
  congr 2
  omega

/-- C4 (amended) at a concrete input: 16 samples, 4 per pass. -/
theorem numPasses_eq_ceil_witness :
    numPasses scenarioSettings
      = some ⌈(((scenarioSettings.NumBakeSamples ^ 2 : Nat) : ℚ)
          / ((scenarioSettings.NumSamplesPerPass ^ 2 : Nat) : ℚ))⌉₊ :=
  numPasses_eq_ceil scenarioSettings (by decide) (by decide) (by decide)

/-- C4 fails at `NumBakeSamples = 0`, `NumSamplesPerPass = 65536`: the side conditions of the
claim hold, `numSamplesPerPass` wraps to 0 and the pass count is an integer division by
zero. -/
theorem pass_count_overflow :
    1 ≤ overflowSettings.NumSamplesPerPass ∧
      overflowSettings.NumBakeSamples ^ 2 + overflowSettings.NumSamplesPerPass ^ 2 - 1 < 2 ^ 32 ∧
      numSamplesPerPass overflowSettings = 0 ∧
      numPasses overflowSettings = none ∧
      BakeWithVoxels overflowSettings (scenarioStatus 100) State.initial = none := by
  decide

/-! ### The theorems at concrete inputs -/

/-- C2 at a concrete input: the first invocation of the scenario with 100 bake points,
from the initial state. -/
theorem chunk_advances_session_witness :
    Reachable 100 State.initial ∧
      ∃ a cmds, BakeWithVoxels scenarioSettings (scenarioStatus 100) State.initial
          = some (a, cmds) ∧
        (100 ≤ (sessionAtEntry scenarioSettings (scenarioStatus 100)
                State.initial).voxelBakePointOffset
              + numPointsToBake scenarioSettings (scenarioStatus 100)
                  (sessionAtEntry scenarioSettings (scenarioStatus 100) State.initial) →
          a.voxelBakePass = (sessionAtEntry scenarioSettings (scenarioStatus 100)
                State.initial).voxelBakePass + 1 ∧
            a.voxelBakePointOffset = 0) ∧
        ((sessionAtEntry scenarioSettings (scenarioStatus 100)
                State.initial).voxelBakePointOffset
              + numPointsToBake scenarioSettings (scenarioStatus 100)
                  (sessionAtEntry scenarioSettings (scenarioStatus 100) State.initial) < 100 →
          a.voxelBakePass = (sessionAtEntry scenarioSettings (scenarioStatus 100)
                State.initial).voxelBakePass ∧
            a.voxelBakePointOffset = (sessionAtEntry scenarioSettings (scenarioStatus 100)
                State.initial).voxelBakePointOffset
              + numPointsToBake scenarioSettings (scenarioStatus 100)
                  (sessionAtEntry scenarioSettings (scenarioStatus 100) State.initial)) :=
  ⟨Reachable.initial,
    chunk_advances_session 100 (by norm_num) State.initial Reachable.initial scenarioSettings
      (scenarioStatus 100) 4 rfl rfl (by decide) (by decide)⟩

/-- C3 at a concrete input: the first invocation of the scenario with 100000 bake
points dispatches `min 51200 100000` bake points at offset 0. -/
theorem chunk_size_and_offset_witness :
    Reachable 100000 State.initial ∧
      ∃ a cmds c, BakeWithVoxels scenarioSettings (scenarioStatus 100000) State.initial
          = some (a, cmds) ∧
        bakeDispatches cmds =
          [(min (maxPointsPerFrame scenarioSettings)
              (100000 - (sessionAtEntry scenarioSettings (scenarioStatus 100000)
                State.initial).voxelBakePointOffset), c)] ∧
        c.BakePointOffset = (sessionAtEntry scenarioSettings (scenarioStatus 100000)
            State.initial).voxelBakePointOffset ∧
        min (maxPointsPerFrame scenarioSettings)
            (100000 - (sessionAtEntry scenarioSettings (scenarioStatus 100000)
              State.initial).voxelBakePointOffset) ≤ maxPointsPerFrame scenarioSettings ∧
        (sessionAtEntry scenarioSettings (scenarioStatus 100000)
            State.initial).voxelBakePointOffset
          + min (maxPointsPerFrame scenarioSettings)
              (100000 - (sessionAtEntry scenarioSettings (scenarioStatus 100000)
                State.initial).voxelBakePointOffset) ≤ 100000 :=
  ⟨Reachable.initial,
    chunk_size_and_offset 100000 (by norm_num) State.initial Reachable.initial scenarioSettings
      (scenarioStatus 100000) 4 rfl rfl (by decide) (by decide)⟩

/-- C6 (amended) at a concrete input: the scenario with 100000 bake points, invocations 1
and 3. -/
theorem progress_monotone_witness :
    ∃ a tr a1 tr1 q q1,
      runFrames scenarioSettings (scenarioStatus 100000) 1 State.initial = some (a, tr) ∧
      runFrames scenarioSettings (scenarioStatus 100000) 3 State.initial = some (a1, tr1) ∧
      a.voxelBakeProgress = some q ∧ a1.voxelBakeProgress = some q1 ∧
      |q - specProgress (scenarioStatus 100000) 4 a| ≤ 1 / 2 ^ 21 ∧
      |q1 - specProgress (scenarioStatus 100000) 4 a1| ≤ 1 / 2 ^ 21 ∧
      specProgress (scenarioStatus 100000) 4 a ≤ specProgress (scenarioStatus 100000) 4 a1 ∧
      q - 1 / 2 ^ 20 ≤ q1 ∧
      (a.voxelBakePass = 4 → q = 1) :=
  progress_monotone scenarioSettings (scenarioStatus 100000) State.initial 4 rfl rfl rfl
    (by decide) (by decide) (by decide) 1 3 (by decide) (by decide)

/-- The `float` evaluation of the progress at pass 5001 of 10000, offset 8192 of 8193. -/
theorem value_pass_end :
    f32 (f32 (f32 ((5001 : ℕ) : ℚ) / f32 ((10000 : ℕ) : ℚ))
      + f32 (f32 ((8192 : ℕ) : ℚ) / f32 ((8193 * 10000 : ℕ) : ℚ))) = 2097991 / 4194304 := by
  have e1 : f32 ((5001 : ℕ) : ℚ) = 5001 := by rw [f32_natCast (by norm_num)]; norm_num
  have e2 : f32 ((10000 : ℕ) : ℚ) = 10000 := by rw [f32_natCast (by norm_num)]; norm_num
  have e3 : f32 ((8192 : ℕ) : ℚ) = 8192 := by rw [f32_natCast (by norm_num)]; norm_num
  have e4 : f32 ((8193 * 10000 : ℕ) : ℚ) = 81930000 := by
    have e : ((8193 * 10000 : ℕ) : ℚ) = 81930000 := by norm_num
    rw [e]
    exact f32_eval_exact 26 10241250 (by norm_num) (by norm_num) (by norm_num)
  have x : f32 ((5001 : ℚ) / 10000) = 4195143 / 8388608 := by
    rw [f32_eval (-1) 8390286 (by norm_num [zpow_neg]) (by norm_num [zpow_neg])
      (by norm_num [zpow_neg]) (by norm_num [zpow_neg])]
    norm_num [zpow_neg]
  have y : f32 ((8192 : ℚ) / 81930000) = 6871109 / 68719476736 := by
    rw [f32_eval (-14) 13742218 (by norm_num [zpow_neg]) (by norm_num [zpow_neg])
      (by norm_num [zpow_neg]) (by norm_num [zpow_neg])]
    norm_num [zpow_neg]
  have z : f32 ((4195143 : ℚ) / 8388608 + 6871109 / 68719476736) = 2097991 / 4194304 := by
    rw [f32_eval (-1) 8391964 (by norm_num [zpow_neg]) (by norm_num [zpow_neg])
      (by norm_num [zpow_neg]) (by norm_num [zpow_neg])]
    norm_num [zpow_neg]
  rw [e1, e2, e3, e4, x, y, z]

/-- The `float` evaluation of the progress at pass 5002 of 10000, offset 0. -/
theorem value_pass_start :
    f32 (f32 (f32 ((5002 : ℕ) : ℚ) / f32 ((10000 : ℕ) : ℚ))
      + f32 (f32 ((0 : ℕ) : ℚ) / f32 ((8193 * 10000 : ℕ) : ℚ))) = 8391963 / 16777216 := by
  have e1 : f32 ((5002 : ℕ) : ℚ) = 5002 := by rw [f32_natCast (by norm_num)]; norm_num
  have e2 : f32 ((10000 : ℕ) : ℚ) = 10000 := by rw [f32_natCast (by norm_num)]; norm_num
  have e3 : f32 ((0 : ℕ) : ℚ) = 0 := by rw [Nat.cast_zero, f32_zero]
  have x : f32 ((5002 : ℚ) / 10000) = 8391963 / 16777216 := by
    rw [f32_eval (-1) 8391963 (by norm_num [zpow_neg]) (by norm_num [zpow_neg])
      (by norm_num [zpow_neg]) (by norm_num [zpow_neg])]
    norm_num [zpow_neg]
  have z : f32 ((8391963 : ℚ) / 16777216) = 8391963 / 16777216 := by
    rw [f32_eval (-1) 8391963 (by norm_num [zpow_neg]) (by norm_num [zpow_neg])
      (by norm_num [zpow_neg]) (by norm_num [zpow_neg])]
    norm_num [zpow_neg]
  rw [e1, e2, e3, zero_div, f32_zero, x, add_zero, z]

/-- C6 fails as stated: with 100 samples per axis, 1 per pass and axis (10000 passes),
cap 1024 and `N = 8193` (9 chunks per pass), a session from pass 0, offset 0 with fixed
settings and no invalidation reports `2097991 / 2 ^ 22` after invocation 45017 (pass 5001,
offset 8192) and the smaller `8391963 / 2 ^ 24` after invocation 45018 (pass 5002,
offset 0). -/
theorem progress_decreases :
    numPasses fineSettings = some 10000 ∧
      ∃ a tr a1 tr1 q q1,
        runFrames fineSettings (scenarioStatus 8193) 45017 State.initial = some (a, tr) ∧
        runFrames fineSettings (scenarioStatus 8193) 45018 State.initial = some (a1, tr1) ∧
        a.voxelBakePass = 5001 ∧ a.voxelBakePointOffset = 8192 ∧
        a1.voxelBakePass = 5002 ∧ a1.voxelBakePointOffset = 0 ∧
        a.voxelBakeProgress = some q ∧ a1.voxelBakeProgress = some q1 ∧
        q = 2097991 / 4194304 ∧ q1 = 8391963 / 16777216 ∧ q1 < q := by
  have hcf := @run_closed_form fineSettings (scenarioStatus 8193) State.initial 10000
    rfl rfl rfl (by decide) (by decide) (by decide) (by decide) rfl rfl
  obtain ⟨a, tr, hrun, hap, hao, hpost⟩ :=
    hcf 45017 5001 8 (by decide) (by decide) (by decide) (by decide)
  obtain ⟨a1, tr1, hrun1, hap1, hao1, hpost1⟩ :=
    hcf 45018 5002 0 (by decide) (by decide) (by decide) (by decide)
  obtain ⟨_, hprog⟩ := hpost (by decide)
  obtain ⟨_, hprog1⟩ := hpost1 (by decide)
  have hao' : a.voxelBakePointOffset = 8192 := hao.trans (by decide)
  have hao1' : a1.voxelBakePointOffset = 0 := hao1.trans (by decide)
  rw [progressOf_eq a (by decide) (by decide) (by norm_num) (by norm_num), hap, hao'] at hprog
  rw [progressOf_eq a1 (by decide) (by decide) (by norm_num) (by norm_num), hap1, hao1']
    at hprog1
  refine ⟨by decide, a, tr, a1, tr1, _, _, hrun, hrun1, hap, hao', hap1, hao1',
    hprog.trans (congrArg some value_pass_end), hprog1.trans (congrArg some value_pass_start),
    rfl, rfl, by norm_num⟩

/-- C9 at a concrete input: the scenario with 100000 bake points after 3 invocations. -/
theorem chunks_tile_each_pass_witness :
    ∃ a tr, runFrames scenarioSettings (scenarioStatus 100000) 3 State.initial = some (a, tr) ∧
      ∀ p, p < 4 →
        (p < a.voxelBakePass →
          Tiles 0 (scenarioStatus 100000).NumBakePoints (chunksOfPass scenarioSettings p tr) ∧
          ∀ x, x < (scenarioStatus 100000).NumBakePoints →
            coverCount x (chunksOfPass scenarioSettings p tr) = 1) ∧
        (p = a.voxelBakePass →
          Tiles 0 a.voxelBakePointOffset (chunksOfPass scenarioSettings p tr)) ∧
        (a.voxelBakePass < p → chunksOfPass scenarioSettings p tr = []) :=
  chunks_tile_each_pass scenarioSettings (scenarioStatus 100000) State.initial 4 rfl rfl rfl
    (by decide) (by decide) (by decide) (by decide) rfl rfl 3

/-- C10 (amended) at a concrete input: six invocations of the scenario with 100 bake
points. -/
theorem lightmap_cleared_once_witness :
    ∃ a first rest,
      runFrames scenarioSettings (scenarioStatus 100) (5 + 1) State.initial
        = some (a, first :: rest) ∧
      clearedSlices first = List.range (lightMapArraySize scenarioSettings) ∧
      ∀ cmds, cmds ∈ rest → clearedSlices cmds = [] :=
  lightmap_cleared_once scenarioSettings (scenarioStatus 100) State.initial 4 rfl rfl rfl
    (by decide) (by decide) (by decide) (Or.inl (by decide)) rfl rfl 5

/-! ### Restart of the session -/

theorem beginFrame_restart {cfg : AppSettings} {status : MeshBakerStatus} (app : State)
    (h : cfg.NumSamplesPerPassChanged = true ∨ status.BakingInvalidated = true) :
    (beginFrame cfg status app).voxelBakePass = 0 ∧
      (beginFrame cfg status app).voxelBakePointOffset = 0 := by
  unfold beginFrame
  have hc : (cfg.NumSamplesPerPassChanged || status.BakingInvalidated) = true := by
    rcases h with h | h <;> simp [h]
  simp [hc]

theorem sessionAtEntry_restart {cfg : AppSettings} {status : MeshBakerStatus} (app : State)
    (h : cfg.NumSamplesPerPassChanged = true ∨ status.BakingInvalidated = true) :
    (sessionAtEntry cfg status app).voxelBakePass = 0 ∧
      (sessionAtEntry cfg status app).voxelBakePointOffset = 0 := by
  unfold sessionAtEntry
  have hb := beginFrame_restart app h
  rcases ensureBakeTexture_session cfg (beginFrame cfg status app) with h1 | h1
  · exact h1
  · exact ⟨h1.1.trans hb.1, h1.2.trans hb.2⟩

/-- An invocation that starts from pass 0, offset 0 clears every slice of the lightmap and
then dispatches the bake with sample start 0 and bake point offset 0. -/
theorem bake_from_restart {cfg : AppSettings} {status : MeshBakerStatus} {app : State} {P : Nat}
    (hen : cfg.BakeWithVoxels = true) (hP : numPasses cfg = some P) (hP1 : 1 ≤ P)
    (hp : (sessionAtEntry cfg status app).voxelBakePass = 0)
    (ho : (sessionAtEntry cfg status app).voxelBakePointOffset = 0) :
    ∃ a c, BakeWithVoxels cfg status app
        = some (a, (ensureBakeTexture cfg (beginFrame cfg status app)).2
            ++ ((List.range (lightMapArraySize cfg)).map GpuCmd.clearLightMapSlice
              ++ [GpuCmd.dispatchVoxelBake
                    (numPointsToBake cfg status (sessionAtEntry cfg status app)) c]
              ++ gutterCommands status)) ∧
      c.BakeSampleStart = 0 ∧ c.BakePointOffset = 0 := by
  refine ⟨(bakeChunk cfg status P (sessionAtEntry cfg status app)).1,
    bakeConstants cfg status (sessionAtEntry cfg status app), ?_, ?_, ho⟩
  · rw [BakeWithVoxels_bake hen hP (by rw [hp]; exact hP1)]
    have hclear : clearCommands (sessionAtEntry cfg status app)
        = (List.range (lightMapArraySize cfg)).map GpuCmd.clearLightMapSlice := by
      unfold clearCommands
      rw [if_pos ⟨hp, ho⟩, (sessionAtEntry_current cfg status app).2]
    simp only [bakeChunk, hclear]
  · show u32 ((sessionAtEntry cfg status app).voxelBakePass * numSamplesPerPass cfg) = 0
    rw [hp, Nat.zero_mul]
    rfl

/-- C11: for every session state, an invocation of `BakeWithVoxels` with baking enabled, at
least one pass and the invalidated signal set issues exactly one bake dispatch, with
`BakeSampleStart = 0` (pass 0) and `BakePointOffset = 0`, and every slice of the lightmap
texture is cleared right before that dispatch. -/
theorem invalidation_restarts (cfg : AppSettings) (status : MeshBakerStatus) (app : State)
    (P : Nat) (hen : cfg.BakeWithVoxels = true) (hP : numPasses cfg = some P) (hP1 : 1 ≤ P)
    (hinv : status.BakingInvalidated = true) :
    ∃ a pre n c, BakeWithVoxels cfg status app
        = some (a, pre
            ++ ((List.range (lightMapArraySize cfg)).map GpuCmd.clearLightMapSlice
              ++ [GpuCmd.dispatchVoxelBake n c] ++ gutterCommands status)) ∧
      bakeDispatches pre = [] ∧ a.voxelBakeTexture.ArraySize = lightMapArraySize cfg ∧
      c.BakeSampleStart = 0 ∧ c.BakePointOffset = 0 := by
  obtain ⟨hp, ho⟩ := @sessionAtEntry_restart cfg status app (Or.inr hinv)
  obtain ⟨a, c, hb, hs, hoff⟩ := bake_from_restart hen hP hP1 hp ho
  refine ⟨a, _, _, c, hb, ensureBakeTexture_no_bake _ _, ?_, hs, hoff⟩
  have hb2 := @BakeWithVoxels_bake cfg status app P hen hP (by rw [hp]; exact hP1)
  rw [hb2] at hb
  simp only [Option.some.injEq, Prod.mk.injEq] at hb
  rw [← hb.1]
  show (advance cfg status (sessionAtEntry cfg status app)).voxelBakeTexture.ArraySize = _
  rw [advance_texture]
  exact (sessionAtEntry_current cfg status app).2


/-- C11 at a concrete input: the invalidated signal arrives in the middle of a session
(pass 0, offset 51200). -/
theorem invalidation_restarts_witness :
    ∃ a pre n c, BakeWithVoxels scenarioSettings invalidatedStatus midSessionState
        = some (a, pre
            ++ ((List.range (lightMapArraySize scenarioSettings)).map GpuCmd.clearLightMapSlice
              ++ [GpuCmd.dispatchVoxelBake n c] ++ gutterCommands invalidatedStatus)) ∧
      bakeDispatches pre = [] ∧
      a.voxelBakeTexture.ArraySize = lightMapArraySize scenarioSettings ∧
      c.BakeSampleStart = 0 ∧ c.BakePointOffset = 0 :=
  invalidation_restarts scenarioSettings invalidatedStatus midSessionState 4 rfl (by decide)
    (by decide) rfl

/-! ### The range of the progress -/

theorem beginFrame_progress (cfg : AppSettings) (status : MeshBakerStatus) (app : State) :
    (beginFrame cfg status app).voxelBakeProgress = some 0 := by
  unfold beginFrame
  by_cases h : (cfg.NumSamplesPerPassChanged || status.BakingInvalidated) = true
  · simp [h]
  · simp [h]

/-- C14 (amended): with `1 <= N < 2 ^ 32` bake points and the pass count defined, the
progress that `BakeWithVoxels` reports after any invocation (baking enabled or not,
invalidated or not) lies in `[0, 1]`; when `N * numPasses <= 2 ^ 22` it is below 1 whenever
the pass index after the invocation is below the pass count. -/
theorem progress_in_unit_interval (cfg : AppSettings) (status : MeshBakerStatus) (app : State)
    (P : Nat) (hP : numPasses cfg = some P)
    (hN1 : 1 ≤ status.NumBakePoints) (hN : status.NumBakePoints < 2 ^ 32) :
    ∃ a cmds q, BakeWithVoxels cfg status app = some (a, cmds) ∧
      a.voxelBakeProgress = some q ∧ 0 ≤ q ∧ q ≤ 1 ∧
      (a.voxelBakePass < P → status.NumBakePoints * P ≤ 2 ^ 22 → q < 1) := by
  have hN' : status.NumBakePoints < 4294967296 := by norm_num at hN; exact hN
  by_cases hen : cfg.BakeWithVoxels = false
  · exact ⟨_, _, 0, BakeWithVoxels_disabled status app hen, beginFrame_progress _ _ _, le_rfl,
      zero_le_one, fun _ _ => zero_lt_one⟩
  · have hen1 : cfg.BakeWithVoxels = true := by simpa using hen
    rcases Nat.lt_or_ge (sessionAtEntry cfg status app).voxelBakePass P with hlt | hge
    · obtain ⟨a, cmds, hb, _, hpos, _, hprog⟩ := bake_progress hen1 hP hlt hN1 hN'
      obtain ⟨h1, h2, _, _, h5⟩ := @prog_facts a.voxelBakePass a.voxelBakePointOffset
        status.NumBakePoints P hN1 hpos (by omega)
      exact ⟨a, cmds, _, hb, hprog, h1, h2, h5⟩
    · refine ⟨_, _, 1, BakeWithVoxels_complete hen1 hP hge, rfl, zero_le_one, le_rfl, ?_⟩
      intro hlt2
      have hlt3 : (sessionAtEntry cfg status app).voxelBakePass < P := hlt2
      omega

/-- C14 (amended) at a concrete input: the first invocation of the scenario with 100000
bake points. -/
theorem progress_in_unit_interval_witness :
    ∃ a cmds q, BakeWithVoxels scenarioSettings (scenarioStatus 100000) State.initial
        = some (a, cmds) ∧
      a.voxelBakeProgress = some q ∧ 0 ≤ q ∧ q ≤ 1 ∧
      (a.voxelBakePass < 4 → (scenarioStatus 100000).NumBakePoints * 4 ≤ 2 ^ 22 → q < 1) :=
  progress_in_unit_interval scenarioSettings (scenarioStatus 100000) State.initial 4
    (by decide) (by decide) (by decide)

/-- C14 fails as stated: with 68 samples per axis, 3 per pass and axis (514 passes), cap
1024 and `N = 32769` (33 chunks per pass), a session from pass 0, offset 0 reports a
progress of exactly 1 after invocation 16961, which leaves pass 513 (below the pass
count 514) and offset 32768: the sum `130817 / 2 ^ 17 + 16711425 / 2 ^ 33` rounds to 1. -/
theorem full_progress_before_completion :
    numPasses longSettings = some 514 ∧
      ∃ a tr, runFrames longSettings (scenarioStatus 32769) 16961 State.initial = some (a, tr) ∧
        a.voxelBakePass = 513 ∧ a.voxelBakePointOffset = 32768 ∧
        a.voxelBakeProgress = some 1 :=
  ⟨by decide, long_session_last_chunk⟩

/-! ### The gutter dispatch -/

theorem gutterDispatches_append (l1 l2 : List GpuCmd) :
    gutterDispatches (l1 ++ l2) = gutterDispatches l1 ++ gutterDispatches l2 := by
  unfold gutterDispatches
  exact List.filterMap_append _ _ _

theorem bakeDispatches_append (l1 l2 : List GpuCmd) :
    bakeDispatches (l1 ++ l2) = bakeDispatches l1 ++ bakeDispatches l2 := by
  unfold bakeDispatches
  exact List.filterMap_append _ _ _

theorem ensureBakeTexture_no_gutter (cfg : AppSettings) (app : State) :
    gutterDispatches (ensureBakeTexture cfg app).2 = [] := by
  unfold ensureBakeTexture
  by_cases h : app.voxelBakeTexture.Width ≠ u32 cfg.LightMapResolution ∨
      app.voxelBakeTexture.ArraySize ≠ lightMapArraySize cfg
  · simp only [h, if_true]; rfl
  · simp only [h, if_false]; rfl

theorem clearCommands_no_gutter (s : State) : gutterDispatches (clearCommands s) = [] := by
  unfold clearCommands gutterDispatches
  split_ifs
  · rw [List.filterMap_map]
    exact List.filterMap_eq_nil_iff.mpr (fun _ _ => rfl)
  · rfl

theorem gutterDispatches_gutterCommands (status : MeshBakerStatus) :
    gutterDispatches (gutterCommands status)
      = if 0 < status.NumGutterTexels then [u32 status.NumGutterTexels] else [] := by
  unfold gutterCommands
  by_cases h : status.NumGutterTexels > 0
  · have h2 : 0 < status.NumGutterTexels := h
    simp only [h, h2, if_true]
    rfl
  · have h2 : ¬ 0 < status.NumGutterTexels := h
    simp only [h, h2, if_false]
    rfl

/-- C16: in every invocation of `BakeWithVoxels` (the pass count defined when baking is
enabled) the gutter-fill dispatch is issued at most once; it is issued exactly when the
invocation issued a bake dispatch and `NumGutterTexels > 0`; when issued it is the last
call, right after the bake dispatch; with `NumGutterTexels = 0` it is not issued. -/
theorem gutter_dispatch_follows_bake (cfg : AppSettings) (status : MeshBakerStatus) (app : State)
    (hdef : cfg.BakeWithVoxels = true → ∃ P, numPasses cfg = some P) :
    ∃ a cmds, BakeWithVoxels cfg status app = some (a, cmds) ∧
      (gutterDispatches cmds).length ≤ 1 ∧
      (gutterDispatches cmds ≠ [] ↔ (bakeDispatches cmds ≠ [] ∧ 0 < status.NumGutterTexels)) ∧
      (gutterDispatches cmds ≠ [] →
        ∃ pre n c g, cmds = pre ++ [GpuCmd.dispatchVoxelBake n c, GpuCmd.dispatchFillGutters g] ∧
          gutterDispatches pre = []) ∧
      (status.NumGutterTexels = 0 → gutterDispatches cmds = []) := by
  by_cases hen : cfg.BakeWithVoxels = false
  · refine ⟨_, _, BakeWithVoxels_disabled status app hen, ?_, ?_, ?_, ?_⟩
    · exact Nat.zero_le _
    · exact ⟨fun h => absurd rfl h, fun h => absurd rfl h.1⟩
    · exact fun h => absurd rfl h
    · exact fun _ => rfl
  · have hen1 : cfg.BakeWithVoxels = true := by simpa using hen
    obtain ⟨P, hP⟩ := hdef hen1
    rcases Nat.lt_or_ge (sessionAtEntry cfg status app).voxelBakePass P with hlt | hge
    · refine ⟨_, _, BakeWithVoxels_bake hen1 hP hlt, ?_⟩
      have hb : bakeDispatches ((ensureBakeTexture cfg (beginFrame cfg status app)).2
          ++ (bakeChunk cfg status P (sessionAtEntry cfg status app)).2) ≠ [] := by
        rw [bakeDispatches_bakeChunk _ _ _ _ _ (ensureBakeTexture_no_bake _ _)]
        exact List.cons_ne_nil _ _
      have hg : gutterDispatches ((ensureBakeTexture cfg (beginFrame cfg status app)).2
          ++ (bakeChunk cfg status P (sessionAtEntry cfg status app)).2)
          = if 0 < status.NumGutterTexels then [u32 status.NumGutterTexels] else [] := by
        have hone : gutterDispatches [GpuCmd.dispatchVoxelBake
            (numPointsToBake cfg status (sessionAtEntry cfg status app))
            (bakeConstants cfg status (sessionAtEntry cfg status app))] = [] := rfl
        simp only [bakeChunk, gutterDispatches_append, ensureBakeTexture_no_gutter,
          clearCommands_no_gutter, hone, gutterDispatches_gutterCommands, List.nil_append]
      rw [hg]
      by_cases hpos : 0 < status.NumGutterTexels
      · rw [if_pos hpos]
        refine ⟨le_rfl, ⟨fun _ => ⟨hb, hpos⟩, fun _ => List.cons_ne_nil _ _⟩, ?_, fun h => by omega⟩
        intro _
        refine ⟨(ensureBakeTexture cfg (beginFrame cfg status app)).2
            ++ clearCommands (sessionAtEntry cfg status app),
          numPointsToBake cfg status (sessionAtEntry cfg status app),
          bakeConstants cfg status (sessionAtEntry cfg status app), u32 status.NumGutterTexels,
          ?_, ?_⟩
        · have hgc : gutterCommands status
              = [GpuCmd.dispatchFillGutters (u32 status.NumGutterTexels)] := by
            unfold gutterCommands
            rw [if_pos hpos]
          simp only [bakeChunk, hgc, List.append_assoc, List.singleton_append]
        · rw [gutterDispatches_append, ensureBakeTexture_no_gutter, clearCommands_no_gutter]
          rfl
      · rw [if_neg hpos]
        exact ⟨Nat.zero_le _, ⟨fun h => absurd rfl h, fun h => absurd h.2 hpos⟩,
          fun h => absurd rfl h, fun _ => rfl⟩
    · refine ⟨_, _, BakeWithVoxels_complete hen1 hP hge, ?_⟩
      rw [ensureBakeTexture_no_gutter, ensureBakeTexture_no_bake]
      exact ⟨Nat.zero_le _, ⟨fun h => absurd rfl h, fun h => absurd rfl h.1⟩,
        fun h => absurd rfl h, fun _ => rfl⟩

/-- C16 at a concrete input: the first invocation of the scenario with 7 gutter texels. -/
theorem gutter_dispatch_follows_bake_witness :
    ∃ a cmds, BakeWithVoxels scenarioSettings gutterStatus State.initial = some (a, cmds) ∧
      (gutterDispatches cmds).length ≤ 1 ∧
      (gutterDispatches cmds ≠ [] ↔ (bakeDispatches cmds ≠ [] ∧ 0 < gutterStatus.NumGutterTexels)) ∧
      (gutterDispatches cmds ≠ [] →
        ∃ pre n c g, cmds = pre ++ [GpuCmd.dispatchVoxelBake n c, GpuCmd.dispatchFillGutters g] ∧
          gutterDispatches pre = []) ∧
      (gutterStatus.NumGutterTexels = 0 → gutterDispatches cmds = []) :=
  gutter_dispatch_follows_bake scenarioSettings gutterStatus State.initial
    (fun _ => ⟨4, by decide⟩)

/-! ### The rebuild of VoxelizeScene -/

theorem VoxelizeScene_skip {cfg : AppSettings} {status : MeshBakerStatus} {app : State}
    (h : reVoxelize cfg status app = false) : VoxelizeScene cfg status app = (app, []) := by
  have hc : (!app.voxelRadianceCreated || cfg.VoxelResolutionChanged) = false := by
    unfold reVoxelize at h
    simp only [Bool.or_eq_false_iff] at h
    simpa using h.2
  unfold VoxelizeScene createVoxelTextures
  simp [h, hc]

theorem VoxelizeScene_rebuild {cfg : AppSettings} {status : MeshBakerStatus} {app : State}
    (h : reVoxelize cfg status app = true) :
    VoxelizeScene cfg status app
      = ({ (createVoxelTextures cfg app).1 with voxelBakePass := 0, voxelBakePointOffset := 0 },
          (createVoxelTextures cfg app).2
            ++ rebuildCommands cfg
                { (createVoxelTextures cfg app).1 with voxelBakePass := 0
                                                       voxelBakePointOffset := 0 }) := by
  unfold VoxelizeScene
  simp [h]

theorem stepAt_succ_shift (s0 : Nat) (i : Nat) :
    stepAt s0 (i + 1) = stepAt (max (s0 / 2) 1) i := by
  induction i with
  | zero => rfl
  | succ i ih =>
    show max (stepAt s0 (i + 1) / 2) 1 = max (stepAt (max (s0 / 2) 1) i / 2) 1
    rw [ih]

theorem jumpFloodPasses_append (l1 l2 : List GpuCmd) :
    jumpFloodPasses (l1 ++ l2) = jumpFloodPasses l1 ++ jumpFloodPasses l2 := by
  unfold jumpFloodPasses
  exact List.filterMap_append _ _ _

theorem distancePasses_append (l1 l2 : List GpuCmd) :
    distancePasses (l1 ++ l2) = distancePasses l1 ++ distancePasses l2 := by
  unfold distancePasses
  exact List.filterMap_append _ _ _

theorem jumpFloodPasses_loop (m w : Nat) :
    jumpFloodPasses (jumpFloodLoop m w)
      = (List.range m).map (fun i => (jumpFloodInputs, jumpFloodOutputs, stepAt w i)) := by
  induction m generalizing w with
  | zero => rfl
  | succ m ih =>
    have hcons : jumpFloodPasses (jumpFloodLoop (m + 1) w)
        = (jumpFloodInputs, jumpFloodOutputs, w)
            :: jumpFloodPasses (jumpFloodLoop m (max (w / 2) 1)) := rfl
    rw [hcons, ih, List.range_succ_eq_map, List.map_cons, List.map_map]
    congr 1
    apply List.map_congr_left
    intro i _
    simp only [Function.comp, stepAt_succ_shift]

theorem distancePasses_loop (m w : Nat) :
    distancePasses (jumpFloodLoop m w) = List.replicate m DistancePass.iteration := by
  induction m generalizing w with
  | zero => rfl
  | succ m ih =>
    have hcons : distancePasses (jumpFloodLoop (m + 1) w)
        = DistancePass.iteration :: distancePasses (jumpFloodLoop m (max (w / 2) 1)) := rfl
    rw [hcons, ih]
    rfl

theorem jumpFloodPasses_mips (r l s : Nat) :
    jumpFloodPasses (generateVoxelMipsLoop r l s) = [] := by
  induction r generalizing l s with
  | zero => rfl
  | succ r ih =>
    have hcons : jumpFloodPasses (generateVoxelMipsLoop (r + 1) l s)
        = jumpFloodPasses (generateVoxelMipsLoop r (l + 1) (max (s / 2) 1)) := rfl
    rw [hcons, ih]

theorem distancePasses_mips (r l s : Nat) :
    distancePasses (generateVoxelMipsLoop r l s) = [] := by
  induction r generalizing l s with
  | zero => rfl
  | succ r ih =>
    have hcons : distancePasses (generateVoxelMipsLoop (r + 1) l s)
        = distancePasses (generateVoxelMipsLoop r (l + 1) (max (s / 2) 1)) := rfl
    rw [hcons, ih]

theorem createVoxelTextures_no_distance (cfg : AppSettings) (app : State) :
    jumpFloodPasses (createVoxelTextures cfg app).2 = [] ∧
      distancePasses (createVoxelTextures cfg app).2 = [] := by
  unfold createVoxelTextures
  split_ifs <;> exact ⟨rfl, rfl⟩

theorem jumpFloodPasses_rebuild (cfg : AppSettings) (app : State) :
    jumpFloodPasses (rebuildCommands cfg app)
      = (List.range app.voxelRadianceMips.NumMipLevels).map
          (fun i => (jumpFloodInputs, jumpFloodOutputs, stepAt app.voxelRadianceMips.Width i)) := by
  unfold rebuildCommands
  simp only [jumpFloodPasses_append, jumpFloodPasses_mips, jumpFloodPasses_loop]
  cases cfg.EnableSun <;> cases cfg.EnableAreaLight <;> simp [jumpFloodPasses]

theorem distancePasses_rebuild (cfg : AppSettings) (app : State) :
    distancePasses (rebuildCommands cfg app)
      = DistancePass.init
          :: (List.replicate app.voxelRadianceMips.NumMipLevels DistancePass.iteration
              ++ [DistancePass.fill]) := by
  unfold rebuildCommands
  simp only [distancePasses_append, distancePasses_mips, distancePasses_loop]
  cases cfg.EnableSun <;> cases cfg.EnableAreaLight <;> simp [distancePasses]

/-! ### Restart triggers -/

theorem ensureBakeTexture_recreate {cfg : AppSettings} {app : State}
    (h : app.voxelBakeTexture.Width ≠ u32 cfg.LightMapResolution ∨
      app.voxelBakeTexture.ArraySize ≠ lightMapArraySize cfg) :
    (ensureBakeTexture cfg app).1.voxelBakePass = 0 ∧
      (ensureBakeTexture cfg app).1.voxelBakePointOffset = 0 ∧
      (ensureBakeTexture cfg app).2
        = [GpuCmd.initBakeTexture (u32 cfg.LightMapResolution) (lightMapArraySize cfg)] := by
  unfold ensureBakeTexture
  simp only [h, if_true, and_self]

theorem beginFrame_texture (cfg : AppSettings) (status : MeshBakerStatus) (app : State) :
    (beginFrame cfg status app).voxelBakeTexture = app.voxelBakeTexture := by
  unfold beginFrame
  by_cases h : (cfg.NumSamplesPerPassChanged || status.BakingInvalidated) = true
  · simp [h]
  · simp [h]

/-- C12 (amended): each of the following forces an invocation of `BakeWithVoxels` with
baking enabled (at least one pass) to restart the session, that is to clear the lightmap
and bake the chunk of pass 0 at offset 0: the change flag of the samples-per-pass
setting, the upstream invalidated signal, a lightmap resolution that differs from the
width of the lightmap texture, an array size `max basisCount 2` that differs from the
array size of the texture; in the last two cases the invocation first recreates the
lightmap texture. -/
theorem restart_triggers (cfgOld cfg : AppSettings) (status : MeshBakerStatus) (app : State)
    (P : Nat) (hen : cfg.BakeWithVoxels = true) (hP : numPasses cfg = some P) (hP1 : 1 ≤ P)
    (hold : TextureCurrent cfgOld app)
    (htrig : cfg.NumSamplesPerPassChanged = true ∨ status.BakingInvalidated = true ∨
      u32 cfg.LightMapResolution ≠ u32 cfgOld.LightMapResolution ∨
      lightMapArraySize cfg ≠ lightMapArraySize cfgOld) :
    ∃ a pre n c, BakeWithVoxels cfg status app
        = some (a, pre
            ++ ((List.range (lightMapArraySize cfg)).map GpuCmd.clearLightMapSlice
              ++ [GpuCmd.dispatchVoxelBake n c] ++ gutterCommands status)) ∧
      bakeDispatches pre = [] ∧ c.BakeSampleStart = 0 ∧ c.BakePointOffset = 0 ∧
      ((u32 cfg.LightMapResolution ≠ u32 cfgOld.LightMapResolution ∨
          lightMapArraySize cfg ≠ lightMapArraySize cfgOld) →
        pre = [GpuCmd.initBakeTexture (u32 cfg.LightMapResolution) (lightMapArraySize cfg)]) := by
  have hrec : (u32 cfg.LightMapResolution ≠ u32 cfgOld.LightMapResolution ∨
      lightMapArraySize cfg ≠ lightMapArraySize cfgOld) →
      (beginFrame cfg status app).voxelBakeTexture.Width ≠ u32 cfg.LightMapResolution ∨
        (beginFrame cfg status app).voxelBakeTexture.ArraySize ≠ lightMapArraySize cfg := by
    intro h
    rw [beginFrame_texture, hold.1, hold.2]
    rcases h with h | h
    · exact Or.inl (Ne.symm h)
    · exact Or.inr (Ne.symm h)
  have hzero : (sessionAtEntry cfg status app).voxelBakePass = 0 ∧
      (sessionAtEntry cfg status app).voxelBakePointOffset = 0 := by
    rcases htrig with h | h | h | h
    · exact sessionAtEntry_restart app (Or.inl h)
    · exact sessionAtEntry_restart app (Or.inr h)
    · have := ensureBakeTexture_recreate (hrec (Or.inl h))
      exact ⟨this.1, this.2.1⟩
    · have := ensureBakeTexture_recreate (hrec (Or.inr h))
      exact ⟨this.1, this.2.1⟩
  obtain ⟨a, c, hb, hs, hoff⟩ := bake_from_restart hen hP hP1 hzero.1 hzero.2
  exact ⟨a, _, _, c, hb, ensureBakeTexture_no_bake _ _, hs, hoff,
    fun h => (ensureBakeTexture_recreate (hrec h)).2.2⟩

/-- C12 (amended) at a concrete input: the lightmap resolution changes from 64 to 128 in
the middle of a session. -/
theorem restart_triggers_witness :
    ∃ a pre n c,
      BakeWithVoxels { scenarioSettings with LightMapResolution := 128 } (scenarioStatus 100000)
          midSessionState
        = some (a, pre
            ++ ((List.range (lightMapArraySize
                    { scenarioSettings with LightMapResolution := 128 })).map
                  GpuCmd.clearLightMapSlice
              ++ [GpuCmd.dispatchVoxelBake n c] ++ gutterCommands (scenarioStatus 100000))) ∧
      bakeDispatches pre = [] ∧ c.BakeSampleStart = 0 ∧ c.BakePointOffset = 0 ∧
      ((u32 ({ scenarioSettings with LightMapResolution := 128 }).LightMapResolution
            ≠ u32 scenarioSettings.LightMapResolution ∨
          lightMapArraySize { scenarioSettings with LightMapResolution := 128 }
            ≠ lightMapArraySize scenarioSettings) →
        pre = [GpuCmd.initBakeTexture
          (u32 ({ scenarioSettings with LightMapResolution := 128 }).LightMapResolution)
          (lightMapArraySize { scenarioSettings with LightMapResolution := 128 })]) :=
  restart_triggers scenarioSettings { scenarioSettings with LightMapResolution := 128 }
    (scenarioStatus 100000) midSessionState 4 rfl (by decide) (by decide) ⟨rfl, rfl⟩
    (Or.inr (Or.inr (Or.inl (by decide))))

/-- C12 fails for two of its triggers: in the middle of a session (pass 0, offset 51200,
reached by the first invocation of the scenario), a change of the total samples per axis
from 4 to 8 alone, or a change of the basis count from 1 to 2 alone, restarts nothing:
the next invocation issues only the bake dispatch of the next chunk, at offset 51200,
without clearing or recreating the lightmap. -/
theorem changes_without_restart :
    (runFrames scenarioSettings (scenarioStatus 100000) 1 State.initial).map
        (fun r => (r.1.voxelBakePass, r.1.voxelBakePointOffset, r.1.voxelBakeTexture))
      = some (midSessionState.voxelBakePass, midSessionState.voxelBakePointOffset,
          midSessionState.voxelBakeTexture) ∧
    (BakeWithVoxels { scenarioSettings with NumBakeSamples := 8 } (scenarioStatus 100000)
        midSessionState).map
        (fun r => (clearedSlices r.2, r.2.length,
          (bakeDispatches r.2).map (fun d => (d.1, d.2.BakePointOffset))))
      = some ([], 1, [(48800, 51200)]) ∧
    (BakeWithVoxels { scenarioSettings with BasisCount := 2 } (scenarioStatus 100000)
        midSessionState).map
        (fun r => (clearedSlices r.2, r.2.length,
          (bakeDispatches r.2).map (fun d => (d.1, d.2.BakePointOffset))))
      = some ([], 1, [(48800, 51200)]) := by
  decide

/-! ### The session position between invocations -/

/-- C15 (the code at the failing input): the bounds of the scene move when only the
bounds offset changes, whatever `Lerp` is; in such a frame none of the conditions tested
at lines 780-783 holds (the bounds scale is unchanged, no invalidation, no forced
re-voxelization, the volume exists, the resolution is unchanged) and `VoxelizeScene`
returns at line 803 without any GPU call, leaving the volume of the previous bounds. -/
theorem bounds_offset_change_not_voxelized :
    (∀ (lerp : ℚ → ℚ → ℚ → ℚ) (sceneMinX sceneMaxX scale : ℚ),
        currSceneMinX lerp sceneMinX sceneMaxX scale 0
          ≠ currSceneMinX lerp sceneMinX sceneMaxX scale 1) ∧
      reVoxelize scenarioSettings (scenarioStatus 100) voxelizedState = false ∧
      VoxelizeScene scenarioSettings (scenarioStatus 100) voxelizedState
        = (voxelizedState, []) := by
  refine ⟨?_, by decide, VoxelizeScene_skip (by decide)⟩
  intro lerp a b s h
  unfold currSceneMinX at h
  linarith

/-! ### Step sizes, pass count and bindings of the jump flood -/

theorem createVoxelTextures_created {cfg : AppSettings} {app : State}
    (h : app.voxelRadianceCreated = false ∨ cfg.VoxelResolutionChanged = true) :
    (createVoxelTextures cfg app).1.voxelRadianceMips
      = { Width := max (u32 (cfg.VoxelResolution / 2)) 1
          NumMipLevels := max (subU32 app.numVoxelMips 1) 1 } := by
  have hc : (!app.voxelRadianceCreated || cfg.VoxelResolutionChanged) = true := by
    rcases h with h | h <;> simp [h]
  unfold createVoxelTextures
  simp [hc]

theorem reVoxelize_of_created {cfg : AppSettings} (status : MeshBakerStatus) {app : State}
    (h : app.voxelRadianceCreated = false ∨ cfg.VoxelResolutionChanged = true) :
    reVoxelize cfg status app = true := by
  unfold reVoxelize
  rcases h with h | h <;> simp [h]

theorem jumpFloodPasses_VoxelizeScene {cfg : AppSettings} {status : MeshBakerStatus}
    {app : State} (h : reVoxelize cfg status app = true) :
    jumpFloodPasses (VoxelizeScene cfg status app).2
      = (List.range (VoxelizeScene cfg status app).1.voxelRadianceMips.NumMipLevels).map
          (fun i => (jumpFloodInputs, jumpFloodOutputs,
            stepAt (VoxelizeScene cfg status app).1.voxelRadianceMips.Width i)) := by
  rw [VoxelizeScene_rebuild h]
  simp only [jumpFloodPasses_append, (createVoxelTextures_no_distance cfg app).1,
    jumpFloodPasses_rebuild, List.nil_append]

theorem distancePasses_VoxelizeScene {cfg : AppSettings} {status : MeshBakerStatus}
    {app : State} (h : reVoxelize cfg status app = true) :
    distancePasses (VoxelizeScene cfg status app).2
      = DistancePass.init
          :: (List.replicate (VoxelizeScene cfg status app).1.voxelRadianceMips.NumMipLevels
                DistancePass.iteration ++ [DistancePass.fill]) := by
  rw [VoxelizeScene_rebuild h]
  simp only [distancePasses_append, (createVoxelTextures_no_distance cfg app).2,
    distancePasses_rebuild, List.nil_append]

theorem VoxelizeScene_mips_created {cfg : AppSettings} (status : MeshBakerStatus) {app : State}
    (h : app.voxelRadianceCreated = false ∨ cfg.VoxelResolutionChanged = true) :
    (VoxelizeScene cfg status app).1.voxelRadianceMips
      = { Width := max (u32 (cfg.VoxelResolution / 2)) 1
          NumMipLevels := max (subU32 app.numVoxelMips 1) 1 } := by
  rw [VoxelizeScene_rebuild (reVoxelize_of_created status h)]
  exact createVoxelTextures_created h

/-- C17 (amended): in every rebuild, jump-flood pass `i` (0-based) is dispatched with step
size `S_i`, where `S_0` is the width of the mip textures and `S_(i+1) = max (S_i / 2) 1`;
when the textures are created in the invocation (no volume yet, or the resolution `R`
changed, `R < 2 ^ 32`) that width is `max (R / 2) 1`: the first step is half the
resolution. -/
theorem jump_flood_step_sizes (cfg : AppSettings) (status : MeshBakerStatus) (app : State)
    (hre : reVoxelize cfg status app = true) :
    (jumpFloodPasses (VoxelizeScene cfg status app).2).map (fun p => p.2.2)
        = (List.range (VoxelizeScene cfg status app).1.voxelRadianceMips.NumMipLevels).map
            (stepAt (VoxelizeScene cfg status app).1.voxelRadianceMips.Width) ∧
      (∀ i, stepAt (VoxelizeScene cfg status app).1.voxelRadianceMips.Width (i + 1)
        = max (stepAt (VoxelizeScene cfg status app).1.voxelRadianceMips.Width i / 2) 1) ∧
      ((app.voxelRadianceCreated = false ∨ cfg.VoxelResolutionChanged = true) →
        cfg.VoxelResolution < 2 ^ 32 →
        (VoxelizeScene cfg status app).1.voxelRadianceMips.Width
          = max (cfg.VoxelResolution / 2) 1) := by
  refine ⟨?_, fun _ => rfl, ?_⟩
  · rw [jumpFloodPasses_VoxelizeScene hre, List.map_map]
    rfl
  · intro hc hR
    rw [VoxelizeScene_mips_created status hc]
    have : cfg.VoxelResolution / 2 < 4294967296 := by
      norm_num at hR
      omega
    show max (u32 (cfg.VoxelResolution / 2)) 1 = _
    rw [u32_of_lt this]

/-- C17 (amended) at a concrete input: the first invocation at resolution 4. -/
theorem jump_flood_step_sizes_witness :
    (jumpFloodPasses (VoxelizeScene scenarioSettings (scenarioStatus 100) updatedState).2).map
          (fun p => p.2.2)
        = (List.range (VoxelizeScene scenarioSettings (scenarioStatus 100)
              updatedState).1.voxelRadianceMips.NumMipLevels).map
            (stepAt (VoxelizeScene scenarioSettings (scenarioStatus 100)
              updatedState).1.voxelRadianceMips.Width) ∧
      (∀ i, stepAt (VoxelizeScene scenarioSettings (scenarioStatus 100)
            updatedState).1.voxelRadianceMips.Width (i + 1)
        = max (stepAt (VoxelizeScene scenarioSettings (scenarioStatus 100)
            updatedState).1.voxelRadianceMips.Width i / 2) 1) ∧
      ((updatedState.voxelRadianceCreated = false ∨
          scenarioSettings.VoxelResolutionChanged = true) →
        scenarioSettings.VoxelResolution < 2 ^ 32 →
        (VoxelizeScene scenarioSettings (scenarioStatus 100)
            updatedState).1.voxelRadianceMips.Width
          = max (scenarioSettings.VoxelResolution / 2) 1) :=
  jump_flood_step_sizes scenarioSettings (scenarioStatus 100) updatedState (by decide)

/-- C17 fails at resolution 4 (3 mip levels of the volume): the jump-flood passes are
dispatched with step sizes 2, 1; the first step is not the resolution 4. -/
theorem first_step_is_half_resolution :
    scenarioSettings.VoxelResolution = 4 ∧
      (jumpFloodPasses (VoxelizeScene scenarioSettings (scenarioStatus 100) updatedState).2).map
          (fun p => p.2.2) = [2, 1] := by
  decide

/-- C18 (amended): in every rebuild the distance-field dispatches are, in order, one
`InitJumpFlood`, then as many `JumpFloodIteration` as the mip textures have levels, then
one `FillDistanceTexture`; when the textures are created in the invocation with
`1 <= numVoxelMips < 2 ^ 32` that count is `max (numVoxelMips - 1) 1`, one less than the
number of mip levels of the volume as soon as there are two. -/
theorem jump_flood_pass_count (cfg : AppSettings) (status : MeshBakerStatus) (app : State)
    (hre : reVoxelize cfg status app = true) :
    distancePasses (VoxelizeScene cfg status app).2
        = DistancePass.init
            :: (List.replicate (VoxelizeScene cfg status app).1.voxelRadianceMips.NumMipLevels
                  DistancePass.iteration ++ [DistancePass.fill]) ∧
      (jumpFloodPasses (VoxelizeScene cfg status app).2).length
        = (VoxelizeScene cfg status app).1.voxelRadianceMips.NumMipLevels ∧
      ((app.voxelRadianceCreated = false ∨ cfg.VoxelResolutionChanged = true) →
        1 ≤ app.numVoxelMips → app.numVoxelMips < 2 ^ 32 →
        (VoxelizeScene cfg status app).1.voxelRadianceMips.NumMipLevels
          = max (app.numVoxelMips - 1) 1) := by
  refine ⟨distancePasses_VoxelizeScene hre, ?_, ?_⟩
  · rw [jumpFloodPasses_VoxelizeScene hre, List.length_map, List.length_range]
  · intro hc h1 hlt
    rw [VoxelizeScene_mips_created status hc]
    have : app.numVoxelMips < 4294967296 := by norm_num at hlt; exact hlt
    show max (subU32 app.numVoxelMips 1) 1 = _
    rw [subU32_of_le this h1]

/-- C18 (amended) at a concrete input: the first invocation at resolution 4. -/
theorem jump_flood_pass_count_witness :
    distancePasses (VoxelizeScene scenarioSettings (scenarioStatus 100) updatedState).2
        = DistancePass.init
            :: (List.replicate (VoxelizeScene scenarioSettings (scenarioStatus 100)
                  updatedState).1.voxelRadianceMips.NumMipLevels
                  DistancePass.iteration ++ [DistancePass.fill]) ∧
      (jumpFloodPasses (VoxelizeScene scenarioSettings (scenarioStatus 100)
          updatedState).2).length
        = (VoxelizeScene scenarioSettings (scenarioStatus 100)
            updatedState).1.voxelRadianceMips.NumMipLevels ∧
      ((updatedState.voxelRadianceCreated = false ∨
          scenarioSettings.VoxelResolutionChanged = true) →
        1 ≤ updatedState.numVoxelMips → updatedState.numVoxelMips < 2 ^ 32 →
        (VoxelizeScene scenarioSettings (scenarioStatus 100)
            updatedState).1.voxelRadianceMips.NumMipLevels
          = max (updatedState.numVoxelMips - 1) 1) :=
  jump_flood_pass_count scenarioSettings (scenarioStatus 100) updatedState (by decide)

/-- C18 fails at resolution 4: the volume has `numVoxelMips = 3` mip levels and the rebuild
issues 2 jump-flood iterations. -/
theorem pass_count_is_one_less :
    updatedState.numVoxelMips = 3 ∧
      (jumpFloodPasses (VoxelizeScene scenarioSettings (scenarioStatus 100)
        updatedState).2).length = 2 := by
  decide

/-- C19 (amended): in every rebuild all jump-flood passes are dispatched with the same
bindings, set once before the loop: the voxel radiance volume is the only shader input,
and both jump-flood buffers and the distance field are bound as outputs; the host code
swaps nothing between passes. -/
theorem jump_flood_bindings_fixed (cfg : AppSettings) (status : MeshBakerStatus) (app : State)
    (hre : reVoxelize cfg status app = true) :
    (jumpFloodPasses (VoxelizeScene cfg status app).2).map (fun p => (p.1, p.2.1))
      = List.replicate (VoxelizeScene cfg status app).1.voxelRadianceMips.NumMipLevels
          ([Resource.voxelRadiance],
           [Resource.jumpFloodTexturePositive, Resource.jumpFloodTextureNegative,
            Resource.voxelDistanceField]) := by
  rw [jumpFloodPasses_VoxelizeScene hre, List.map_map]
  generalize (VoxelizeScene cfg status app).1.voxelRadianceMips.NumMipLevels = m
  apply List.ext_getElem
  · simp
  · intro i h1 h2
    simp [jumpFloodInputs, jumpFloodOutputs]

/-- C19 (amended) at a concrete input: the first invocation at resolution 4. -/
theorem jump_flood_bindings_fixed_witness :
    (jumpFloodPasses (VoxelizeScene scenarioSettings (scenarioStatus 100) updatedState).2).map
        (fun p => (p.1, p.2.1))
      = List.replicate (VoxelizeScene scenarioSettings (scenarioStatus 100)
            updatedState).1.voxelRadianceMips.NumMipLevels
          ([Resource.voxelRadiance],
           [Resource.jumpFloodTexturePositive, Resource.jumpFloodTextureNegative,
            Resource.voxelDistanceField]) :=
  jump_flood_bindings_fixed scenarioSettings (scenarioStatus 100) updatedState (by decide)

/-- C19 fails at resolution 4: the two consecutive jump-flood passes have identical
bindings, each writes both jump-flood buffers and reads neither as a shader input, so the
roles of the buffers are not swapped and each pass works on the buffers it writes. -/
theorem jump_flood_no_swap :
    (jumpFloodPasses (VoxelizeScene scenarioSettings (scenarioStatus 100) updatedState).2).map
        (fun p => (p.1, p.2.1))
      = [([Resource.voxelRadiance],
          [Resource.jumpFloodTexturePositive, Resource.jumpFloodTextureNegative,
           Resource.voxelDistanceField]),
         ([Resource.voxelRadiance],
          [Resource.jumpFloodTexturePositive, Resource.jumpFloodTextureNegative,
           Resource.voxelDistanceField])] := by
  decide

/-! ### Jump flooding from a single seed -/

theorem nearer_onlySeed {c v : Voxel} {best cand : Option Voxel}
    (hb : best = none ∨ best = some c) (hc : cand = none ∨ cand = some c) :
    (nearer v best cand = none ∨ nearer v best cand = some c) ∧
      (best = some c ∨ cand = some c → nearer v best cand = some c) := by
  rcases hb with hb | hb <;> rcases hc with hc | hc <;> subst hb <;> subst hc <;>
    simp [nearer]

theorem foldl_onlySeed (R : Nat) (s : Nat) (c v : Voxel) (prev : Voxel → Option Voxel)
    (hprev : OnlySeed c prev) (l : List Voxel) (best : Option Voxel)
    (hb : best = none ∨ best = some c) :
    let f := fun (best : Option Voxel) (o : Voxel) =>
      if inVolume R (v.1 + (s : Int) * o.1, v.2.1 + (s : Int) * o.2.1, v.2.2 + (s : Int) * o.2.2)
      then nearer v best (prev (v.1 + (s : Int) * o.1, v.2.1 + (s : Int) * o.2.1,
          v.2.2 + (s : Int) * o.2.2))
      else best
    (l.foldl f best = none ∨ l.foldl f best = some c) ∧
      ((best = some c ∨ ∃ o, o ∈ l ∧
          inVolume R (v.1 + (s : Int) * o.1, v.2.1 + (s : Int) * o.2.1, v.2.2 + (s : Int) * o.2.2) ∧
          prev (v.1 + (s : Int) * o.1, v.2.1 + (s : Int) * o.2.1, v.2.2 + (s : Int) * o.2.2)
            = some c) →
        l.foldl f best = some c) := by
  intro f
  induction l generalizing best with
  | nil =>
    refine ⟨hb, ?_⟩
    rintro (h | ⟨o, ho, _⟩)
    · exact h
    · cases ho
  | cons o rest ih =>
    have hcand : prev (v.1 + (s : Int) * o.1, v.2.1 + (s : Int) * o.2.1, v.2.2 + (s : Int) * o.2.2)
        = none ∨ prev (v.1 + (s : Int) * o.1, v.2.1 + (s : Int) * o.2.1,
          v.2.2 + (s : Int) * o.2.2) = some c := by
      cases hp : prev (v.1 + (s : Int) * o.1, v.2.1 + (s : Int) * o.2.1,
          v.2.2 + (s : Int) * o.2.2) with
      | none => exact Or.inl rfl
      | some y => exact Or.inr (by rw [hprev _ _ hp])
    have hnear := @nearer_onlySeed c v best _ hb hcand
    have hstep : f best o = none ∨ f best o = some c := by
      show (if _ then _ else _) = none ∨ (if _ then _ else _) = some c
      split_ifs
      · exact hnear.1
      · exact hb
    have ih' := ih (f best o) hstep
    refine ⟨ih'.1, ?_⟩
    intro h
    apply ih'.2
    rcases h with h | ⟨o', ho', hin, hp⟩
    · left
      show (if _ then _ else _) = some c
      split_ifs
      · exact hnear.2 (Or.inl h)
      · exact h
    · rcases List.mem_cons.mp ho' with heq | hmem
      · left
        subst heq
        show (if _ then _ else _) = some c
        rw [if_pos hin]
        exact hnear.2 (Or.inr hp)
      · right
        exact ⟨o', hmem, hin, hp⟩

theorem jumpFloodIteration_onlySeed (R s : Nat) (c : Voxel) (prev : Voxel → Option Voxel)
    (h : OnlySeed c prev) : OnlySeed c (jumpFloodIteration R s prev) := by
  intro x y hxy
  have hf := (foldl_onlySeed R s c x prev h neighbourOffsets none (Or.inl rfl)).1
  unfold jumpFloodIteration at hxy
  rcases hf with hf | hf
  · rw [hf] at hxy
    cases hxy
  · rw [hf] at hxy
    exact (Option.some.inj hxy).symm

theorem jumpFloodIteration_adopts (R s : Nat) (c : Voxel) (prev : Voxel → Option Voxel)
    (h : OnlySeed c prev) (v o : Voxel) (ho : o ∈ neighbourOffsets)
    (hin : inVolume R (v.1 + (s : Int) * o.1, v.2.1 + (s : Int) * o.2.1,
      v.2.2 + (s : Int) * o.2.2))
    (hp : prev (v.1 + (s : Int) * o.1, v.2.1 + (s : Int) * o.2.1, v.2.2 + (s : Int) * o.2.2)
      = some c) :
    jumpFloodIteration R s prev v = some c :=
  (foldl_onlySeed R s c v prev h neighbourOffsets none (Or.inl rfl)).2
    (Or.inr ⟨o, ho, hin, hp⟩)

theorem jumpDir_cases (s u v : Int) :
    jumpDir s u v = -1 ∨ jumpDir s u v = 0 ∨ jumpDir s u v = 1 := by
  unfold jumpDir
  split_ifs <;> simp

theorem jumpDir_mem (s u1 v1 u2 v2 u3 v3 : Int) :
    (jumpDir s u1 v1, jumpDir s u2 v2, jumpDir s u3 v3) ∈ neighbourOffsets := by
  unfold neighbourOffsets
  rw [List.pair_mem_product, List.pair_mem_product]
  refine ⟨?_, ?_, ?_⟩
  · rcases jumpDir_cases s u1 v1 with h | h | h <;> rw [h] <;> decide
  · rcases jumpDir_cases s u2 v2 with h | h | h <;> rw [h] <;> decide
  · rcases jumpDir_cases s u3 v3 with h | h | h <;> rw [h] <;> decide

theorem jumpDir_spec (s u v R : Int) (hs : 0 < s) (hu : 0 ≤ u ∧ u < R) (hv : 0 ≤ v ∧ v < R)
    (hr : v - u ≤ 2 * s - 1 ∧ u - v ≤ 2 * s - 1) :
    (0 ≤ u - s * jumpDir s u v ∧ u - s * jumpDir s u v < R) ∧
      (v - (u - s * jumpDir s u v) ≤ s - 1 ∧ (u - s * jumpDir s u v) - v ≤ s - 1) := by
  unfold jumpDir
  split_ifs with h1 h2
  · simp only [mul_neg, mul_one, sub_neg_eq_add]
    omega
  · simp only [mul_one]
    omega
  · simp only [mul_zero, sub_zero]
    omega

theorem steps_succ (m w : Nat) :
    (List.range (m + 1)).map (stepAt w) = w :: (List.range m).map (stepAt (max (w / 2) 1)) := by
  rw [List.range_succ_eq_map, List.map_cons, List.map_map]
  congr 1
  apply List.map_congr_left
  intro i _
  exact stepAt_succ_shift w i

theorem steps_pow (m : Nat) :
    (List.range m).map (stepAt (max (2 ^ m / 2) 1)) = (List.range m).map (stepAt (2 ^ (m - 1))) := by
  cases m with
  | zero => rfl
  | succ m =>
    have h : 2 ^ (m + 1) / 2 = 2 ^ m := by
      rw [pow_succ]
      exact Nat.mul_div_cancel _ (by decide)
    have h1 : 1 ≤ 2 ^ m := Nat.one_le_two_pow
    rw [h, Nat.add_sub_cancel, max_eq_left h1]

theorem runJumpFlood_cover (R : Nat) (c : Voxel) (m : Nat) :
    ∀ (buf : Voxel → Option Voxel) (u v : Voxel), OnlySeed c buf → inVolume R u →
      buf u = some c → inVolume R v → WithinReach (((2 ^ m : Nat) : Int) - 1) u v →
      runJumpFlood R ((List.range m).map (stepAt (2 ^ (m - 1)))) buf v = some c := by
  induction m with
  | zero =>
    intro buf u v _ _ hbu _ hr
    obtain ⟨⟨h1, h2⟩, ⟨h3, h4⟩, h5, h6⟩ := hr
    simp only [pow_zero, Nat.cast_one, sub_self] at h1 h2 h3 h4 h5 h6
    have e1 : v.1 = u.1 := by omega
    have e2 : v.2.1 = u.2.1 := by omega
    have e3 : v.2.2 = u.2.2 := by omega
    have : v = u := Prod.ext e1 (Prod.ext e2 e3)
    rw [this]
    exact hbu
  | succ m ih =>
    intro buf u v hbuf hu hbu hv hr
    rw [Nat.add_sub_cancel, steps_succ, steps_pow]
    show runJumpFlood R ((List.range m).map (stepAt (2 ^ (m - 1))))
      (jumpFloodIteration R (2 ^ m) buf) v = some c
    obtain ⟨hr1, hr2, hr3⟩ := hr
    have hs : (0 : Int) < ((2 ^ m : Nat) : Int) := by
      have : 0 < 2 ^ m := Nat.two_pow_pos m
      exact_mod_cast this
    have hpow : (((2 ^ (m + 1) : Nat) : Int)) - 1 = 2 * ((2 ^ m : Nat) : Int) - 1 := by
      rw [pow_succ]
      push_cast
      ring
    rw [hpow] at hr1 hr2 hr3
    obtain ⟨hu1, hu2, hu3⟩ := hu
    obtain ⟨hv1, hv2, hv3⟩ := hv
    have a1 := jumpDir_spec _ u.1 v.1 R hs hu1 hv1 hr1
    have a2 := jumpDir_spec _ u.2.1 v.2.1 R hs hu2 hv2 hr2
    have a3 := jumpDir_spec _ u.2.2 v.2.2 R hs hu3 hv3 hr3
    apply ih (jumpFloodIteration R (2 ^ m) buf)
      (u.1 - ((2 ^ m : Nat) : Int) * jumpDir ((2 ^ m : Nat) : Int) u.1 v.1,
        u.2.1 - ((2 ^ m : Nat) : Int) * jumpDir ((2 ^ m : Nat) : Int) u.2.1 v.2.1,
        u.2.2 - ((2 ^ m : Nat) : Int) * jumpDir ((2 ^ m : Nat) : Int) u.2.2 v.2.2) v
      (jumpFloodIteration_onlySeed R _ c buf hbuf) ⟨a1.1, a2.1, a3.1⟩ ?_ ⟨hv1, hv2, hv3⟩
      ⟨a1.2, a2.2, a3.2⟩
    have hpt : ((u.1 - ((2 ^ m : Nat) : Int) * jumpDir ((2 ^ m : Nat) : Int) u.1 v.1)
          + ((2 ^ m : Nat) : Int) * jumpDir ((2 ^ m : Nat) : Int) u.1 v.1,
        (u.2.1 - ((2 ^ m : Nat) : Int) * jumpDir ((2 ^ m : Nat) : Int) u.2.1 v.2.1)
          + ((2 ^ m : Nat) : Int) * jumpDir ((2 ^ m : Nat) : Int) u.2.1 v.2.1,
        (u.2.2 - ((2 ^ m : Nat) : Int) * jumpDir ((2 ^ m : Nat) : Int) u.2.2 v.2.2)
          + ((2 ^ m : Nat) : Int) * jumpDir ((2 ^ m : Nat) : Int) u.2.2 v.2.2) = u := by
      simp only [sub_add_cancel]
    exact jumpFloodIteration_adopts R (2 ^ m) c buf hbuf
      (u.1 - ((2 ^ m : Nat) : Int) * jumpDir ((2 ^ m : Nat) : Int) u.1 v.1,
        u.2.1 - ((2 ^ m : Nat) : Int) * jumpDir ((2 ^ m : Nat) : Int) u.2.1 v.2.1,
        u.2.2 - ((2 ^ m : Nat) : Int) * jumpDir ((2 ^ m : Nat) : Int) u.2.2 v.2.2)
      (jumpDir ((2 ^ m : Nat) : Int) u.1 v.1, jumpDir ((2 ^ m : Nat) : Int) u.2.1 v.2.1,
        jumpDir ((2 ^ m : Nat) : Int) u.2.2 v.2.2)
      (jumpDir_mem _ u.1 v.1 u.2.1 v.2.1 u.2.2 v.2.2)
      (by rw [hpt]; exact ⟨hu1, hu2, hu3⟩) (by rw [hpt]; exact hbu)

theorem dispatchedSteps_pow (k : Nat) (hk : k < 32) (cfg : AppSettings)
    (status : MeshBakerStatus) (app : State) (hR : cfg.VoxelResolution = 2 ^ k)
    (hm : app.numVoxelMips = k + 1)
    (hc : app.voxelRadianceCreated = false ∨ cfg.VoxelResolutionChanged = true) :
    dispatchedSteps cfg status app
      = (List.range (max k 1)).map (stepAt (2 ^ (max k 1 - 1))) := by
  unfold dispatchedSteps
  rw [jumpFloodPasses_VoxelizeScene (reVoxelize_of_created status hc), List.map_map,
    VoxelizeScene_mips_created status hc, hR, hm]
  have hsub : subU32 (k + 1) 1 = k := by
    have : k + 1 < 4294967296 := by omega
    rw [subU32_of_le this (by omega)]
    rfl
  show (List.range (max (subU32 (k + 1) 1) 1)).map
      (fun i => stepAt (max (u32 (2 ^ k / 2)) 1) i) = _
  rw [hsub]
  cases k with
  | zero => rfl
  | succ j =>
    have h2 : 2 ^ (j + 1) / 2 = 2 ^ j := by
      rw [pow_succ]
      exact Nat.mul_div_cancel _ (by decide)
    have hlt : 2 ^ j < 4294967296 := by
      have : 2 ^ j < 2 ^ 32 := Nat.pow_lt_pow_right (by decide) (by omega)
      norm_num at this
      exact this
    have h1 : 1 ≤ 2 ^ j := Nat.one_le_two_pow
    rw [h2, u32_of_lt hlt, max_eq_left h1, max_eq_left (by omega : 1 ≤ j + 1),
      Nat.add_sub_cancel]

theorem initJumpFlood_onlySeed (c : Voxel) :
    OnlySeed c (initJumpFlood (fun u => decide (u = c))) := by
  intro x y h
  unfold initJumpFlood at h
  by_cases hx : x = c
  · simp only [hx, decide_True, if_true] at h
    exact (Option.some.inj h).symm
  · simp only [hx, decide_False] at h
    cases h

theorem initJumpFlood_seed (c : Voxel) : initJumpFlood (fun u => decide (u = c)) c = some c := by
  simp [initJumpFlood]

theorem inVolume_reach {R : Nat} {k : Nat} (hR : R = 2 ^ k) {u v : Voxel}
    (hu : inVolume R u) (hv : inVolume R v) :
    WithinReach (((2 ^ (max k 1) : Nat) : Int) - 1) u v := by
  have hle : 2 ^ k ≤ 2 ^ (max k 1) := Nat.pow_le_pow_right (by decide) (le_max_left k 1)
  have hle2 : (R : Int) ≤ ((2 ^ (max k 1) : Nat) : Int) := by
    rw [hR]
    exact_mod_cast hle
  obtain ⟨hu1, hu2, hu3⟩ := hu
  obtain ⟨hv1, hv2, hv3⟩ := hv
  refine ⟨⟨?_, ?_⟩, ⟨?_, ?_⟩, ?_, ?_⟩ <;> omega

theorem distanceField_single (k : Nat) (hk : k < 32) (cfg : AppSettings)
    (status : MeshBakerStatus) (app : State) (hR : cfg.VoxelResolution = 2 ^ k)
    (hm : app.numVoxelMips = k + 1)
    (hc : app.voxelRadianceCreated = false ∨ cfg.VoxelResolutionChanged = true)
    (c v : Voxel) (hcin : inVolume cfg.VoxelResolution c)
    (hvin : inVolume cfg.VoxelResolution v) :
    distanceField cfg.VoxelResolution (dispatchedSteps cfg status app)
      (fun u => decide (u = c)) v = some (distSq v c) := by
  unfold distanceField fillDistanceTexture
  rw [dispatchedSteps_pow k hk cfg status app hR hm hc,
    runJumpFlood_cover cfg.VoxelResolution c (max k 1) _ c v (initJumpFlood_onlySeed c) hcin
      (initJumpFlood_seed c) hvin (inVolume_reach hR hcin hvin)]
  rfl

/-- C20 (amended): for a volume whose resolution is a power of two, `R = 2 ^ k` with
`k < 32` (for example 8), and `k + 1` mip levels, with exactly one occupied voxel `c`:
init, the jump-flood passes with the step sizes that `VoxelizeScene` dispatches when it
creates the textures, and the finalize pass give every voxel `v` of the volume the
distance to `c` (here as squared distance), which is the brute-force distance to the
nearest occupied voxel. -/
theorem single_seed_distance_field (k : Nat) (hk : k < 32) (cfg : AppSettings)
    (status : MeshBakerStatus) (app : State) (hR : cfg.VoxelResolution = 2 ^ k)
    (hm : app.numVoxelMips = k + 1)
    (hc : app.voxelRadianceCreated = false ∨ cfg.VoxelResolutionChanged = true)
    (c v : Voxel) (hcin : inVolume cfg.VoxelResolution c)
    (hvin : inVolume cfg.VoxelResolution v) :
    distanceField cfg.VoxelResolution (dispatchedSteps cfg status app)
        (fun u => decide (u = c)) v = some (distSq v c) ∧
      IsNearestDistance cfg.VoxelResolution (fun u => decide (u = c)) v (distSq v c) := by
  refine ⟨distanceField_single k hk cfg status app hR hm hc c v hcin hvin,
    ⟨c, hcin, by simp, rfl⟩, ?_⟩
  intro u _ hu
  have : u = c := by simpa using hu
  rw [this]

/-- C20 (amended) at a concrete input: resolution 8 with 4 mip levels, the occupied voxel
`(2, 5, 1)` and the voxel `(7, 0, 6)`. -/
theorem single_seed_distance_field_witness :
    distanceField (settingsAt 8).VoxelResolution
        (dispatchedSteps (settingsAt 8) (scenarioStatus 100) (updatedTo 4))
        (fun u => decide (u = ((2, 5, 1) : Voxel))) (7, 0, 6)
          = some (distSq (7, 0, 6) (2, 5, 1)) ∧
      IsNearestDistance (settingsAt 8).VoxelResolution
        (fun u => decide (u = ((2, 5, 1) : Voxel))) (7, 0, 6) (distSq (7, 0, 6) (2, 5, 1)) :=
  single_seed_distance_field 3 (by decide) (settingsAt 8) (scenarioStatus 100) (updatedTo 4)
    (by decide) (by decide) (by decide) (2, 5, 1) (7, 0, 6) (by decide) (by decide)

/-- C20 fails at resolution 7: with the occupied voxel `(0, 0, 0)` the voxel `(6, 0, 0)` of
the volume is left unseeded by the passes that `VoxelizeScene` dispatches, of step sizes
3, 1 for 3 mip levels and 3, 1, 1 for 4 mip levels, so it gets no distance, whereas its
distance to the occupied voxel is 6. -/
theorem far_voxel_stays_unseeded :
    inVolume 7 (0, 0, 0) ∧ inVolume 7 (6, 0, 0) ∧
      dispatchedSteps (settingsAt 7) (scenarioStatus 100) (updatedTo 3) = [3, 1] ∧
      distanceField 7 (dispatchedSteps (settingsAt 7) (scenarioStatus 100) (updatedTo 3))
        (fun u => decide (u = ((0, 0, 0) : Voxel))) (6, 0, 0) = none ∧
      dispatchedSteps (settingsAt 7) (scenarioStatus 100) (updatedTo 4) = [3, 1, 1] ∧
      distanceField 7 (dispatchedSteps (settingsAt 7) (scenarioStatus 100) (updatedTo 4))
        (fun u => decide (u = ((0, 0, 0) : Voxel))) (6, 0, 0) = none ∧
      distSq (6, 0, 0) (0, 0, 0) = 36 := by
  decide

/-! ### The mip loop of VoxelizeScene -/

theorem mipDispatches_append (l1 l2 : List GpuCmd) :
    mipDispatches (l1 ++ l2) = mipDispatches l1 ++ mipDispatches l2 := by
  unfold mipDispatches
  exact List.filterMap_append _ _ _

theorem mipDispatches_loop (m l s : Nat) :
    mipDispatches (generateVoxelMipsLoop m l s)
      = (List.range m).map (fun i =>
          (⟨l + i, mipSources (l + i), mipTargets (l + i), stepAt s i, stepAt s (i + 1)⟩ :
            MipPass)) := by
  induction m generalizing l s with
  | zero => rfl
  | succ m ih =>
    have hcons : mipDispatches (generateVoxelMipsLoop (m + 1) l s)
        = (⟨l, mipSources l, mipTargets l, s, max (s / 2) 1⟩ : MipPass)
            :: mipDispatches (generateVoxelMipsLoop m (l + 1) (max (s / 2) 1)) := rfl
    rw [hcons, ih, List.range_succ_eq_map, List.map_cons, List.map_map]
    congr 1
    apply List.map_congr_left
    intro i _
    simp only [Function.comp, stepAt_succ_shift, Nat.add_assoc, Nat.add_comm 1 i]

theorem mipDispatches_jumpFlood (m w : Nat) : mipDispatches (jumpFloodLoop m w) = [] := by
  induction m generalizing w with
  | zero => rfl
  | succ m ih =>
    have hcons : mipDispatches (jumpFloodLoop (m + 1) w)
        = mipDispatches (jumpFloodLoop m (max (w / 2) 1)) := rfl
    rw [hcons, ih]

theorem createVoxelTextures_no_mip (cfg : AppSettings) (app : State) :
    mipDispatches (createVoxelTextures cfg app).2 = [] := by
  unfold createVoxelTextures
  split_ifs <;> rfl

theorem mipDispatches_rebuild (cfg : AppSettings) (app : State) :
    mipDispatches (rebuildCommands cfg app)
      = (List.range app.voxelRadianceMips.NumMipLevels).map (fun i =>
          (⟨i, mipSources i, mipTargets i, stepAt cfg.VoxelResolution i,
            stepAt cfg.VoxelResolution (i + 1)⟩ : MipPass)) := by
  unfold rebuildCommands
  simp only [mipDispatches_append, mipDispatches_jumpFlood, mipDispatches_loop]
  cases cfg.EnableSun <;> cases cfg.EnableAreaLight <;> simp [mipDispatches]

theorem mipDispatches_VoxelizeScene {cfg : AppSettings} {status : MeshBakerStatus}
    {app : State} (h : reVoxelize cfg status app = true) :
    mipDispatches (VoxelizeScene cfg status app).2
      = (List.range (VoxelizeScene cfg status app).1.voxelRadianceMips.NumMipLevels).map
          (fun i => (⟨i, mipSources i, mipTargets i, stepAt cfg.VoxelResolution i,
            stepAt cfg.VoxelResolution (i + 1)⟩ : MipPass)) := by
  rw [VoxelizeScene_rebuild h]
  simp only [mipDispatches_append, createVoxelTextures_no_mip, mipDispatches_rebuild,
    List.nil_append]

theorem mipWidths_VoxelizeScene {cfg : AppSettings} {status : MeshBakerStatus}
    {app : State} (h : reVoxelize cfg status app = true) :
    mipWidths cfg (VoxelizeScene cfg status app).2
      = (List.range ((VoxelizeScene cfg status app).1.voxelRadianceMips.NumMipLevels + 1)).map
          (stepAt cfg.VoxelResolution) := by
  unfold mipWidths
  rw [mipDispatches_VoxelizeScene h, List.map_map, List.range_succ_eq_map, List.map_cons,
    List.map_map]
  rfl

theorem stepAt_pos {s : Nat} (hs : 1 ≤ s) (i : Nat) : 1 ≤ stepAt s i := by
  cases i with
  | zero => exact hs
  | succ i => exact le_max_right _ _

theorem stepAt_succ_le {s : Nat} (hs : 1 ≤ s) (i : Nat) : stepAt s (i + 1) ≤ stepAt s i := by
  have h := stepAt_pos hs i
  show max (stepAt s i / 2) 1 ≤ stepAt s i
  exact max_le (Nat.div_le_self _ _) h

theorem stepAt_antitone {s : Nat} (hs : 1 ≤ s) {i j : Nat} (hij : i ≤ j) :
    stepAt s j ≤ stepAt s i := by
  induction hij with
  | refl => exact le_rfl
  | step _ ih => exact le_trans (stepAt_succ_le hs _) ih

theorem stepAt_pow (k i : Nat) (hi : i ≤ k) : stepAt (2 ^ k) i = 2 ^ (k - i) := by
  induction i with
  | zero => rfl
  | succ i ih =>
    show max (stepAt (2 ^ k) i / 2) 1 = 2 ^ (k - (i + 1))
    rw [ih (by omega)]
    have h : k - i = (k - (i + 1)) + 1 := by omega
    rw [h, pow_succ, Nat.mul_div_cancel _ (by decide : 0 < 2)]
    exact max_eq_left Nat.one_le_two_pow

/-! ### Widths and bindings of the mip chain -/

theorem mipLevels_created {cfg : AppSettings} (status : MeshBakerStatus) {app : State} {k : Nat}
    (hk : k < 32) (hm : app.numVoxelMips = k + 1)
    (hc : app.voxelRadianceCreated = false ∨ cfg.VoxelResolutionChanged = true) :
    (VoxelizeScene cfg status app).1.voxelRadianceMips.NumMipLevels = max k 1 := by
  rw [VoxelizeScene_mips_created status hc, hm]
  have : k + 1 < 4294967296 := by omega
  show max (subU32 (k + 1) 1) 1 = _
  rw [subU32_of_le this (by omega)]
  rfl

theorem mipDispatches_get {cfg : AppSettings} {status : MeshBakerStatus} {app : State}
    (h : reVoxelize cfg status app = true) {i : Nat} {d : MipPass}
    (hd : (mipDispatches (VoxelizeScene cfg status app).2)[i]? = some d) :
    d = ⟨i, mipSources i, mipTargets i, stepAt cfg.VoxelResolution i,
      stepAt cfg.VoxelResolution (i + 1)⟩ := by
  rw [mipDispatches_VoxelizeScene h, List.getElem?_map] at hd
  by_cases hi : i < (VoxelizeScene cfg status app).1.voxelRadianceMips.NumMipLevels
  · rw [List.getElem?_range hi] at hd
    exact (Option.some.inj hd).symm
  · rw [List.getElem?_eq_none (by simpa using hi)] at hd
    cases hd

/-- C21 (amended): for every power-of-two resolution `R = 2 ^ k` with `1 <= k < 32` and
`numVoxelMips = k + 1`, when `VoxelizeScene` creates the textures, the widths of the mip
chain it builds, base volume included, are `R, R / 2, ..., 2, 1`: exactly `k + 1` levels,
strictly decreasing, the last of width 1. -/
theorem mip_chain_widths (k : Nat) (hk1 : 1 ≤ k) (hk : k < 32) (cfg : AppSettings)
    (status : MeshBakerStatus) (app : State) (hR : cfg.VoxelResolution = 2 ^ k)
    (hm : app.numVoxelMips = k + 1)
    (hc : app.voxelRadianceCreated = false ∨ cfg.VoxelResolutionChanged = true) :
    mipWidths cfg (VoxelizeScene cfg status app).2
        = (List.range (k + 1)).map (fun i => 2 ^ (k - i)) ∧
      (mipWidths cfg (VoxelizeScene cfg status app).2).length = k + 1 ∧
      (mipWidths cfg (VoxelizeScene cfg status app).2).getLast? = some 1 ∧
      (mipWidths cfg (VoxelizeScene cfg status app).2).Pairwise (fun a b => b < a) := by
  have hw : mipWidths cfg (VoxelizeScene cfg status app).2
      = (List.range (k + 1)).map (fun i => 2 ^ (k - i)) := by
    rw [mipWidths_VoxelizeScene (reVoxelize_of_created status hc),
      mipLevels_created status hk hm hc, max_eq_left hk1, hR]
    apply List.map_congr_left
    intro i hi
    exact stepAt_pow k i (by have := List.mem_range.mp hi; omega)
  rw [hw]
  refine ⟨rfl, by simp, ?_, ?_⟩
  · rw [List.range_succ, List.map_append]
    simp
  · rw [List.pairwise_map]
    refine (List.pairwise_lt_range (k + 1)).imp_of_mem ?_
    intro a b ha hb hab
    have hb1 := List.mem_range.mp hb
    exact Nat.pow_lt_pow_right (by decide) (by omega)

/-- C21 (amended) at a concrete input: resolution 4 with 3 mip levels gives the widths
4, 2, 1. -/
theorem mip_chain_widths_witness :
    mipWidths scenarioSettings (VoxelizeScene scenarioSettings (scenarioStatus 100) updatedState).2
        = (List.range (2 + 1)).map (fun i => 2 ^ (2 - i)) ∧
      (mipWidths scenarioSettings
        (VoxelizeScene scenarioSettings (scenarioStatus 100) updatedState).2).length = 2 + 1 ∧
      (mipWidths scenarioSettings
        (VoxelizeScene scenarioSettings (scenarioStatus 100) updatedState).2).getLast? = some 1 ∧
      (mipWidths scenarioSettings
        (VoxelizeScene scenarioSettings (scenarioStatus 100) updatedState).2).Pairwise
          (fun a b => b < a) :=
  mip_chain_widths 2 (by decide) (by decide) scenarioSettings (scenarioStatus 100) updatedState
    rfl rfl (Or.inl rfl)

/-- C21 fails at resolution `1 = 2 ^ 0` with 1 mip level: the mip textures are created
with 1 level, so the loop runs once and generates a level of width 1 from the base of
width 1; the chain has 2 levels, of widths 1, 1. -/
theorem mip_level_after_width_one :
    (settingsAt 1).VoxelResolution = 2 ^ 0 ∧ (updatedTo 1).numVoxelMips = 0 + 1 ∧
      mipWidths (settingsAt 1) (VoxelizeScene (settingsAt 1) (scenarioStatus 100) (updatedTo 1)).2
        = [1, 1] ∧
      (mipDispatches (VoxelizeScene (settingsAt 1) (scenarioStatus 100) (updatedTo 1)).2).map
          (fun d => (d.srcMipSize, d.dstMipSize)) = [(1, 1)] := by
  decide

/-- C22: for every resolution `R >= 1`, the widths of the mip chain that the mip loop of
`VoxelizeScene` produces, starting from the base width `R`, are non-increasing and all at
least 1, in a rebuild from any state and for every number of iterations of the loop. -/
theorem mip_widths_nonincreasing (cfg : AppSettings) (status : MeshBakerStatus) (app : State)
    (hR : 1 ≤ cfg.VoxelResolution) (hre : reVoxelize cfg status app = true) :
    ((mipWidths cfg (VoxelizeScene cfg status app).2).Pairwise (fun a b => b ≤ a) ∧
        (∀ w, w ∈ mipWidths cfg (VoxelizeScene cfg status app).2 → 1 ≤ w) ∧
        (mipWidths cfg (VoxelizeScene cfg status app).2).head? = some cfg.VoxelResolution) ∧
      ∀ m, (mipWidths cfg (generateVoxelMipsLoop m 0 cfg.VoxelResolution)).Pairwise
            (fun a b => b ≤ a) ∧
        (∀ w, w ∈ mipWidths cfg (generateVoxelMipsLoop m 0 cfg.VoxelResolution) → 1 ≤ w) ∧
        (mipWidths cfg (generateVoxelMipsLoop m 0 cfg.VoxelResolution)).length = m + 1 := by
  have hloop : ∀ m, mipWidths cfg (generateVoxelMipsLoop m 0 cfg.VoxelResolution)
      = (List.range (m + 1)).map (stepAt cfg.VoxelResolution) := by
    intro m
    unfold mipWidths
    rw [mipDispatches_loop, List.map_map, List.range_succ_eq_map, List.map_cons, List.map_map]
    rfl
  have hgen : ∀ m, ((List.range (m + 1)).map (stepAt cfg.VoxelResolution)).Pairwise
        (fun a b => b ≤ a) ∧
      (∀ w, w ∈ (List.range (m + 1)).map (stepAt cfg.VoxelResolution) → 1 ≤ w) := by
    intro m
    constructor
    · rw [List.pairwise_map]
      refine (List.pairwise_lt_range (m + 1)).imp ?_
      intro a b hab
      exact stepAt_antitone hR (Nat.le_of_lt hab)
    · intro w hw
      obtain ⟨i, _, rfl⟩ := List.mem_map.mp hw
      exact stepAt_pos hR i
  refine ⟨?_, ?_⟩
  · rw [mipWidths_VoxelizeScene hre]
    refine ⟨(hgen _).1, (hgen _).2, ?_⟩
    rw [List.range_succ_eq_map]
    rfl
  · intro m
    rw [hloop m]
    exact ⟨(hgen m).1, (hgen m).2, by simp⟩

/-- C22 at a concrete input: the first invocation at resolution 4. -/
theorem mip_widths_nonincreasing_witness :
    ((mipWidths scenarioSettings
          (VoxelizeScene scenarioSettings (scenarioStatus 100) updatedState).2).Pairwise
            (fun a b => b ≤ a) ∧
        (∀ w, w ∈ mipWidths scenarioSettings
          (VoxelizeScene scenarioSettings (scenarioStatus 100) updatedState).2 → 1 ≤ w) ∧
        (mipWidths scenarioSettings
          (VoxelizeScene scenarioSettings (scenarioStatus 100) updatedState).2).head?
            = some scenarioSettings.VoxelResolution) ∧
      ∀ m, (mipWidths scenarioSettings
            (generateVoxelMipsLoop m 0 scenarioSettings.VoxelResolution)).Pairwise
              (fun a b => b ≤ a) ∧
        (∀ w, w ∈ mipWidths scenarioSettings
            (generateVoxelMipsLoop m 0 scenarioSettings.VoxelResolution) → 1 ≤ w) ∧
        (mipWidths scenarioSettings
          (generateVoxelMipsLoop m 0 scenarioSettings.VoxelResolution)).length = m + 1 :=
  mip_widths_nonincreasing scenarioSettings (scenarioStatus 100) updatedState (by decide)
    (by decide)

/-- C23: in every rebuild, the destination width of iteration `i` of the mip loop, from
which its dispatch is sized, is `max (srcWidth / 2) 1` in integer division, where the
source width is the resolution `R` for the first iteration and the destination width of
the previous iteration afterwards. -/
theorem mip_destination_width (cfg : AppSettings) (status : MeshBakerStatus) (app : State)
    (hre : reVoxelize cfg status app = true) (i : Nat) (d : MipPass)
    (hd : (mipDispatches (VoxelizeScene cfg status app).2)[i]? = some d) :
    d.dstMipSize = max (d.srcMipSize / 2) 1 ∧
      (i = 0 → d.srcMipSize = cfg.VoxelResolution) ∧
      (∀ e, (mipDispatches (VoxelizeScene cfg status app).2)[i + 1]? = some e →
        e.srcMipSize = d.dstMipSize) := by
  rw [mipDispatches_get hre hd]
  refine ⟨rfl, ?_, ?_⟩
  · intro h0
    rw [h0]
    rfl
  · intro e he
    rw [mipDispatches_get hre he]

/-- C23 at a concrete input: the first iteration of the first invocation at resolution 4
reads width 4 and writes width 2. -/
theorem mip_destination_width_witness :
    (⟨0, mipSources 0, mipTargets 0, 4, 2⟩ : MipPass).dstMipSize
        = max ((⟨0, mipSources 0, mipTargets 0, 4, 2⟩ : MipPass).srcMipSize / 2) 1 ∧
      (0 = 0 → (⟨0, mipSources 0, mipTargets 0, 4, 2⟩ : MipPass).srcMipSize
        = scenarioSettings.VoxelResolution) ∧
      (∀ e, (mipDispatches
          (VoxelizeScene scenarioSettings (scenarioStatus 100) updatedState).2)[0 + 1]? = some e →
        e.srcMipSize = (⟨0, mipSources 0, mipTargets 0, 4, 2⟩ : MipPass).dstMipSize) :=
  mip_destination_width scenarioSettings (scenarioStatus 100) updatedState (by decide) 0
    ⟨0, mipSources 0, mipTargets 0, 4, 2⟩ (by decide)

/-- C24: in every rebuild, iteration `i` of the mip loop has source level `i`; the first
iteration reads only the voxel radiance volume and writes level 0 of the six chains; a
later iteration binds, for every direction `c` in `0..5`, level `i - 1` of chain `c` as the
source in slot `c` and level `i` of the same chain as the destination in slot `c`; no
resource is both read and written by an iteration. -/
theorem mip_chain_bindings (cfg : AppSettings) (status : MeshBakerStatus) (app : State)
    (hre : reVoxelize cfg status app = true) (i : Nat) (d : MipPass)
    (hd : (mipDispatches (VoxelizeScene cfg status app).2)[i]? = some d) :
    d.srcMipLevel = i ∧
      (i = 0 → d.srvs = [Resource.voxelRadiance]) ∧
      (0 < i → d.srvs = (List.range 6).map (fun c => Resource.voxelRadianceMip c (i - 1))) ∧
      d.uavs = (List.range 6).map (fun c => Resource.voxelRadianceMip c i) ∧
      (∀ r, r ∈ d.srvs → r ∉ d.uavs) := by
  rw [mipDispatches_get hre hd]
  refine ⟨rfl, ?_, ?_, rfl, ?_⟩
  · intro h0
    rw [h0]
    rfl
  · intro hpos
    show mipSources i = _
    unfold mipSources
    rw [if_neg (by omega)]
  · intro r hr hw
    have hr1 : r ∈ mipSources i := hr
    have hw1 : r ∈ mipTargets i := hw
    unfold mipTargets at hw1
    obtain ⟨c, _, rfl⟩ := List.mem_map.mp hw1
    unfold mipSources at hr1
    split_ifs at hr1 with h0
    · simp at hr1
    · obtain ⟨c2, _, h2⟩ := List.mem_map.mp hr1
      have : i - 1 = i := (Resource.voxelRadianceMip.inj h2).2
      omega

/-- C24 at a concrete input: the second iteration of the first invocation at resolution
4. -/
theorem mip_chain_bindings_witness :
    (⟨1, mipSources 1, mipTargets 1, 2, 1⟩ : MipPass).srcMipLevel = 1 ∧
      (1 = 0 → (⟨1, mipSources 1, mipTargets 1, 2, 1⟩ : MipPass).srvs
        = [Resource.voxelRadiance]) ∧
      (0 < 1 → (⟨1, mipSources 1, mipTargets 1, 2, 1⟩ : MipPass).srvs
        = (List.range 6).map (fun c => Resource.voxelRadianceMip c (1 - 1))) ∧
      (⟨1, mipSources 1, mipTargets 1, 2, 1⟩ : MipPass).uavs
        = (List.range 6).map (fun c => Resource.voxelRadianceMip c 1) ∧
      (∀ r, r ∈ (⟨1, mipSources 1, mipTargets 1, 2, 1⟩ : MipPass).srvs →
        r ∉ (⟨1, mipSources 1, mipTargets 1, 2, 1⟩ : MipPass).uavs) :=
  mip_chain_bindings scenarioSettings (scenarioStatus 100) updatedState (by decide) 1
    ⟨1, mipSources 1, mipTargets 1, 2, 1⟩ (by decide)

/-! ### The order of the rebuild -/

theorem rebuildSteps_append (l1 l2 : List GpuCmd) :
    rebuildSteps (l1 ++ l2) = rebuildSteps l1 ++ rebuildSteps l2 := by
  unfold rebuildSteps
  exact List.filterMap_append _ _ _

theorem rebuildSteps_mips (m l s : Nat) :
    rebuildSteps (generateVoxelMipsLoop m l s) = List.replicate m RebuildStep.generateMip := by
  induction m generalizing l s with
  | zero => rfl
  | succ m ih =>
    have hcons : rebuildSteps (generateVoxelMipsLoop (m + 1) l s)
        = RebuildStep.generateMip
            :: rebuildSteps (generateVoxelMipsLoop m (l + 1) (max (s / 2) 1)) := rfl
    rw [hcons, ih]
    rfl

theorem rebuildSteps_jumpFlood (m w : Nat) :
    rebuildSteps (jumpFloodLoop m w) = List.replicate m RebuildStep.distanceField := by
  induction m generalizing w with
  | zero => rfl
  | succ m ih =>
    have hcons : rebuildSteps (jumpFloodLoop (m + 1) w)
        = RebuildStep.distanceField :: rebuildSteps (jumpFloodLoop m (max (w / 2) 1)) := rfl
    rw [hcons, ih]
    rfl

theorem createVoxelTextures_no_step (cfg : AppSettings) (app : State) :
    rebuildSteps (createVoxelTextures cfg app).2 = [] := by
  unfold createVoxelTextures
  split_ifs <;> rfl

theorem rebuildSteps_rebuild (cfg : AppSettings) (app : State) :
    rebuildSteps (rebuildCommands cfg app)
      = RebuildStep.clearVolume cfg.VoxelResolution
          :: (List.replicate (shadowMapCount cfg) RebuildStep.shadowMap
            ++ [RebuildStep.rasterize 0, RebuildStep.rasterize 1, RebuildStep.rasterize 2]
            ++ List.replicate app.voxelRadianceMips.NumMipLevels RebuildStep.generateMip
            ++ List.replicate (app.voxelRadianceMips.NumMipLevels + 2)
                RebuildStep.distanceField) := by
  have hrep : ∀ n : Nat, List.replicate n RebuildStep.distanceField ++ [RebuildStep.distanceField]
      = RebuildStep.distanceField :: List.replicate n RebuildStep.distanceField := by
    intro n
    rw [← List.replicate_succ']
    rfl
  unfold rebuildCommands shadowMapCount
  simp only [rebuildSteps_append, rebuildSteps_mips, rebuildSteps_jumpFlood]
  cases cfg.EnableSun <;> cases cfg.EnableAreaLight <;>
    simp [rebuildSteps, List.replicate_succ, hrep]

/-- C25: in every rebuild `VoxelizeScene` first issues the clear dispatch over the whole
voxel volume, then (after the shadow maps of the enabled lights) exactly three
rasterization passes, with the X, Y and Z cameras in this order, then the dispatches of
the mip loop, and only then the distance-field dispatches (init, iterations, fill). -/
theorem rebuild_order (cfg : AppSettings) (status : MeshBakerStatus) (app : State)
    (hre : reVoxelize cfg status app = true) :
    rebuildSteps (VoxelizeScene cfg status app).2
      = RebuildStep.clearVolume cfg.VoxelResolution
          :: (List.replicate (shadowMapCount cfg) RebuildStep.shadowMap
            ++ [RebuildStep.rasterize 0, RebuildStep.rasterize 1, RebuildStep.rasterize 2]
            ++ List.replicate (VoxelizeScene cfg status app).1.voxelRadianceMips.NumMipLevels
                RebuildStep.generateMip
            ++ List.replicate
                ((VoxelizeScene cfg status app).1.voxelRadianceMips.NumMipLevels + 2)
                RebuildStep.distanceField) := by
  rw [VoxelizeScene_rebuild hre]
  simp only [rebuildSteps_append, createVoxelTextures_no_step, rebuildSteps_rebuild,
    List.nil_append]

/-- C25 at a concrete input: the first invocation at resolution 4. -/
theorem rebuild_order_witness :
    rebuildSteps (VoxelizeScene scenarioSettings (scenarioStatus 100) updatedState).2
      = RebuildStep.clearVolume scenarioSettings.VoxelResolution
          :: (List.replicate (shadowMapCount scenarioSettings) RebuildStep.shadowMap
            ++ [RebuildStep.rasterize 0, RebuildStep.rasterize 1, RebuildStep.rasterize 2]
            ++ List.replicate (VoxelizeScene scenarioSettings (scenarioStatus 100)
                  updatedState).1.voxelRadianceMips.NumMipLevels RebuildStep.generateMip
            ++ List.replicate
                ((VoxelizeScene scenarioSettings (scenarioStatus 100)
                  updatedState).1.voxelRadianceMips.NumMipLevels + 2)
                RebuildStep.distanceField) :=
  rebuild_order scenarioSettings (scenarioStatus 100) updatedState (by decide)

/-! ### The sample ranges of the passes -/

theorem Tiles.coverCount_above {a b x : Nat} {l : List (Nat × Nat)} (h : Tiles a b l)
    (hx : b ≤ x) : coverCount x l = 0 := by
  induction l generalizing a with
  | nil => rfl
  | cons ch rest ih =>
    obtain ⟨h1, h2, h3⟩ := h
    have hrest := ih h3
    have hle := h3.le
    unfold coverCount at hrest ⊢
    have hno : decide (ch.1 ≤ x ∧ x < ch.1 + ch.2) = false := by
      simp only [decide_eq_false_iff_not]; omega
    rw [List.filter_cons_of_neg (by simp [hno])]
    exact hrest

theorem numPasses_no_wrap {cfg : AppSettings} {P : Nat} (hP : numPasses cfg = some P)
    (hsum : numSamples cfg + numSamplesPerPass cfg - 1 < 4294967296) :
    P = (numSamples cfg + numSamplesPerPass cfg - 1) / numSamplesPerPass cfg := by
  have hpos := numPasses_spp_pos hP
  have hlt : numSamplesPerPass cfg < 4294967296 := u32_lt _
  unfold numPasses at hP
  rw [if_neg (by omega), subU32_of_le hlt hpos,
    u32_of_lt (show numSamples cfg + (numSamplesPerPass cfg - 1) < 4294967296 by omega)] at hP
  have := Option.some.inj hP
  rw [← this]
  congr 1
  omega

theorem sampleRange_eq {cfg : AppSettings} (status : MeshBakerStatus) (app : State) {P p : Nat}
    (hP : numPasses cfg = some P)
    (hsum : numSamples cfg + numSamplesPerPass cfg - 1 < 4294967296) (hp : p < P) :
    p * numSamplesPerPass cfg < numSamples cfg ∧
      sampleRange cfg status app p
        = (p * numSamplesPerPass cfg,
            min (numSamplesPerPass cfg) (numSamples cfg - p * numSamplesPerPass cfg)) := by
  have hpos := numPasses_spp_pos hP
  have hlt : p * numSamplesPerPass cfg < numSamples cfg := by
    rw [numPasses_no_wrap hP hsum] at hp
    exact (lt_chunks_iff _ _ _ hpos).mp hp
  have hT : numSamples cfg < 4294967296 := u32_lt _
  refine ⟨hlt, ?_⟩
  unfold sampleRange bakeConstants
  simp only
  rw [u32_of_lt (show p * numSamplesPerPass cfg < 4294967296 by omega),
    subU32_of_le hT (Nat.le_of_lt hlt)]

theorem sampleRanges_tiles {cfg : AppSettings} (status : MeshBakerStatus) (app : State) {P : Nat}
    (hP : numPasses cfg = some P)
    (hsum : numSamples cfg + numSamplesPerPass cfg - 1 < 4294967296) :
    ∀ n, n ≤ P → Tiles 0 (min (n * numSamplesPerPass cfg) (numSamples cfg))
      (sampleRanges cfg status app n) := by
  have hpos := numPasses_spp_pos hP
  intro n
  induction n with
  | zero =>
    intro _
    show 0 = min (0 * numSamplesPerPass cfg) (numSamples cfg)
    simp
  | succ n ih =>
    intro hn
    have hlt := (sampleRange_eq status app hP hsum (show n < P by omega))
    have hprev := ih (by omega)
    rw [min_eq_left (Nat.le_of_lt hlt.1)] at hprev
    have hlist : sampleRanges cfg status app (n + 1)
        = sampleRanges cfg status app n
          ++ [(n * numSamplesPerPass cfg,
                min (numSamplesPerPass cfg) (numSamples cfg - n * numSamplesPerPass cfg))] := by
      unfold sampleRanges
      rw [List.range_succ, List.map_append, List.map_singleton, hlt.2]
    rw [hlist]
    have hcnt : 0 < min (numSamplesPerPass cfg) (numSamples cfg - n * numSamplesPerPass cfg) := by
      have := hlt.1
      omega
    have hsn := Tiles.snoc hprev hcnt
    have hend : n * numSamplesPerPass cfg
          + min (numSamplesPerPass cfg) (numSamples cfg - n * numSamplesPerPass cfg)
        = min ((n + 1) * numSamplesPerPass cfg) (numSamples cfg) := by
      have := hlt.1
      rw [Nat.succ_mul]
      omega
    rw [hend] at hsn
    exact hsn

/-- C26 (amended): for `totalSamples = NumBakeSamples ^ 2 >= 1` and
`samplesPerPass = NumSamplesPerPass ^ 2 >= 1` with
`totalSamples + samplesPerPass - 1 < 2 ^ 32`, the sample ranges that `BakeWithVoxels`
gives to the passes `0 .. totalPasses - 1` start at `pass * samplesPerPass` without
underflow of the subtraction, hold at least 1 and at most `samplesPerPass` samples, and
tile `[0, totalSamples)`: every sample index below `totalSamples` lies in exactly one
range and no other index lies in any. -/
theorem sample_ranges_partition (cfg : AppSettings) (status : MeshBakerStatus) (app : State)
    (hT1 : 1 ≤ cfg.NumBakeSamples ^ 2) (hS1 : 1 ≤ cfg.NumSamplesPerPass ^ 2)
    (hsum : cfg.NumBakeSamples ^ 2 + cfg.NumSamplesPerPass ^ 2 - 1 < 2 ^ 32) :
    ∃ P, numPasses cfg = some P ∧ 1 ≤ P ∧
      numSamples cfg = cfg.NumBakeSamples ^ 2 ∧
      numSamplesPerPass cfg = cfg.NumSamplesPerPass ^ 2 ∧
      Tiles 0 (numSamples cfg) (sampleRanges cfg status app P) ∧
      (∀ p, p < P →
        (sampleRange cfg status app p).1 = p * numSamplesPerPass cfg ∧
        (sampleRange cfg status app p).1 < numSamples cfg ∧
        (sampleRange cfg status app p).2
          = min (numSamplesPerPass cfg) (numSamples cfg - (sampleRange cfg status app p).1) ∧
        1 ≤ (sampleRange cfg status app p).2 ∧
        (sampleRange cfg status app p).2 ≤ numSamplesPerPass cfg) ∧
      (∀ x, coverCount x (sampleRanges cfg status app P)
        = if x < numSamples cfg then 1 else 0) := by
  have hT : numSamples cfg = cfg.NumBakeSamples ^ 2 := by
    unfold numSamples
    rw [← pow_two]
    exact u32_of_lt (by norm_num at hsum; omega)
  have hS : numSamplesPerPass cfg = cfg.NumSamplesPerPass ^ 2 := by
    unfold numSamplesPerPass
    rw [← pow_two]
    exact u32_of_lt (by norm_num at hsum; omega)
  have hsum2 : numSamples cfg + numSamplesPerPass cfg - 1 < 4294967296 := by
    rw [hT, hS]; norm_num at hsum; exact hsum
  have hSpos : 0 < numSamplesPerPass cfg := by rw [hS]; exact hS1
  have hTpos : 0 < numSamples cfg := by rw [hT]; exact hT1
  obtain ⟨P, hP⟩ : ∃ P, numPasses cfg = some P := by
    unfold numPasses
    rw [if_neg (by omega)]
    exact ⟨_, rfl⟩
  have hPeq := numPasses_no_wrap hP hsum2
  have hP1 : 1 ≤ P := by
    have : 0 < P := by
      rw [hPeq]
      exact (lt_chunks_iff _ _ 0 hSpos).mpr (by omega)
    exact this
  have hfull : ¬ P * numSamplesPerPass cfg < numSamples cfg := by
    intro h
    have := (lt_chunks_iff _ _ P hSpos).mpr h
    omega
  have htiles : Tiles 0 (numSamples cfg) (sampleRanges cfg status app P) := by
    have := sampleRanges_tiles status app hP hsum2 P le_rfl
    rwa [min_eq_right (by omega)] at this
  refine ⟨P, hP, hP1, hT, hS, htiles, ?_, ?_⟩
  · intro p hp
    obtain ⟨hlt, heq⟩ := sampleRange_eq status app hP hsum2 hp
    rw [heq]
    refine ⟨rfl, hlt, rfl, ?_, min_le_left _ _⟩
    show 1 ≤ min (numSamplesPerPass cfg) (numSamples cfg - p * numSamplesPerPass cfg)
    omega
  · intro x
    by_cases hx : x < numSamples cfg
    · rw [if_pos hx]
      exact htiles.coverCount_eq_one (Nat.zero_le _) hx
    · rw [if_neg hx]
      exact htiles.coverCount_above (by omega)

/-- C26 (amended) at a concrete input: 16 samples, 4 per pass. -/
theorem sample_ranges_partition_witness :
    ∃ P, numPasses scenarioSettings = some P ∧ 1 ≤ P ∧
      numSamples scenarioSettings = scenarioSettings.NumBakeSamples ^ 2 ∧
      numSamplesPerPass scenarioSettings = scenarioSettings.NumSamplesPerPass ^ 2 ∧
      Tiles 0 (numSamples scenarioSettings)
        (sampleRanges scenarioSettings (scenarioStatus 100) State.initial P) ∧
      (∀ p, p < P →
        (sampleRange scenarioSettings (scenarioStatus 100) State.initial p).1
          = p * numSamplesPerPass scenarioSettings ∧
        (sampleRange scenarioSettings (scenarioStatus 100) State.initial p).1
          < numSamples scenarioSettings ∧
        (sampleRange scenarioSettings (scenarioStatus 100) State.initial p).2
          = min (numSamplesPerPass scenarioSettings) (numSamples scenarioSettings
              - (sampleRange scenarioSettings (scenarioStatus 100) State.initial p).1) ∧
        1 ≤ (sampleRange scenarioSettings (scenarioStatus 100) State.initial p).2 ∧
        (sampleRange scenarioSettings (scenarioStatus 100) State.initial p).2
          ≤ numSamplesPerPass scenarioSettings) ∧
      (∀ x, coverCount x (sampleRanges scenarioSettings (scenarioStatus 100) State.initial P)
        = if x < numSamples scenarioSettings then 1 else 0) :=
  sample_ranges_partition scenarioSettings (scenarioStatus 100) State.initial (by decide)
    (by decide) (by decide)

/-- C26 fails at 65535 samples per axis in total and per pass: `totalSamples` and
`samplesPerPass` are both 4294836225, the sum in the pass count wraps around, the pass
count is 0 and no range is assigned, although there are samples to bake: the first
invocation issues no bake dispatch. -/
theorem sample_ranges_empty_on_wrap :
    1 ≤ numSamples wrapSettings ∧ 1 ≤ numSamplesPerPass wrapSettings ∧
      numSamples wrapSettings = 65535 ^ 2 ∧ numSamplesPerPass wrapSettings = 65535 ^ 2 ∧
      numPasses wrapSettings = some 0 ∧
      sampleRanges wrapSettings (scenarioStatus 100) State.initial 0 = [] ∧
      coverCount 0 (sampleRanges wrapSettings (scenarioStatus 100) State.initial 0) = 0 ∧
      (BakeWithVoxels wrapSettings (scenarioStatus 100) State.initial).map
          (fun r => (r.1.voxelBakePass, bakeDispatches r.2)) = some (0, []) := by
  decide

/-! ### Bounds of the session position -/

theorem VoxelizeScene_pass (cfg : AppSettings) (status : MeshBakerStatus) (app : State) :
    (VoxelizeScene cfg status app).1.voxelBakePass = 0 ∨
      (VoxelizeScene cfg status app).1.voxelBakePass = app.voxelBakePass := by
  by_cases h : reVoxelize cfg status app = true
  · left
    rw [VoxelizeScene_rebuild h]
  · right
    rw [VoxelizeScene_skip (by simpa using h)]

theorem BakeWithVoxels_pass_le {cfg : AppSettings} {status : MeshBakerStatus} {app a : State}
    {cmds : List GpuCmd} {P : Nat} (hdef : cfg.BakeWithVoxels = true → numPasses cfg = some P)
    (hb : BakeWithVoxels cfg status app = some (a, cmds)) (hle : app.voxelBakePass ≤ P) :
    a.voxelBakePass ≤ P := by
  have hentry : (sessionAtEntry cfg status app).voxelBakePass ≤ P := by
    rcases sessionAtEntry_session cfg status app with h | h
    · rw [h.1]; exact Nat.zero_le _
    · rw [h.1]; exact hle
  by_cases hen : cfg.BakeWithVoxels = false
  · rw [BakeWithVoxels_disabled status app hen] at hb
    simp only [Option.some.injEq, Prod.mk.injEq] at hb
    rw [← hb.1]
    rcases beginFrame_session cfg status app with h | h
    · rw [h.1]; exact Nat.zero_le _
    · rw [h.1]; exact hle
  · have hen1 : cfg.BakeWithVoxels = true := by simpa using hen
    have hP := hdef hen1
    have hPlt := numPasses_lt hP
    rcases Nat.lt_or_ge (sessionAtEntry cfg status app).voxelBakePass P with hlt | hge
    · rw [BakeWithVoxels_bake hen1 hP hlt] at hb
      simp only [Option.some.injEq, Prod.mk.injEq] at hb
      rw [← hb.1]
      show (advance cfg status (sessionAtEntry cfg status app)).voxelBakePass ≤ P
      rcases advance_cases cfg status (sessionAtEntry cfg status app) with ⟨h1, _⟩ | ⟨h1, _⟩
      · rw [h1, u32_of_lt (by omega)]
        omega
      · rw [h1]; exact hentry
    · rw [BakeWithVoxels_complete hen1 hP hge] at hb
      simp only [Option.some.injEq, Prod.mk.injEq] at hb
      rw [← hb.1]
      exact hentry

theorem ReachableFixed.pass_le {N P : Nat} {app : State} (h : ReachableFixed N P app) :
    app.voxelBakePass ≤ P := by
  induction h with
  | initial => exact Nat.zero_le _
  | update app mips _ ih => exact ih
  | voxelize cfg status app _ _ ih =>
    rcases VoxelizeScene_pass cfg status app with h | h
    · rw [h]; exact Nat.zero_le _
    · rw [h]; exact ih
  | bake cfg status app a cmds _ _ hdef hb ih => exact BakeWithVoxels_pass_le hdef hb ih

/-- C27 (amended): with `N < 2 ^ 32` fixed, after every invocation of `VoxelizeScene` and
`BakeWithVoxels` from the initial state, with any settings, the offset is 0 or below `N`,
so the unsigned subtraction `N - offset` of line 1006 does not wrap around; the pass
index is at most the pass count as long as every baking invocation computes the same pass
count. -/
theorem session_bounds (N : Nat) (hN : N < 2 ^ 32) :
    (∀ app, Reachable N app →
        (app.voxelBakePointOffset = 0 ∨ app.voxelBakePointOffset < N) ∧
        ∀ cfg status, status.NumBakePoints = N →
          (sessionAtEntry cfg status app).voxelBakePointOffset ≤ N ∧
          subU32 (u32 status.NumBakePoints) (sessionAtEntry cfg status app).voxelBakePointOffset
            = N - (sessionAtEntry cfg status app).voxelBakePointOffset) ∧
      ∀ P app, ReachableFixed N P app → app.voxelBakePass ≤ P := by
  have hN' : N < 4294967296 := by norm_num at hN; exact hN
  refine ⟨?_, fun P app h => h.pass_le⟩
  intro app hr
  refine ⟨hr.offset_inv, ?_⟩
  intro cfg status hNs
  have hle := entry_offset_le hr cfg status
  refine ⟨hle, ?_⟩
  rw [hNs, u32_of_lt hN', subU32_of_le hN' hle]

/-- C27 (amended) at a concrete input: 100 bake points. -/
theorem session_bounds_witness :
    (∀ app, Reachable 100 app →
        (app.voxelBakePointOffset = 0 ∨ app.voxelBakePointOffset < 100) ∧
        ∀ cfg status, status.NumBakePoints = 100 →
          (sessionAtEntry cfg status app).voxelBakePointOffset ≤ 100 ∧
          subU32 (u32 status.NumBakePoints) (sessionAtEntry cfg status app).voxelBakePointOffset
            = 100 - (sessionAtEntry cfg status app).voxelBakePointOffset) ∧
      ∀ P app, ReachableFixed 100 P app → app.voxelBakePass ≤ P :=
  session_bounds 100 (by decide)

/-- C27 fails when the total sample count is lowered in the middle of a session: after
three invocations of the scenario with 100 bake points the pass index is 3 (of 4); an
invocation with 2 samples per axis instead of 4 computes the pass count 1, restarts
nothing, and leaves the pass index at 3. -/
theorem pass_exceeds_lowered_count :
    (runFrames scenarioSettings (scenarioStatus 100) 3 State.initial).map
        (fun r => r.1.voxelBakePass) = some 3 ∧
      numPasses { scenarioSettings with NumBakeSamples := 2 } = some 1 ∧
      ((runFrames scenarioSettings (scenarioStatus 100) 3 State.initial).bind
          (fun r => BakeWithVoxels { scenarioSettings with NumBakeSamples := 2 }
            (scenarioStatus 100) r.1)).map
        (fun r => (r.1.voxelBakePass, r.1.voxelBakePointOffset)) = some (3, 0) := by
  decide

/-! ### The cap and the advance of the session -/

theorem zero_cap_frame {cfg : AppSettings} {status : MeshBakerStatus} {app : State} {P : Nat}
    (hen : cfg.BakeWithVoxels = true) (hP : numPasses cfg = some P) (hP1 : 1 ≤ P)
    (hN1 : 1 ≤ status.NumBakePoints) (hN : status.NumBakePoints < 4294967296)
    (hc : maxPointsPerFrame cfg = 0)
    (hp0 : app.voxelBakePass = 0) (ho0 : app.voxelBakePointOffset = 0) :
    ∃ a cmds, BakeWithVoxels cfg status app = some (a, cmds) ∧
      a.voxelBakePass = 0 ∧ a.voxelBakePointOffset = 0 ∧ a.voxelBakeProgress = some 0 ∧
      clearedSlices cmds = List.range (lightMapArraySize cfg) := by
  obtain ⟨e1, e2⟩ := sessionAtEntry_fresh cfg status hp0 ho0
  have hlt : (sessionAtEntry cfg status app).voxelBakePass < P := by rw [e1]; exact hP1
  obtain ⟨a, cmds, hb, _, hpass, hoff, hprog⟩ :=
    @bake_result cfg status app P hen hP hN hlt (by rw [e2]; exact Nat.zero_le _)
  rw [e1, e2, hc] at hpass
  rw [e2, hc] at hoff
  simp only [Nat.zero_min, Nat.add_zero] at hpass hoff
  have hpass0 : a.voxelBakePass = 0 := by
    rw [hpass, if_neg (by omega)]
  have hoff0 : a.voxelBakePointOffset = 0 := by
    rw [hoff, if_neg (by omega)]
  refine ⟨a, cmds, hb, hpass0, hoff0, ?_, ?_⟩
  · rw [hprog, progressOf_eq a hN1 hN hP1 (numPasses_lt hP), hpass0, hoff0]
    simp [f32_zero]
  · have hb2 := BakeWithVoxels_bake hen hP hlt
    rw [hb2] at hb
    simp only [Option.some.injEq, Prod.mk.injEq] at hb
    rw [← hb.2, clearedSlices_bakeChunk _ _ _ _ _ (ensureBakeTexture_no_clear _ _)]
    exact clearedSlices_clearCommands_fresh (sessionAtEntry_current cfg status app) e1 e2

theorem zero_cap_run {cfg : AppSettings} {status : MeshBakerStatus} {app : State} {P : Nat}
    (hen : cfg.BakeWithVoxels = true) (hP : numPasses cfg = some P) (hP1 : 1 ≤ P)
    (hN1 : 1 ≤ status.NumBakePoints) (hN : status.NumBakePoints < 4294967296)
    (hc : maxPointsPerFrame cfg = 0)
    (hp0 : app.voxelBakePass = 0) (ho0 : app.voxelBakePointOffset = 0) (n : Nat) :
    ∃ b tr, runFrames cfg status n app = some (b, tr) ∧ tr.length = n ∧
      b.voxelBakePass = 0 ∧ b.voxelBakePointOffset = 0 ∧
      (1 ≤ n → b.voxelBakeProgress = some 0) ∧
      ∀ cmds, cmds ∈ tr → clearedSlices cmds = List.range (lightMapArraySize cfg) := by
  induction n with
  | zero =>
    exact ⟨app, [], rfl, rfl, hp0, ho0, fun h => absurd h (by decide), fun _ h => by cases h⟩
  | succ n ih =>
    obtain ⟨b, tr, hrun, hlen, hbp, hbo, _, hcl⟩ := ih
    obtain ⟨a, cmds, hb, h1, h2, h3, h4⟩ := zero_cap_frame hen hP hP1 hN1 hN hc hbp hbo
    refine ⟨a, tr ++ [cmds], runFrames_succ hrun hb, by simp [hlen], h1, h2, fun _ => h3, ?_⟩
    intro c hcmem
    rcases List.mem_append.mp hcmem with h | h
    · exact hcl c h
    · rw [List.mem_singleton.mp h]
      exact h4

/-- C30: for `1 <= N < 2 ^ 32` bake points, a baking invocation of `BakeWithVoxels` (pass
index below the pass count after the resets at entry, from a reachable state) moves the
pair `(passIndex, offset)` strictly forward in lexicographic order exactly when the
per-frame cap is at least 1; with a cap of 0 the pair is unchanged, and from `(0, 0)`
every further invocation leaves the pair at `(0, 0)`, reports progress 0 and clears every
slice of the lightmap. -/
theorem cap_drives_session (N : Nat) (hN1 : 1 ≤ N) (hN : N < 2 ^ 32) (app : State)
    (hr : Reachable N app) (cfg : AppSettings) (status : MeshBakerStatus) (P : Nat)
    (hNs : status.NumBakePoints = N) (hen : cfg.BakeWithVoxels = true)
    (hP : numPasses cfg = some P)
    (hlt : (sessionAtEntry cfg status app).voxelBakePass < P) :
    ∃ a cmds, BakeWithVoxels cfg status app = some (a, cmds) ∧
      (SessionBefore (sessionAtEntry cfg status app) a ↔ 1 ≤ maxPointsPerFrame cfg) ∧
      (maxPointsPerFrame cfg = 0 →
        a.voxelBakePass = (sessionAtEntry cfg status app).voxelBakePass ∧
        a.voxelBakePointOffset = (sessionAtEntry cfg status app).voxelBakePointOffset) ∧
      (maxPointsPerFrame cfg = 0 → app.voxelBakePass = 0 → app.voxelBakePointOffset = 0 →
        ∀ n, ∃ b tr, runFrames cfg status n app = some (b, tr) ∧ tr.length = n ∧
          b.voxelBakePass = 0 ∧ b.voxelBakePointOffset = 0 ∧
          (1 ≤ n → b.voxelBakeProgress = some 0) ∧
          ∀ c, c ∈ tr → clearedSlices c = List.range (lightMapArraySize cfg)) := by
  have hN' : status.NumBakePoints < 4294967296 := by rw [hNs]; norm_num at hN; exact hN
  have ho : (sessionAtEntry cfg status app).voxelBakePointOffset ≤ status.NumBakePoints := by
    rw [hNs]; exact entry_offset_le hr cfg status
  have hinv : (sessionAtEntry cfg status app).voxelBakePointOffset = 0 ∨
      (sessionAtEntry cfg status app).voxelBakePointOffset < N := by
    rcases sessionAtEntry_session cfg status app with h | h
    · exact Or.inl h.2
    · rw [h.2]; exact hr.offset_inv
  have holt : (sessionAtEntry cfg status app).voxelBakePointOffset < status.NumBakePoints := by
    rw [hNs]; omega
  obtain ⟨a, cmds, hb, _, hpass, hoff, _⟩ := @bake_result cfg status app P hen hP hN' hlt ho
  refine ⟨a, cmds, hb, ?_, ?_, ?_⟩
  · unfold SessionBefore
    rw [hpass, hoff]
    constructor
    · intro h
      by_contra hc
      have hc0 : maxPointsPerFrame cfg = 0 := by omega
      rw [hc0] at h
      simp only [Nat.zero_min, Nat.add_zero] at h
      rw [if_neg (by omega), if_neg (by omega)] at h
      omega
    · intro hc
      split_ifs with hfull
      · left; omega
      · right
        refine ⟨rfl, ?_⟩
        have : 1 ≤ min (maxPointsPerFrame cfg)
            (status.NumBakePoints - (sessionAtEntry cfg status app).voxelBakePointOffset) := by
          omega
        omega
  · intro hc0
    rw [hpass, hoff, hc0]
    simp only [Nat.zero_min, Nat.add_zero]
    rw [if_neg (by omega), if_neg (by omega)]
    exact ⟨rfl, rfl⟩
  · intro hc0 hp0 ho0 n
    exact zero_cap_run hen hP (by omega) (by omega) hN' hc0 hp0 ho0 n

/-- C30 at a concrete input: the first invocation of the scenario with 100 bake
points. -/
theorem cap_drives_session_witness :
    ∃ a cmds, BakeWithVoxels scenarioSettings (scenarioStatus 100) State.initial
        = some (a, cmds) ∧
      (SessionBefore (sessionAtEntry scenarioSettings (scenarioStatus 100) State.initial) a
        ↔ 1 ≤ maxPointsPerFrame scenarioSettings) ∧
      (maxPointsPerFrame scenarioSettings = 0 →
        a.voxelBakePass
          = (sessionAtEntry scenarioSettings (scenarioStatus 100) State.initial).voxelBakePass ∧
        a.voxelBakePointOffset
          = (sessionAtEntry scenarioSettings (scenarioStatus 100)
              State.initial).voxelBakePointOffset) ∧
      (maxPointsPerFrame scenarioSettings = 0 → State.initial.voxelBakePass = 0 →
        State.initial.voxelBakePointOffset = 0 →
        ∀ n, ∃ b tr, runFrames scenarioSettings (scenarioStatus 100) n State.initial
            = some (b, tr) ∧ tr.length = n ∧
          b.voxelBakePass = 0 ∧ b.voxelBakePointOffset = 0 ∧
          (1 ≤ n → b.voxelBakeProgress = some 0) ∧
          ∀ c, c ∈ tr → clearedSlices c = List.range (lightMapArraySize scenarioSettings)) :=
  cap_drives_session 100 (by decide) (by decide) State.initial Reachable.initial
    scenarioSettings (scenarioStatus 100) 4 rfl rfl (by decide) (by decide)

/-! ### The step sizes at a power-of-two resolution -/

theorem halvingSteps_eq (k : Nat) :
    (List.range k).map (stepAt (2 ^ (k - 1))) = (List.range k).map (fun i => 2 ^ (k - 1 - i)) := by
  apply List.map_congr_left
  intro i hi
  exact stepAt_pow (k - 1) i (by have := List.mem_range.mp hi; omega)

theorem halvingSteps_succ (m : Nat) :
    (List.range (m + 1)).map (stepAt (2 ^ (m + 1 - 1)))
      = 2 ^ m :: (List.range m).map (stepAt (2 ^ (m - 1))) := by
  rw [Nat.add_sub_cancel, steps_succ, steps_pow]

theorem halvingSteps_sum (k : Nat) :
    ((List.range k).map (stepAt (2 ^ (k - 1)))).sum + 1 = 2 ^ k := by
  induction k with
  | zero => rfl
  | succ m ih =>
    rw [halvingSteps_succ, List.sum_cons, pow_succ]
    omega

theorem halvingSteps_signed (k : Nat) :
    ∀ d : Int, -((2 ^ k : Nat) : Int) < d → d < ((2 ^ k : Nat) : Int) →
      ∃ es : List Int, es.length = k ∧ (∀ e, e ∈ es → e = -1 ∨ e = 0 ∨ e = 1) ∧
        signedSum es ((List.range k).map (stepAt (2 ^ (k - 1)))) = d := by
  induction k with
  | zero =>
    intro d h1 h2
    refine ⟨[], rfl, ?_, ?_⟩
    · intro e he
      exact absurd he (List.not_mem_nil e)
    · simp only [pow_zero, Nat.cast_one] at h1 h2
      show (0 : Int) = d
      omega
  | succ m ih =>
    intro d h1 h2
    have hpow : ((2 ^ (m + 1) : Nat) : Int) = 2 * ((2 ^ m : Nat) : Int) := by
      rw [pow_succ]
      push_cast
      ring
    rw [hpow] at h1 h2
    rw [halvingSteps_succ]
    by_cases hbig : ((2 ^ m : Nat) : Int) ≤ d
    · obtain ⟨es, hlen, hsig, hsum⟩ := ih (d - ((2 ^ m : Nat) : Int)) (by omega) (by omega)
      refine ⟨1 :: es, by simp [hlen], ?_, ?_⟩
      · intro e he
        rcases List.mem_cons.mp he with h | h
        · right; right; exact h
        · exact hsig e h
      · show 1 * ((2 ^ m : Nat) : Int) + signedSum es _ = d
        rw [hsum]
        omega
    · by_cases hsmall : d ≤ -((2 ^ m : Nat) : Int)
      · obtain ⟨es, hlen, hsig, hsum⟩ := ih (d + ((2 ^ m : Nat) : Int)) (by omega) (by omega)
        refine ⟨-1 :: es, by simp [hlen], ?_, ?_⟩
        · intro e he
          rcases List.mem_cons.mp he with h | h
          · left; exact h
          · exact hsig e h
        · show -1 * ((2 ^ m : Nat) : Int) + signedSum es _ = d
          rw [hsum]
          omega
      · obtain ⟨es, hlen, hsig, hsum⟩ := ih d (by omega) (by omega)
        refine ⟨0 :: es, by simp [hlen], ?_, ?_⟩
        · intro e he
          rcases List.mem_cons.mp he with h | h
          · right; left; exact h
          · exact hsig e h
        · show 0 * ((2 ^ m : Nat) : Int) + signedSum es _ = d
          rw [hsum]
          omega

/-- C29: for a power-of-two resolution `R = 2 ^ k` with `k < 32` and `numVoxelMips = k + 1`,
when `VoxelizeScene` creates the textures: for `R >= 2` the jump-flood passes are dispatched
with the step sizes `R / 2, R / 4, ..., 2, 1` in this order, exactly `k` passes, each step
twice the next, the last step 1, the steps sum to `R - 1`, and every per-axis offset `d`
with `-(R - 1) <= d <= R - 1` is a sum of steps taken with signs `-1`, `0` or `1`; for
`R = 1` a single pass of step size 1 is dispatched. -/
theorem jump_flood_steps_halve (k : Nat) (hk : k < 32) (cfg : AppSettings)
    (status : MeshBakerStatus) (app : State) (hR : cfg.VoxelResolution = 2 ^ k)
    (hm : app.numVoxelMips = k + 1)
    (hc : app.voxelRadianceCreated = false ∨ cfg.VoxelResolutionChanged = true) :
    (1 ≤ k →
        dispatchedSteps cfg status app = (List.range k).map (fun i => 2 ^ (k - 1 - i)) ∧
        (dispatchedSteps cfg status app).length = k ∧
        (dispatchedSteps cfg status app).getLast? = some 1 ∧
        (∀ i s t, (dispatchedSteps cfg status app)[i]? = some s →
          (dispatchedSteps cfg status app)[i + 1]? = some t → s = 2 * t) ∧
        (dispatchedSteps cfg status app).sum = cfg.VoxelResolution - 1 ∧
        ∀ d : Int, -(cfg.VoxelResolution : Int) < d → d < (cfg.VoxelResolution : Int) →
          ∃ es : List Int, es.length = k ∧ (∀ e, e ∈ es → e = -1 ∨ e = 0 ∨ e = 1) ∧
            signedSum es (dispatchedSteps cfg status app) = d) ∧
      (k = 0 → dispatchedSteps cfg status app = [1]) := by
  have hsteps := dispatchedSteps_pow k hk cfg status app hR hm hc
  refine ⟨?_, ?_⟩
  · intro hk1
    rw [max_eq_left hk1] at hsteps
    have hexp : dispatchedSteps cfg status app
        = (List.range k).map (fun i => 2 ^ (k - 1 - i)) := by
      rw [hsteps, halvingSteps_eq]
    refine ⟨hexp, by rw [hexp]; simp, ?_, ?_, ?_, ?_⟩
    · rw [hexp]
      obtain ⟨j, rfl⟩ : ∃ j, k = j + 1 := ⟨k - 1, by omega⟩
      rw [List.range_succ, List.map_append]
      simp
    · intro i s t hs ht
      rw [hexp, List.getElem?_map] at hs ht
      have hi : i + 1 < k := by
        by_contra hcon
        rw [List.getElem?_eq_none (by simpa using hcon)] at ht
        cases ht
      rw [List.getElem?_range (by omega)] at hs
      rw [List.getElem?_range hi] at ht
      have hs1 := Option.some.inj hs
      have ht1 := Option.some.inj ht
      rw [← hs1, ← ht1]
      show 2 ^ (k - 1 - i) = 2 * 2 ^ (k - 1 - (i + 1))
      have : k - 1 - i = (k - 1 - (i + 1)) + 1 := by omega
      rw [this, pow_succ]
      ring
    · have := halvingSteps_sum k
      rw [hsteps, hR]
      omega
    · intro d h1 h2
      rw [hR] at h1 h2
      rw [hsteps]
      exact halvingSteps_signed k d h1 h2
  · intro h0
    rw [hsteps, h0]
    rfl

/-- C29 at a concrete input: resolution 8 with 4 mip levels. -/
theorem jump_flood_steps_halve_witness :
    (1 ≤ 3 →
        dispatchedSteps (settingsAt 8) (scenarioStatus 100) (updatedTo 4)
          = (List.range 3).map (fun i => 2 ^ (3 - 1 - i)) ∧
        (dispatchedSteps (settingsAt 8) (scenarioStatus 100) (updatedTo 4)).length = 3 ∧
        (dispatchedSteps (settingsAt 8) (scenarioStatus 100) (updatedTo 4)).getLast? = some 1 ∧
        (∀ i s t, (dispatchedSteps (settingsAt 8) (scenarioStatus 100) (updatedTo 4))[i]? = some s →
          (dispatchedSteps (settingsAt 8) (scenarioStatus 100) (updatedTo 4))[i + 1]? = some t →
          s = 2 * t) ∧
        (dispatchedSteps (settingsAt 8) (scenarioStatus 100) (updatedTo 4)).sum
          = (settingsAt 8).VoxelResolution - 1 ∧
        ∀ d : Int, -((settingsAt 8).VoxelResolution : Int) < d →
          d < ((settingsAt 8).VoxelResolution : Int) →
          ∃ es : List Int, es.length = 3 ∧ (∀ e, e ∈ es → e = -1 ∨ e = 0 ∨ e = 1) ∧
            signedSum es (dispatchedSteps (settingsAt 8) (scenarioStatus 100) (updatedTo 4)) = d) ∧
      (3 = 0 → dispatchedSteps (settingsAt 8) (scenarioStatus 100) (updatedTo 4) = [1]) :=
  jump_flood_steps_halve 3 (by decide) (settingsAt 8) (scenarioStatus 100) (updatedTo 4)
    (by decide) (by decide) (by decide)

/-! ### Rebuilds and the lightmap -/

theorem scanLightmap_append (s : LightmapScan) (l1 l2 : List GpuCmd) :
    scanLightmap s (l1 ++ l2) = scanLightmap (scanLightmap s l1) l2 := by
  unfold scanLightmap
  exact List.foldl_append _ _ _ _

theorem scan_mips (s : LightmapScan) (m l w : Nat) :
    scanLightmap s (generateVoxelMipsLoop m l w) = s := by
  induction m generalizing l w with
  | zero => rfl
  | succ m ih =>
    have hcons : scanLightmap s (generateVoxelMipsLoop (m + 1) l w)
        = scanLightmap s (generateVoxelMipsLoop m (l + 1) (max (w / 2) 1)) := rfl
    rw [hcons, ih]

theorem scan_jumpFlood (s : LightmapScan) (m w : Nat) :
    scanLightmap s (jumpFloodLoop m w) = s := by
  induction m generalizing w with
  | zero => rfl
  | succ m ih =>
    have hcons : scanLightmap s (jumpFloodLoop (m + 1) w)
        = scanLightmap s (jumpFloodLoop m (max (w / 2) 1)) := rfl
    rw [hcons, ih]

theorem scan_createVoxelTextures (s : LightmapScan) (cfg : AppSettings) (app : State) :
    scanLightmap s (createVoxelTextures cfg app).2 = s := by
  unfold createVoxelTextures
  split_ifs <;> rfl

theorem scan_rebuild (s : LightmapScan) (cfg : AppSettings) (app : State) :
    scanLightmap s (rebuildCommands cfg app) = { s with cleared := [], stale := true } := by
  unfold rebuildCommands
  simp only [scanLightmap_append, scan_mips, scan_jumpFlood]
  cases cfg.EnableSun <;> cases cfg.EnableAreaLight <;> rfl

theorem scan_gutter (s : LightmapScan) (status : MeshBakerStatus) :
    scanLightmap s (gutterCommands status) = s := by
  unfold gutterCommands
  split_ifs <;> rfl

theorem scan_ensure (s : LightmapScan) (cfg : AppSettings) (app : State)
    (h : s.arraySize = app.voxelBakeTexture.ArraySize) :
    (scanLightmap s (ensureBakeTexture cfg app).2).mixed = s.mixed ∧
      (scanLightmap s (ensureBakeTexture cfg app).2).stale = s.stale ∧
      (scanLightmap s (ensureBakeTexture cfg app).2).arraySize
        = (ensureBakeTexture cfg app).1.voxelBakeTexture.ArraySize := by
  unfold ensureBakeTexture
  by_cases hc : app.voxelBakeTexture.Width ≠ u32 cfg.LightMapResolution ∨
      app.voxelBakeTexture.ArraySize ≠ lightMapArraySize cfg
  · simp only [hc, if_true]
    exact ⟨rfl, rfl, rfl⟩
  · simp only [hc, if_false]
    exact ⟨rfl, rfl, h⟩

theorem scan_clears (l : List Nat) :
    ∀ s : LightmapScan,
      (scanLightmap s (l.map GpuCmd.clearLightMapSlice)).arraySize = s.arraySize ∧
      (scanLightmap s (l.map GpuCmd.clearLightMapSlice)).mixed = s.mixed ∧
      (scanLightmap s (l.map GpuCmd.clearLightMapSlice)).cleared = l.reverse ++ s.cleared ∧
      (s.stale = false → (scanLightmap s (l.map GpuCmd.clearLightMapSlice)).stale = false) := by
  induction l with
  | nil => intro s; exact ⟨rfl, rfl, rfl, fun h => h⟩
  | cons i rest ih =>
    intro s
    have hcons : scanLightmap s ((i :: rest).map GpuCmd.clearLightMapSlice)
        = scanLightmap (scanStep s (GpuCmd.clearLightMapSlice i))
            (rest.map GpuCmd.clearLightMapSlice) := rfl
    rw [hcons]
    obtain ⟨h1, h2, h3, h4⟩ := ih (scanStep s (GpuCmd.clearLightMapSlice i))
    refine ⟨h1, h2, ?_, ?_⟩
    · rw [h3]
      show rest.reverse ++ (i :: s.cleared) = (i :: rest).reverse ++ s.cleared
      simp
    · intro hs
      apply h4
      show (s.stale && _) = false
      rw [hs]
      rfl

theorem scan_clears_all (s : LightmapScan) (n : Nat) (hn : s.arraySize = n + 1) :
    (scanLightmap s ((List.range (n + 1)).map GpuCmd.clearLightMapSlice)).stale = false ∧
      (scanLightmap s ((List.range (n + 1)).map GpuCmd.clearLightMapSlice)).mixed = s.mixed ∧
      (scanLightmap s ((List.range (n + 1)).map GpuCmd.clearLightMapSlice)).arraySize
        = s.arraySize := by
  refine ⟨?_, (scan_clears _ s).2.1, (scan_clears _ s).1⟩
  rw [List.range_succ, List.map_append, scanLightmap_append]
  obtain ⟨h1, _, h3, _⟩ := scan_clears (List.range n) s
  show (scanStep (scanLightmap s ((List.range n).map GpuCmd.clearLightMapSlice))
    (GpuCmd.clearLightMapSlice n)).stale = false
  show ((scanLightmap s ((List.range n).map GpuCmd.clearLightMapSlice)).stale &&
    !((List.range (scanLightmap s ((List.range n).map GpuCmd.clearLightMapSlice)).arraySize).all
        (fun j => decide (j ∈ n ::
          (scanLightmap s ((List.range n).map GpuCmd.clearLightMapSlice)).cleared)))) = false
  rw [h1, h3, hn]
  have hall : (List.range (n + 1)).all
      (fun j => decide (j ∈ n :: ((List.range n).reverse ++ s.cleared))) = true := by
    rw [List.all_eq_true]
    intro j hj
    have hj1 := List.mem_range.mp hj
    simp only [decide_eq_true_eq, List.mem_cons, List.mem_append, List.mem_reverse,
      List.mem_range]
    omega
  rw [hall]
  simp

theorem createVoxelTextures_texture (cfg : AppSettings) (app : State) :
    (createVoxelTextures cfg app).1.voxelBakeTexture = app.voxelBakeTexture := by
  unfold createVoxelTextures
  split_ifs <;> rfl

theorem ScanAgrees.voxelize {s : LightmapScan} {app : State} (h : ScanAgrees s app)
    (cfg : AppSettings) (status : MeshBakerStatus) :
    ScanAgrees (scanLightmap s (VoxelizeScene cfg status app).2)
      (VoxelizeScene cfg status app).1 := by
  by_cases hre : reVoxelize cfg status app = true
  · rw [VoxelizeScene_rebuild hre, scanLightmap_append, scan_createVoxelTextures, scan_rebuild]
    refine ⟨h.1, ?_, fun _ => ⟨rfl, rfl⟩⟩
    show s.arraySize = (createVoxelTextures cfg app).1.voxelBakeTexture.ArraySize
    rw [createVoxelTextures_texture]
    exact h.2.1
  · rw [VoxelizeScene_skip (by simpa using hre)]
    exact h

theorem ScanAgrees.bake {s : LightmapScan} {app a : State} {cfg : AppSettings}
    {status : MeshBakerStatus} {cmds : List GpuCmd} (h : ScanAgrees s app)
    (hb : BakeWithVoxels cfg status app = some (a, cmds)) :
    ScanAgrees (scanLightmap s cmds) a := by
  obtain ⟨hmix, hsize, hstale⟩ := h
  by_cases hen : cfg.BakeWithVoxels = false
  · rw [BakeWithVoxels_disabled status app hen] at hb
    simp only [Option.some.injEq, Prod.mk.injEq] at hb
    rw [← hb.1, ← hb.2]
    refine ⟨hmix, ?_, ?_⟩
    · rw [beginFrame_texture]; exact hsize
    · intro hs
      obtain ⟨hp, ho⟩ := hstale hs
      rcases beginFrame_session cfg status app with hz | hz
      · exact hz
      · exact ⟨hz.1.trans hp, hz.2.trans ho⟩
  · have hen1 : cfg.BakeWithVoxels = true := by simpa using hen
    have hsize1 : s.arraySize = (beginFrame cfg status app).voxelBakeTexture.ArraySize := by
      rw [beginFrame_texture]; exact hsize
    obtain ⟨e1, e2, e3⟩ := scan_ensure s cfg (beginFrame cfg status app) hsize1
    have hentry : s.stale = true → (sessionAtEntry cfg status app).voxelBakePass = 0 ∧
        (sessionAtEntry cfg status app).voxelBakePointOffset = 0 := by
      intro hs
      obtain ⟨hp, ho⟩ := hstale hs
      exact sessionAtEntry_fresh cfg status hp ho
    cases hPo : numPasses cfg with
    | none =>
      unfold BakeWithVoxels at hb
      simp [hen1, hPo] at hb
    | some P =>
      rcases Nat.lt_or_ge (sessionAtEntry cfg status app).voxelBakePass P with hlt | hge
      · rw [BakeWithVoxels_bake hen1 hPo hlt] at hb
        simp only [Option.some.injEq, Prod.mk.injEq] at hb
        rw [← hb.1, ← hb.2]
        have htex : ((bakeChunk cfg status P (sessionAtEntry cfg status app)).1).voxelBakeTexture
            = (sessionAtEntry cfg status app).voxelBakeTexture :=
          advance_texture cfg status (sessionAtEntry cfg status app)
        have hcur := (sessionAtEntry_current cfg status app).2
        have harr : (scanLightmap s (ensureBakeTexture cfg (beginFrame cfg status app)).2).arraySize
            = lightMapArraySize cfg := by
          rw [e3]; exact hcur
        obtain ⟨n, hn⟩ : ∃ n, lightMapArraySize cfg = n + 1 := by
          have : 2 ≤ lightMapArraySize cfg := le_max_right _ _
          exact ⟨lightMapArraySize cfg - 1, by omega⟩
        have hscan : (scanLightmap (scanLightmap s
              (ensureBakeTexture cfg (beginFrame cfg status app)).2)
              (clearCommands (sessionAtEntry cfg status app))).stale = false ∧
            (scanLightmap (scanLightmap s
              (ensureBakeTexture cfg (beginFrame cfg status app)).2)
              (clearCommands (sessionAtEntry cfg status app))).mixed = false ∧
            (scanLightmap (scanLightmap s
              (ensureBakeTexture cfg (beginFrame cfg status app)).2)
              (clearCommands (sessionAtEntry cfg status app))).arraySize
                = lightMapArraySize cfg := by
          by_cases hs : s.stale = true
          · obtain ⟨hp, ho⟩ := hentry hs
            have hclear : clearCommands (sessionAtEntry cfg status app)
                = (List.range (n + 1)).map GpuCmd.clearLightMapSlice := by
              unfold clearCommands
              rw [if_pos ⟨hp, ho⟩, hcur, hn]
            rw [hclear]
            obtain ⟨c1, c2, c3⟩ := scan_clears_all
              (scanLightmap s (ensureBakeTexture cfg (beginFrame cfg status app)).2) n
              (by rw [harr, hn])
            exact ⟨c1, by rw [c2, e1]; exact hmix, by rw [c3]; exact harr⟩
          · have hs0 : s.stale = false := by simpa using hs
            unfold clearCommands
            split_ifs
            · obtain ⟨c1, c2, _, c4⟩ := scan_clears
                (List.range (sessionAtEntry cfg status app).voxelBakeTexture.ArraySize)
                (scanLightmap s (ensureBakeTexture cfg (beginFrame cfg status app)).2)
              exact ⟨c4 (by rw [e2]; exact hs0), by rw [c2, e1]; exact hmix,
                by rw [c1]; exact harr⟩
            · exact ⟨e2.trans hs0, e1.trans hmix, harr⟩
        obtain ⟨f1, f2, f3⟩ := hscan
        simp only [bakeChunk, scanLightmap_append, scan_gutter]
        refine ⟨?_, ?_, ?_⟩
        · show ((scanLightmap (scanLightmap s
              (ensureBakeTexture cfg (beginFrame cfg status app)).2)
              (clearCommands (sessionAtEntry cfg status app))).mixed ||
            (scanLightmap (scanLightmap s
              (ensureBakeTexture cfg (beginFrame cfg status app)).2)
              (clearCommands (sessionAtEntry cfg status app))).stale) = false
          rw [f1, f2]
          rfl
        · show (scanLightmap (scanLightmap s
              (ensureBakeTexture cfg (beginFrame cfg status app)).2)
              (clearCommands (sessionAtEntry cfg status app))).arraySize
            = (advance cfg status (sessionAtEntry cfg status app)).voxelBakeTexture.ArraySize
          rw [f3, advance_texture]
          exact hcur.symm
        · intro hs
          have : (scanLightmap (scanLightmap s
              (ensureBakeTexture cfg (beginFrame cfg status app)).2)
              (clearCommands (sessionAtEntry cfg status app))).stale = true := hs
          rw [f1] at this
          cases this
      · rw [BakeWithVoxels_complete hen1 hPo hge] at hb
        simp only [Option.some.injEq, Prod.mk.injEq] at hb
        rw [← hb.1, ← hb.2]
        refine ⟨by rw [e1]; exact hmix, e3, ?_⟩
        intro hs
        rw [e2] at hs
        exact hentry hs

theorem ScanAgrees.frames (frames : List (AppSettings × MeshBakerStatus × Nat)) :
    ∀ (s : LightmapScan) (app a : State) (cmds : List GpuCmd), ScanAgrees s app →
      renderFrames frames app = some (a, cmds) → ScanAgrees (scanLightmap s cmds) a := by
  induction frames with
  | nil =>
    intro s app a cmds h hr
    simp only [renderFrames, Option.some.injEq, Prod.mk.injEq] at hr
    rw [← hr.1, ← hr.2]
    exact h
  | cons frame rest ih =>
    intro s app a cmds h hr
    unfold renderFrames at hr
    cases hf : renderFrame frame.1 frame.2.1 { app with numVoxelMips := frame.2.2 } with
    | none => rw [hf] at hr; cases hr
    | some r =>
      obtain ⟨a1, c1⟩ := r
      rw [hf] at hr
      dsimp only at hr
      cases hrest : renderFrames rest a1 with
      | none => rw [hrest] at hr; cases hr
      | some r2 =>
        obtain ⟨b, more⟩ := r2
        rw [hrest] at hr
        dsimp only at hr
        simp only [Option.some.injEq, Prod.mk.injEq] at hr
        rw [← hr.1, ← hr.2, scanLightmap_append]
        refine ih _ a1 b more ?_ hrest
        unfold renderFrame at hf
        cases hbk : BakeWithVoxels frame.1 frame.2.1
            (VoxelizeScene frame.1 frame.2.1 { app with numVoxelMips := frame.2.2 }).1 with
        | none => rw [hbk] at hf; cases hf
        | some r3 =>
          obtain ⟨a2, c2⟩ := r3
          rw [hbk] at hf
          dsimp only at hf
          simp only [Option.some.injEq, Prod.mk.injEq] at hf
          rw [← hf.1, ← hf.2, scanLightmap_append]
          have h0 : ScanAgrees s { app with numVoxelMips := frame.2.2 } := h
          exact (h0.voxelize frame.1 frame.2.1).bake hbk

/-- A bake dispatch that follows a rebuild of the volume with no clear of the lightmap in
between is flagged by the scan; with the clear of both slices in between it is not. -/
theorem scan_flags_missing_clear (c : VoxelBakeConstants) :
    (scanLightmap { arraySize := 2, cleared := [], stale := false, mixed := false }
        [GpuCmd.dispatchClearVoxelRadiance 4, GpuCmd.dispatchVoxelBake 100 c]).mixed = true ∧
      (scanLightmap { arraySize := 2, cleared := [], stale := false, mixed := false }
        [GpuCmd.dispatchClearVoxelRadiance 4, GpuCmd.clearLightMapSlice 0,
          GpuCmd.dispatchVoxelBake 100 c]).mixed = true ∧
      (scanLightmap { arraySize := 2, cleared := [], stale := false, mixed := false }
        [GpuCmd.dispatchClearVoxelRadiance 4, GpuCmd.clearLightMapSlice 0,
          GpuCmd.clearLightMapSlice 1, GpuCmd.dispatchVoxelBake 100 c]).mixed = false :=
  ⟨rfl, rfl, rfl⟩

/-- C28: in every sequence of frames of `Render` (`VoxelizeScene` followed by
`BakeWithVoxels`), from any state and with any settings and flags in each frame: every
rebuild of the voxel volume resets the bake session to pass 0, offset 0; the session is
still at pass 0, offset 0 as long as the lightmap was not cleared since the rebuild; and
no bake dispatch is issued between a rebuild and the next clear of all slices of the
lightmap, so no lightmap accumulates dispatches against two voxelizations. -/
theorem rebuild_clears_before_bake (frames : List (AppSettings × MeshBakerStatus × Nat))
    (app a : State) (cmds : List GpuCmd) (h : renderFrames frames app = some (a, cmds)) :
    (scanLightmap (startScan app) cmds).mixed = false ∧
      ((scanLightmap (startScan app) cmds).stale = true →
        a.voxelBakePass = 0 ∧ a.voxelBakePointOffset = 0) ∧
      ∀ cfg status s, reVoxelize cfg status s = true →
        (VoxelizeScene cfg status s).1.voxelBakePass = 0 ∧
          (VoxelizeScene cfg status s).1.voxelBakePointOffset = 0 := by
  have hstart : ScanAgrees (startScan app) app := ⟨rfl, rfl, fun hs => by cases hs⟩
  obtain ⟨h1, _, h3⟩ := ScanAgrees.frames frames (startScan app) app a cmds hstart h
  refine ⟨h1, h3, ?_⟩
  intro cfg status s hre
  rw [VoxelizeScene_rebuild hre]
  exact ⟨rfl, rfl⟩

/-- C28 at a concrete input: the first frame of the scenario with 100000 bake points
followed by a frame in which the upstream baker signals an invalidation. -/
theorem rebuild_clears_before_bake_witness :
    ∃ a cmds,
      renderFrames [(scenarioSettings, scenarioStatus 100000, 3),
          (scenarioSettings, invalidatedStatus, 3)] State.initial = some (a, cmds) ∧
      (scanLightmap (startScan State.initial) cmds).mixed = false ∧
      ((scanLightmap (startScan State.initial) cmds).stale = true →
        a.voxelBakePass = 0 ∧ a.voxelBakePointOffset = 0) ∧
      ∀ cfg status s, reVoxelize cfg status s = true →
        (VoxelizeScene cfg status s).1.voxelBakePass = 0 ∧
          (VoxelizeScene cfg status s).1.voxelBakePointOffset = 0 :=
  ⟨_, _, rfl, rebuild_clears_before_bake
    [(scenarioSettings, scenarioStatus 100000, 3), (scenarioSettings, invalidatedStatus, 3)]
    State.initial _ _ rfl⟩

end BakingLab
